import Mathlib

/-!
# smallpt_rewrite.cpp : a shallow embedding

The program computes with `Float = double`.  The embedding is generic over a
linearly ordered field `F` (real-number semantics: `ℝ` for the theorems that
need square roots, `ℚ` for evaluation).  The libm functions the program calls
(`sqrt`, `cos`, `sin`) and the constant `Pi` are not part of the repository and
are taken as a parameter `FloatMath F`.  `int` values are `Int`s, wrapped to 32
bits by `wrapInt32` wherever the program's arithmetic can leave the `int` range.
`Sphere::Intersect` is also embedded in IEEE double arithmetic (`Sphere.IntersectFl`,
every operation rounded to the nearest double by `fl`), to show where the two
semantics part.
-/

namespace Smallpt

/-! ## Math -/

/-- The libm functions and the constant `Pi` used by the program (`<cmath>`, `<numbers>`). -/
structure FloatMath (F : Type) where
  sqrt : F → F
  cos : F → F
  sin : F → F
  Pi : F

/-- Real-number semantics of the libm parameter: `sqrt` is the non-negative square root on
non-negative arguments, `cos` and `sin` satisfy the Pythagorean identity, and `Pi` is positive. -/
structure FloatMath.Exact {F : Type} [LinearOrderedField F] (m : FloatMath F) : Prop where
  sqrt_nonneg : ∀ x : F, 0 ≤ x → 0 ≤ m.sqrt x
  sqrt_mul_self : ∀ x : F, 0 ≤ x → m.sqrt x * m.sqrt x = x
  cos_sq_add_sin_sq : ∀ x : F, m.cos x * m.cos x + m.sin x * m.sin x = 1
  Pi_pos : 0 < m.Pi

/-- Two's-complement wrap of an integer to the range of a 32-bit `int`. -/
def wrapInt32 (z : Int) : Int := (z + 2147483648) % 4294967296 - 2147483648

/-! ## Geometry -/

/-- `struct Vector2`. -/
structure Vector2 (F : Type) where
  x : F
  y : F

/-- `struct Vector3` (also `Float3`, `Point3`, `Normal3`, `UnitVector3`, `Color`). -/
structure Vector3 (F : Type) where
  x : F
  y : F
  z : F

section Geometry
variable {F : Type} [LinearOrderedField F]

/-- `Vector2 operator+`. -/
def Vector2.add (a b : Vector2 F) : Vector2 F := ⟨a.x + b.x, a.y + b.y⟩

/-- `Vector3()` : the default constructor, all components `0`. -/
def Vector3.zero : Vector3 F := ⟨0, 0, 0⟩

/-- `Vector3 operator-() const`. -/
def Vector3.neg (a : Vector3 F) : Vector3 F := ⟨-a.x, -a.y, -a.z⟩

/-- `Vector3 operator+(const Vector3& b) const`. -/
def Vector3.add (a b : Vector3 F) : Vector3 F := ⟨a.x + b.x, a.y + b.y, a.z + b.z⟩

/-- `Vector3 operator-(const Vector3& b) const`. -/
def Vector3.sub (a b : Vector3 F) : Vector3 F := ⟨a.x - b.x, a.y - b.y, a.z - b.z⟩

/-- `Vector3 operator*(Float b) const`. -/
def Vector3.scale (a : Vector3 F) (b : F) : Vector3 F := ⟨a.x * b, a.y * b, a.z * b⟩

/-- `Vector3 operator/(Float b) const`. -/
def Vector3.divs (a : Vector3 F) (b : F) : Vector3 F := ⟨a.x / b, a.y / b, a.z / b⟩

/-- `Vector3 operator*(const Vector3& c) const` : the per-channel product, only for `Color`. -/
def Vector3.mulc (a c : Vector3 F) : Vector3 F := ⟨a.x * c.x, a.y * c.y, a.z * c.z⟩

/-- `Float Dot(const Vector3& b) const`. -/
def Vector3.Dot (a b : Vector3 F) : F := a.x * b.x + a.y * b.y + a.z * b.z

/-- `Vector3 Cross(Vector3& b)`. -/
def Vector3.Cross (a b : Vector3 F) : Vector3 F :=
  ⟨a.y * b.z - a.z * b.y, a.z * b.x - a.x * b.z, a.x * b.y - a.y * b.x⟩

/-- `Vector3& Normalize()` : `*this * (1 / sqrt(x * x + y * y + z * z))`. -/
def Vector3.Normalize (m : FloatMath F) (a : Vector3 F) : Vector3 F :=
  a.scale (1 / m.sqrt (a.x * a.x + a.y * a.y + a.z * a.z))

instance : Add (Vector3 F) := ⟨Vector3.add⟩
instance : Sub (Vector3 F) := ⟨Vector3.sub⟩
instance : Neg (Vector3 F) := ⟨Vector3.neg⟩
instance : Mul (Vector3 F) := ⟨Vector3.mulc⟩
instance : HMul (Vector3 F) F (Vector3 F) := ⟨Vector3.scale⟩
instance : HDiv (Vector3 F) F (Vector3 F) := ⟨Vector3.divs⟩

/-- Every channel of a colour is non-negative. -/
def Vector3.Nonneg (c : Vector3 F) : Prop := 0 ≤ c.x ∧ 0 ≤ c.y ∧ 0 ≤ c.z

end Geometry

/-- `struct Ray`. -/
structure Ray (F : Type) where
  origin : Vector3 F
  direction : Vector3 F

/-! ## Sampler -/

/-- `class RNG`. The engine (`std::mt19937_64` behind `uniform_real_distribution<Float>`) is not
part of the repository: `engine i` is the `i`-th value `UniformFloat()` returns for the engine's
seed, `count` the number of values drawn so far. -/
structure RNG (F : Type) where
  engine : Nat → F
  count : Nat

/-- `struct CameraSample`. -/
structure CameraSample (F : Type) where
  pFilm : Vector2 F

/-- The two concrete classes derived from `class Sampler`. -/
inductive SamplerKind where
  | RandomSampler
  | TrapezoidalSampler
  deriving DecidableEq, Repr

/-- `class Sampler` with the data members of its subclasses; `currentSubPixelIndex` belongs to
`TrapezoidalSampler` and is not used by `RandomSampler`. -/
structure Sampler (F : Type) where
  kind : SamplerKind
  rng : RNG F
  samplesPerPixel : Int
  currentSampleIndex : Int
  currentSubPixelIndex : Int

section SamplerDefs
variable {F : Type} [LinearOrderedField F]

/-- `Float RNG::UniformFloat()` : the next value of the engine. -/
def RNG.UniformFloat (r : RNG F) : F × RNG F :=
  (r.engine r.count, { r with count := r.count + 1 })

/-- `Vector2 RNG::UniformFloat2()` : `Vector2(UniformFloat(), UniformFloat())`, the first
argument drawn first. -/
def RNG.UniformFloat2 (r : RNG F) : Vector2 F × RNG F :=
  let a := r.UniformFloat
  let b := a.2.UniformFloat
  (⟨a.1, b.1⟩, b.2)

/-- `Sampler(int samplesPerPixel)` : the constructor shared by both subclasses. `mt` is the
output sequence of a default-seeded (`seed = 1234`) `RNG`. -/
def Sampler.new (mt : Nat → F) (kind : SamplerKind) (samplesPerPixel : Int) : Sampler F :=
  { kind := kind, rng := ⟨mt, 0⟩, samplesPerPixel := samplesPerPixel,
    currentSampleIndex := 0, currentSubPixelIndex := 0 }

/-- `static constexpr int SubPixelNum = 4; // 2x2`. -/
def SubPixelNum : Int := 4

/-- `int SamplesPerPixel()` : `samplesPerPixel` for `RandomSampler`,
`samplesPerPixel * SubPixelNum` (an `int` product) for `TrapezoidalSampler`. -/
def Sampler.SamplesPerPixel (s : Sampler F) : Int :=
  match s.kind with
  | SamplerKind.RandomSampler => s.samplesPerPixel
  | SamplerKind.TrapezoidalSampler => wrapInt32 (s.samplesPerPixel * SubPixelNum)

/-- `std::unique_ptr<Sampler> Clone()` : a new sampler of the same class, constructed from
`samplesPerPixel`. -/
def Sampler.Clone (mt : Nat → F) (s : Sampler F) : Sampler F :=
  Sampler.new mt s.kind s.samplesPerPixel

/-- `void StartPixel()`. -/
def Sampler.StartPixel (s : Sampler F) : Sampler F :=
  match s.kind with
  | SamplerKind.RandomSampler => { s with currentSampleIndex := 0 }
  | SamplerKind.TrapezoidalSampler => { s with currentSampleIndex := 0, currentSubPixelIndex := 0 }

/-- `bool StartNextSample()` : the returned flag and the sampler afterwards. -/
def Sampler.StartNextSample (s : Sampler F) : Bool × Sampler F :=
  match s.kind with
  | SamplerKind.RandomSampler =>
    let s1 := { s with currentSampleIndex := wrapInt32 (s.currentSampleIndex + 1) }
    (decide (s1.currentSampleIndex < s1.samplesPerPixel), s1)
  | SamplerKind.TrapezoidalSampler =>
    let s1 := { s with currentSampleIndex := wrapInt32 (s.currentSampleIndex + 1) }
    if s1.currentSampleIndex < s1.samplesPerPixel then
      (true, s1)
    else if s1.currentSampleIndex = s1.samplesPerPixel then
      let s2 := { s1 with currentSampleIndex := 0,
                          currentSubPixelIndex := wrapInt32 (s1.currentSubPixelIndex + 1) }
      (decide (s2.currentSubPixelIndex < SubPixelNum), s2)
    else
      (false, s1)

/-- `Float Get1D()` (the same in both subclasses). -/
def Sampler.Get1D (s : Sampler F) : F × Sampler F :=
  let r := s.rng.UniformFloat
  (r.1, { s with rng := r.2 })

/-- `Vector2 Get2D()` (the same in both subclasses). -/
def Sampler.Get2D (s : Sampler F) : Vector2 F × Sampler F :=
  let r := s.rng.UniformFloat2
  (r.1, { s with rng := r.2 })

/-- The tent warp of `TrapezoidalSampler::GetCameraSample`:
`random < 1 ? sqrt(random) - 1 : 1 - sqrt(2 - random)`. -/
def tentWarp (m : FloatMath F) (random : F) : F :=
  if random < 1 then m.sqrt random - 1 else 1 - m.sqrt (2 - random)

/-- `CameraSample GetCameraSample(Point2 pFilm)`. -/
def Sampler.GetCameraSample (m : FloatMath F) (s : Sampler F) (pFilm : Vector2 F) :
    CameraSample F × Sampler F :=
  match s.kind with
  | SamplerKind.RandomSampler =>
    let r := s.rng.UniformFloat2
    (⟨pFilm.add r.1⟩, { s with rng := r.2 })
  | SamplerKind.TrapezoidalSampler =>
    let subPixelX := Int.tmod s.currentSubPixelIndex 2
    let subPixelY := Int.tdiv s.currentSubPixelIndex 2
    let r1 := s.rng.UniformFloat
    let random1 := 2 * r1.1
    let r2 := r1.2.UniformFloat
    let random2 := 2 * r2.1
    let deltaX := tentWarp m random1
    let deltaY := tentWarp m random2
    let samplePoint : Vector2 F :=
      ⟨((subPixelX : F) + deltaX + 0.5) / 2, ((subPixelY : F) + deltaY + 0.5) / 2⟩
    (⟨pFilm.add samplePoint⟩, { s with rng := r2.2 })

/-- `int samplesPerPixel = argc == 2 ? atoi(argv[1]) / 4 : 10;` in `main`. `atoiArg` is the
value `atoi(argv[1])` returns (an `int`; `0` for an unparsable argument); `/` on `int` truncates
toward zero. -/
def mainSamplesPerPixel (argc : Int) (atoiArg : Int) : Int :=
  if argc = 2 then Int.tdiv atoiArg 4 else 10

/-- `std::make_unique<TrapezoidalSampler>(samplesPerPixel)` in `main`. -/
def mainOriginalSampler (mt : Nat → F) (argc : Int) (atoiArg : Int) : Sampler F :=
  Sampler.new mt SamplerKind.TrapezoidalSampler (mainSamplesPerPixel argc atoiArg)

end SamplerDefs

/-! ## Shape -/

/-- `enum class MaterialType`. -/
inductive MaterialType where
  | Diffuse
  | Specular
  | Refract
  deriving DecidableEq, Repr

/-- `struct Sphere`. -/
structure Sphere (F : Type) where
  radius : F
  center : Vector3 F
  emission : Vector3 F
  color : Vector3 F
  materialType : MaterialType

section Shape
variable {F : Type} [LinearOrderedField F]

/-- `Float Sphere::Intersect(const Ray& ray) const` : returns distance, 0 if nohit. -/
def Sphere.Intersect (m : FloatMath F) (s : Sphere F) (ray : Ray F) : F :=
  let oc := s.center - ray.origin
  let neg_b := oc.Dot ray.direction
  let det := neg_b * neg_b - oc.Dot oc + s.radius * s.radius
  if det < 0 then 0
  else
    let det := m.sqrt det
    let epsilon : F := 1e-4
    let t := neg_b - det
    if t > epsilon then t
    else
      let t := neg_b + det
      if t > epsilon then t
      else 0

/-- The discriminant `det` of `Sphere::Intersect` before the square root is taken. -/
def Sphere.discriminant (s : Sphere F) (ray : Ray F) : F :=
  (s.center - ray.origin).Dot ray.direction * (s.center - ray.origin).Dot ray.direction
    - (s.center - ray.origin).Dot (s.center - ray.origin) + s.radius * s.radius

/-- The parameter `t` is a root for sphere `s` and ray `ray`:
`|origin + t*direction - center|^2 = radius^2`. -/
def Sphere.IsRoot (s : Sphere F) (ray : Ray F) (t : F) : Prop :=
  (ray.origin + ray.direction * t - s.center).Dot (ray.origin + ray.direction * t - s.center)
    = s.radius * s.radius

end Shape

/-! ## Scene -/

section SceneDefs
variable (F : Type) [LinearOrderedField F]

/-- `Sphere Scene[]` : radius, center, emission, color, material. -/
def Scene : List (Sphere F) :=
  [ ⟨1e5, ⟨1e5 + 1, 40.8, 81.6⟩, Vector3.zero, ⟨0.75, 0.25, 0.25⟩, MaterialType.Diffuse⟩,   -- Left
    ⟨1e5, ⟨-1e5 + 99, 40.8, 81.6⟩, Vector3.zero, ⟨0.25, 0.25, 0.75⟩, MaterialType.Diffuse⟩, -- Right
    ⟨1e5, ⟨50, 40.8, 1e5⟩, Vector3.zero, ⟨0.75, 0.75, 0.75⟩, MaterialType.Diffuse⟩,         -- Back
    ⟨1e5, ⟨50, 40.8, -1e5 + 170⟩, Vector3.zero, Vector3.zero, MaterialType.Diffuse⟩,        -- Front
    ⟨1e5, ⟨50, 1e5, 81.6⟩, Vector3.zero, ⟨0.75, 0.75, 0.75⟩, MaterialType.Diffuse⟩,         -- Bottom
    ⟨1e5, ⟨50, -1e5 + 81.6, 81.6⟩, Vector3.zero, ⟨0.75, 0.75, 0.75⟩, MaterialType.Diffuse⟩, -- Top
    ⟨16.5, ⟨27, 16.5, 47⟩, Vector3.zero, (⟨1, 1, 1⟩ : Vector3 F) * (0.999 : F),
      MaterialType.Specular⟩,                                                               -- Mirror
    ⟨16.5, ⟨73, 16.5, 78⟩, Vector3.zero, (⟨1, 1, 1⟩ : Vector3 F) * (0.999 : F),
      MaterialType.Refract⟩,                                                                -- Glass
    ⟨600, ⟨50, 681.6 - 0.27, 81.6⟩, ⟨12, 12, 12⟩, Vector3.zero, MaterialType.Diffuse⟩ ]     -- Light

/-- `Scene[i]`. The program only indexes `Scene` with `0 <= i < sphereNum`; the fallback value
(an all-zero sphere) stands for the out-of-range read, which is never made. -/
def sceneAt (i : Nat) : Sphere F :=
  (Scene F).getD i ⟨0, Vector3.zero, Vector3.zero, Vector3.zero, MaterialType.Diffuse⟩

end SceneDefs

section SceneIntersect
variable {F : Type} [LinearOrderedField F]

/-- The loop `for (int i = sphereNum; i--;)` of the scene-level `Intersect`, with `i + 1` the
value of `i` tested by the loop condition (so the body runs with index `i`, then `i - 1`, ...,
down to `0`), over the per-sphere distances `dist i = Scene[i].Intersect(ray)`. The state is
`(minDistance, id)`. -/
def IntersectLoop (dist : Nat → F) : Nat → F → Nat → F × Nat
  | 0, minDistance, id => (minDistance, id)
  | i + 1, minDistance, id =>
    let distance := dist i
    if distance ≠ 0 ∧ distance < minDistance then IntersectLoop dist i distance i
    else IntersectLoop dist i minDistance id

/-- `inline bool Intersect(const Ray& ray, Float& minDistance, int& id)`. The argument `id` is
the value of the reference parameter on entry; the result is the returned flag and the values of
`minDistance` and `id` on exit. -/
def Intersect (m : FloatMath F) (ray : Ray F) (id : Nat) : Bool × F × Nat :=
  let infinity : F := 1e20
  let sphereNum := (Scene F).length
  let r := IntersectLoop (fun i => (sceneAt F i).Intersect m ray) sphereNum infinity id
  (decide (r.1 < infinity), r.1, r.2)

end SceneIntersect

/-! ## Integrator -/

/-- What one activation of `Radiance` does up to its nested `Radiance` calls: it returns a colour
without a nested call (`ret`), or makes one nested call (`call1`) or two (`call2`) with the given
rays, depth and sampler, and returns `k` applied to their results. The sampler is passed by
reference: `sampler` is its state when the first nested call starts, the second nested call
receives it as the first one leaves it, and the activation does not touch it afterwards. -/
inductive Outcome (F : Type) where
  | ret (c : Vector3 F) (sampler : Sampler F)
  | call1 (ray : Ray F) (depth : Int) (sampler : Sampler F) (k : Vector3 F → Vector3 F)
  | call2 (ray1 ray2 : Ray F) (depth : Int) (sampler : Sampler F)
      (k : Vector3 F → Vector3 F → Vector3 F)

section Integrator
variable {F : Type} [LinearOrderedField F]

/-- `Float max_component = f.x > f.y && f.x > f.z ? f.x : f.y > f.z ? f.y : f.z; // max refl`. -/
def maxComponent (f : Vector3 F) : F :=
  if f.x > f.y ∧ f.x > f.z then f.x else if f.y > f.z then f.y else f.z

/-- The Russian-roulette decision of `Radiance` for the draw `u = sampler.Get1D()`:
`if (u < max_component) f = f * (1 / max_component); else return obj.emission;`.
`some f` : the path continues with the rescaled `f`; `none` : it is terminated. -/
def russianRoulette (f : Vector3 F) (max_component u : F) : Option (Vector3 F) :=
  if u < max_component then some (f * (1 / max_component)) else none

/-- The `MaterialType::Diffuse` branch of `Radiance`. -/
def RadianceDiffuse (m : FloatMath F) (obj : Sphere F) (f shading_normal position : Vector3 F)
    (depth : Int) (sampler : Sampler F) : Outcome F :=
  let r1 := sampler.Get1D
  let random1 := 2 * m.Pi * r1.1
  let r2 := r1.2.Get1D
  let random2 := r2.1
  let random2Sqrt := m.sqrt random2
  let w := shading_normal
  let u := ((if |w.x| > 0.1 then (⟨0, 1, 0⟩ : Vector3 F) else ⟨1, 0, 0⟩).Cross w).Normalize m
  let v := w.Cross u
  let direction := (u * m.cos random1 * random2Sqrt + v * m.sin random1 * random2Sqrt
    + w * m.sqrt (1 - random2)).Normalize m
  let f := f / m.Pi
  let abs_cos_theta := |shading_normal.Dot direction|
  let pdf := abs_cos_theta / m.Pi
  Outcome.call1 ⟨position, direction⟩ depth r2.2
    (fun Li => obj.emission + (f * Li * abs_cos_theta) / pdf)

/-- `bool into = normal.Dot(shading_normal) > 0; // Ray from outside going in?`. -/
def refractInto (normal shading_normal : Vector3 F) : Bool :=
  decide (normal.Dot shading_normal > 0)

/-- `Float eta = into ? etaI / etaT : etaT / etaI;` with `etaI = 1` (vacuum), `etaT = 1.5`
(glass). -/
def refractEta (into : Bool) : F :=
  let etaI : F := 1
  let etaT : F := 1.5
  if into then etaI / etaT else etaT / etaI

/-- The mirror direction `ray.direction - normal * 2 * normal.Dot(ray.direction)` of the
`Specular` branch and of `reflectRay`. -/
def reflectDirection (normal : Vector3 F) (ray : Ray F) : Vector3 F :=
  ray.direction - normal * (2 : F) * normal.Dot ray.direction

/-- `Float cosThetaT2 = 1 - eta * eta * (1 - cosThetaI * cosThetaI);`. -/
def cosThetaT2 (eta cosThetaI : F) : F := 1 - eta * eta * (1 - cosThetaI * cosThetaI)

/-- The vector `ray.direction * eta - normal * ((into ? 1 : -1) * (cosThetaI * eta +
sqrt(cosThetaT2)))` to which `Normalize` is applied to get `refractDirection`. -/
def refractVector (m : FloatMath F) (normal : Vector3 F) (ray : Ray F) (into : Bool)
    (eta cosThetaI cosThetaT2 : F) : Vector3 F :=
  ray.direction * eta
    - normal * ((if into then 1 else -1) * (cosThetaI * eta + m.sqrt cosThetaT2))

/-- `Vector3 refractDirection = (...).Normalize();`. -/
def refractDirection (m : FloatMath F) (normal : Vector3 F) (ray : Ray F) (into : Bool)
    (eta cosThetaI cosThetaT2 : F) : Vector3 F :=
  (refractVector m normal ray into eta cosThetaI cosThetaT2).Normalize m

/-- `Float c = 1 - (into ? -cosThetaI : refractDirection.Dot(normal));`. -/
def schlickC (into : Bool) (cosThetaI : F) (refractDirection normal : Vector3 F) : F :=
  1 - (if into then -cosThetaI else refractDirection.Dot normal)

/-- The Schlick approximation `Re = R0 + (1 - R0) * c * c * c * c * c` with
`R0 = a * a / (b * b)`, `a = etaT - etaI`, `b = etaT + etaI`. -/
def schlickRe (c : F) : F :=
  let etaI : F := 1
  let etaT : F := 1.5
  let a := etaT - etaI
  let b := etaT + etaI
  let R0 := a * a / (b * b)
  R0 + (1 - R0) * c * c * c * c * c

/-- `Float P = .25 + .5 * Re;` : the probability of choosing the reflected branch. -/
def reflectProbability (Re : F) : F := 0.25 + 0.5 * Re

/-- The `MaterialType::Specular` branch of `Radiance`. -/
def RadianceSpecular (obj : Sphere F) (f normal position : Vector3 F) (ray : Ray F)
    (depth : Int) (sampler : Sampler F) : Outcome F :=
  let direction := reflectDirection normal ray
  Outcome.call1 ⟨position, direction⟩ depth sampler (fun Li => obj.emission + f * Li)

/-- The dielectric (`MaterialType::Refract`) branch of `Radiance`. In the two-call case the
reflected radiance is evaluated before the transmitted one (C++ leaves the order of the operands
of `+` unspecified). -/
def RadianceRefract (m : FloatMath F) (obj : Sphere F) (f normal shading_normal position : Vector3 F)
    (ray : Ray F) (depth : Int) (sampler : Sampler F) : Outcome F :=
  let into := refractInto normal shading_normal
  let eta : F := refractEta into
  let reflectRay : Ray F := ⟨position, reflectDirection normal ray⟩
  let cosThetaI := ray.direction.Dot shading_normal
  let cosThetaT2 := cosThetaT2 eta cosThetaI
  if cosThetaT2 < 0 then
    Outcome.call1 reflectRay depth sampler (fun Lr => obj.emission + f * Lr)
  else
    let refractDirection := refractDirection m normal ray into eta cosThetaI cosThetaT2
    let c := schlickC into cosThetaI refractDirection normal
    let Re := schlickRe c
    let Tr := 1 - Re
    let P := reflectProbability Re
    let RP := Re / P
    let TP := Tr / (1 - P)
    if depth > 2 then
      let r := sampler.Get1D
      if r.1 < P then
        Outcome.call1 reflectRay depth r.2 (fun Lr => obj.emission + f * (Lr * RP))
      else
        Outcome.call1 ⟨position, refractDirection⟩ depth r.2
          (fun Lt => obj.emission + f * (Lt * TP))
    else
      Outcome.call2 reflectRay ⟨position, refractDirection⟩ depth sampler
        (fun Lr Lt => obj.emission + f * (Lr * Re + Lt * Tr))

/-- The material dispatch of `Radiance` (`if (obj.materialType == ...) ... else if ... else`). -/
def RadianceMaterial (m : FloatMath F) (obj : Sphere F) (f normal shading_normal position : Vector3 F)
    (ray : Ray F) (depth : Int) (sampler : Sampler F) : Outcome F :=
  match obj.materialType with
  | MaterialType.Diffuse => RadianceDiffuse m obj f shading_normal position depth sampler
  | MaterialType.Specular => RadianceSpecular obj f normal position ray depth sampler
  | MaterialType.Refract => RadianceRefract m obj f normal shading_normal position ray depth sampler

/-- The body of `Color Radiance(const Ray& ray, int depth, Sampler& sampler)` up to its nested
calls. `++depth` is only reached with `depth <= 100`, so it cannot leave the `int` range. -/
def RadianceBody (m : FloatMath F) (ray : Ray F) (depth : Int) (sampler : Sampler F) :
    Outcome F :=
  let hit := Intersect m ray 0
  if hit.1 = false then Outcome.ret Vector3.zero sampler
  else
    let distance := hit.2.1
    let id := hit.2.2
    let obj := sceneAt F id
    if depth > 100 then Outcome.ret obj.emission sampler
    else
      let position := ray.origin + ray.direction * distance
      let normal := (position - obj.center).Normalize m
      let shading_normal := if normal.Dot ray.direction < 0 then normal else normal * (-1 : F)
      let f := obj.color
      let max_component := maxComponent f
      let depth := depth + 1
      if depth > 5 then
        let r := sampler.Get1D
        match russianRoulette f max_component r.1 with
        | some f => RadianceMaterial m obj f normal shading_normal position ray depth r.2
        | none => Outcome.ret obj.emission r.2
      else RadianceMaterial m obj f normal shading_normal position ray depth sampler

/-- `Color Radiance(const Ray& ray, int depth, Sampler& sampler)` : the returned colour and the
sampler afterwards. `fuel` bounds the nesting of activations: the activation itself uses one
unit and its nested calls get the rest; `none` means the bound was hit. -/
def Radiance (m : FloatMath F) : Nat → Ray F → Int → Sampler F → Option (Vector3 F × Sampler F)
  | 0, _, _, _ => none
  | fuel + 1, ray, depth, sampler =>
    match RadianceBody m ray depth sampler with
    | Outcome.ret c s => some (c, s)
    | Outcome.call1 r d s k =>
      match Radiance m fuel r d s with
      | none => none
      | some (Li, s1) => some (k Li, s1)
    | Outcome.call2 r1 r2 d s k =>
      match Radiance m fuel r1 d s with
      | none => none
      | some (L1, s1) =>
        match Radiance m fuel r2 d s1 with
        | none => none
        | some (L2, s2) => some (k L1 L2, s2)

/-- The nested calls of an outcome are all made with depth `d`. -/
def Outcome.CallsAt (o : Outcome F) (d : Int) : Prop :=
  match o with
  | Outcome.ret _ _ => True
  | Outcome.call1 _ d1 _ _ => d1 = d
  | Outcome.call2 _ _ d1 _ _ => d1 = d

/-- The number of nested `Radiance` calls of an outcome. -/
def Outcome.numCalls (o : Outcome F) : Nat :=
  match o with
  | Outcome.ret _ _ => 0
  | Outcome.call1 _ _ _ _ => 1
  | Outcome.call2 _ _ _ _ _ => 2

/-! ### Names for the locals of `Radiance` and for the estimators the claims speak of -/

/-- `const Sphere& obj = Scene[id];` after `Intersect(ray, distance, id)` with `id = 0`. -/
def hitObject (m : FloatMath F) (ray : Ray F) : Sphere F :=
  sceneAt F (Intersect m ray 0).2.2

/-- `Vector3 position = ray.origin + ray.direction * distance;`. -/
def hitPosition (m : FloatMath F) (ray : Ray F) : Vector3 F :=
  ray.origin + ray.direction * (Intersect m ray 0).2.1

/-- `Normal3 normal = (position - obj.center).Normalize();`. -/
def hitNormal (m : FloatMath F) (ray : Ray F) : Vector3 F :=
  (hitPosition m ray - (hitObject m ray).center).Normalize m

/-- `Normal3 shading_normal = normal.Dot(ray.direction) < 0 ? normal : normal * -1;`. -/
def shadingNormal (normal : Vector3 F) (ray : Ray F) : Vector3 F :=
  if normal.Dot ray.direction < 0 then normal else normal * (-1 : F)

/-- `bool into` of the dielectric branch for the hit of `ray`. -/
def hitInto (m : FloatMath F) (ray : Ray F) : Bool :=
  refractInto (hitNormal m ray) (shadingNormal (hitNormal m ray) ray)

/-- `Float eta` of the dielectric branch for the hit of `ray`. -/
def hitEta (m : FloatMath F) (ray : Ray F) : F := refractEta (hitInto m ray)

/-- `Float cosThetaI = ray.direction.Dot(shading_normal);`. -/
def hitCosThetaI (m : FloatMath F) (ray : Ray F) : F :=
  ray.direction.Dot (shadingNormal (hitNormal m ray) ray)

/-- `Float cosThetaT2` of the dielectric branch for the hit of `ray`. -/
def hitCosThetaT2 (m : FloatMath F) (ray : Ray F) : F :=
  cosThetaT2 (hitEta m ray) (hitCosThetaI m ray)

/-- `Ray reflectRay(position, ray.direction - normal * 2 * normal.Dot(ray.direction));`. -/
def hitReflectRay (m : FloatMath F) (ray : Ray F) : Ray F :=
  ⟨hitPosition m ray, reflectDirection (hitNormal m ray) ray⟩

/-- `Ray(position, refractDirection)`. -/
def hitRefractRay (m : FloatMath F) (ray : Ray F) : Ray F :=
  ⟨hitPosition m ray, refractDirection m (hitNormal m ray) ray (hitInto m ray) (hitEta m ray)
    (hitCosThetaI m ray) (hitCosThetaT2 m ray)⟩

/-- `Float Re` of the dielectric branch for the hit of `ray`. -/
def hitRe (m : FloatMath F) (ray : Ray F) : F :=
  schlickRe (schlickC (hitInto m ray) (hitCosThetaI m ray) (hitRefractRay m ray).direction
    (hitNormal m ray))

/-- The reflectance and the sampler with which `Radiance` enters its material branch, started
at `depth` on a ray that hits: the Russian roulette is played when `++depth > 5`; `none` means
the path is terminated there. -/
def rouletteStep (m : FloatMath F) (ray : Ray F) (depth : Int) (sampler : Sampler F) :
    Option (Vector3 F × Sampler F) :=
  if depth + 1 > 5 then
    match russianRoulette (hitObject m ray).color (maxComponent (hitObject m ray).color)
        sampler.Get1D.1 with
    | some f => some (f, sampler.Get1D.2)
    | none => none
  else some ((hitObject m ray).color, sampler)

/-- How an activation finishes from its outcome, given the function `rec` that evaluates the
nested calls (`Radiance` with the remaining fuel). -/
def Outcome.run (rec : Ray F → Int → Sampler F → Option (Vector3 F × Sampler F))
    (o : Outcome F) : Option (Vector3 F × Sampler F) :=
  match o with
  | Outcome.ret c s => some (c, s)
  | Outcome.call1 r d s k =>
    match rec r d s with
    | none => none
    | some (Li, s1) => some (k Li, s1)
  | Outcome.call2 r1 r2 d s k =>
    match rec r1 d s with
    | none => none
    | some (L1, s1) =>
      match rec r2 d s1 with
      | none => none
      | some (L2, s2) => some (k L1 L2, s2)

/-- The continuation weight of the Russian roulette for the draw `u`: the rescaled reflectance
when the path continues, zero when it is terminated. -/
def rouletteWeight (f : Vector3 F) (u : F) : Vector3 F :=
  match russianRoulette f (maxComponent f) u with
  | some f1 => f1
  | none => Vector3.zero

/-- The estimate `Le + weight * Li` under Russian roulette for the draw `u` and a fixed incident
radiance `Li`: `Le` alone when the path is terminated. -/
def rouletteEstimate (Le f Li : Vector3 F) (u : F) : Vector3 F :=
  match russianRoulette f (maxComponent f) u with
  | some f1 => Le + f1 * Li
  | none => Le

/-- The stochastic form of the dielectric estimate for the draw `u` and fixed reflected and
transmitted radiances: `Le + f * (Lr * (Re / P))` when `u < P`, `Le + f * (Lt * (Tr / (1 - P)))`
otherwise, with `Tr = 1 - Re` and `P = reflectProbability Re`. -/
def splitEstimate (Le f Lr Lt : Vector3 F) (Re u : F) : Vector3 F :=
  if u < reflectProbability Re then Le + f * (Lr * (Re / reflectProbability Re))
  else Le + f * (Lt * ((1 - Re) / (1 - reflectProbability Re)))

/-! ### Concrete rays on which the model is evaluated -/

/-- A ray from inside the room straight at the Back wall. -/
def probeRayDiffuse : Ray F := ⟨⟨50, 40.8, 81.6⟩, ⟨0, 0, -1⟩⟩

/-- A ray from inside the room straight at the centre of the Glass sphere. -/
def probeRayGlass : Ray F := ⟨⟨50, 16.5, 78⟩, ⟨1, 0, 0⟩⟩

/-- A ray from inside the room straight up at the Light. -/
def probeRayLight : Ray F := ⟨⟨50, 52, 81.6⟩, ⟨0, 1, 0⟩⟩

/-- A ray inside the Glass sphere that meets its surface beyond the critical angle. -/
def probeRayTIR : Ray F := ⟨⟨86.2, 16.5, 78⟩, ⟨0, 0, 1⟩⟩

/-- Every value the sampler's generator produces lies in `[0, 1)`. -/
def Sampler.DrawsInUnit (s : Sampler F) : Prop :=
  ∀ i, 0 ≤ s.rng.engine i ∧ s.rng.engine i < 1

/-- An outcome is good when its nested rays have unit directions, its sampler draws in `[0, 1)`,
and the colour it returns is non-negative whenever the nested results are. -/
def Outcome.Good (o : Outcome F) : Prop :=
  match o with
  | Outcome.ret c s => c.Nonneg ∧ s.DrawsInUnit
  | Outcome.call1 r _ s k =>
    r.direction.Dot r.direction = 1 ∧ s.DrawsInUnit ∧ ∀ Li : Vector3 F, Li.Nonneg → (k Li).Nonneg
  | Outcome.call2 r1 r2 _ s k =>
    r1.direction.Dot r1.direction = 1 ∧ r2.direction.Dot r2.direction = 1 ∧ s.DrawsInUnit ∧
    ∀ L1 L2 : Vector3 F, L1.Nonneg → L2.Nonneg → (k L1 L2).Nonneg

/-- The fuel that suffices for `Radiance` started at `depth`: one activation per depth value from
`depth` up to 101. -/
def fuelFor (depth : Int) : Nat := (101 - depth).toNat + 1

end Integrator

/-! ## Further definitions : sampler protocol, tent distribution, call tree, film -/

section MoreDefs
variable {F : Type} [LinearOrderedField F]

/-- The cumulative distribution function of the triangle distribution on `[-1, 1)`, as the
specification gives it: `(x + 1)^2 / 2` for `x` in `[-1, 0)` and `1 - (1 - x)^2 / 2` for `x` in
`[0, 1)`. -/
def tentCDF (x : F) : F :=
  if x < 0 then (x + 1) * (x + 1) / 2 else 1 - (1 - x) * (1 - x) / 2

/-- The flags returned by `k` successive `StartNextSample()` calls on a sampler. -/
def Sampler.nextFlags : Nat → Sampler F → List Bool
  | 0, _ => []
  | k + 1, s => s.StartNextSample.1 :: Sampler.nextFlags k s.StartNextSample.2

/-- A call of one of the member functions of `class Sampler`. -/
inductive SamplerOp (F : Type) where
  | SamplesPerPixel
  | StartPixel
  | StartNextSample
  | Get1D
  | Get2D
  | GetCameraSample (pFilm : Vector2 F)

/-- What a call of a member function of `class Sampler` returns. -/
inductive SamplerOut (F : Type) where
  | void
  | int (z : Int)
  | bool (b : Bool)
  | float (x : F)
  | vector2 (v : Vector2 F)
  | cameraSample (c : CameraSample F)

/-- One member-function call on a sampler object: the value returned and the object's state
afterwards. -/
def Sampler.call (m : FloatMath F) (op : SamplerOp F) (s : Sampler F) :
    SamplerOut F × Sampler F :=
  match op with
  | SamplerOp.SamplesPerPixel => (SamplerOut.int s.SamplesPerPixel, s)
  | SamplerOp.StartPixel => (SamplerOut.void, s.StartPixel)
  | SamplerOp.StartNextSample => (SamplerOut.bool s.StartNextSample.1, s.StartNextSample.2)
  | SamplerOp.Get1D => (SamplerOut.float s.Get1D.1, s.Get1D.2)
  | SamplerOp.Get2D => (SamplerOut.vector2 s.Get2D.1, s.Get2D.2)
  | SamplerOp.GetCameraSample pFilm =>
    (SamplerOut.cameraSample (s.GetCameraSample m pFilm).1, (s.GetCameraSample m pFilm).2)

/-- A sequence of calls on one sampler object: the values returned, in order. -/
def Sampler.calls (m : FloatMath F) : List (SamplerOp F) → Sampler F → List (SamplerOut F)
  | [], _ => []
  | op :: ops, s => (s.call m op).1 :: Sampler.calls m ops (s.call m op).2

/-- The state of a sampler object after a sequence of calls. -/
def Sampler.after (m : FloatMath F) : List (SamplerOp F) → Sampler F → Sampler F
  | [], s => s
  | op :: ops, s => Sampler.after m ops (s.call m op).2

/-- A sequence of calls on two sampler objects, the original (`false`) and its clone (`true`),
in any interleaving: each call acts on the object it names; the values returned, in order, each
tagged with the object. The two objects share no state: `RNG rng` is a data member held by
value and `Clone()` returns a newly constructed object. -/
def callsOnTwo (m : FloatMath F) :
    List (Bool × SamplerOp F) → Sampler F × Sampler F → List (Bool × SamplerOut F)
  | [], _ => []
  | (false, op) :: ops, (a, b) =>
    (false, (a.call m op).1) :: callsOnTwo m ops ((a.call m op).2, b)
  | (true, op) :: ops, (a, b) =>
    (true, (b.call m op).1) :: callsOnTwo m ops (a, (b.call m op).2)

/-- The calls of an interleaving that act on the given object. -/
def callsOf (who : Bool) (ops : List (Bool × SamplerOp F)) : List (SamplerOp F) :=
  (ops.filter (fun p => p.1 == who)).map (fun p => p.2)

/-- The values an interleaving returned for the given object. -/
def outputsOf (who : Bool) (outs : List (Bool × SamplerOut F)) : List (SamplerOut F) :=
  (outs.filter (fun p => p.1 == who)).map (fun p => p.2)

/-- Every activation of `Radiance` in the call tree of `Radiance(ray, depth, sampler)`, down to
nesting `fuel`, receives a ray whose direction has unit length. The second nested call of an
activation starts from the sampler as the first one leaves it. -/
def RadianceRaysUnit (m : FloatMath F) : Nat → Ray F → Int → Sampler F → Prop
  | 0, ray, _, _ => ray.direction.Dot ray.direction = 1
  | fuel + 1, ray, depth, sampler =>
    ray.direction.Dot ray.direction = 1 ∧
    match RadianceBody m ray depth sampler with
    | Outcome.ret _ _ => True
    | Outcome.call1 r d s _ => RadianceRaysUnit m fuel r d s
    | Outcome.call2 r1 r2 d s _ =>
      RadianceRaysUnit m fuel r1 d s ∧
      ∀ p, Radiance m fuel r1 d s = some p → RadianceRaysUnit m fuel r2 d p.2

/-- The rays of the nested calls of an outcome. -/
def Outcome.rays (o : Outcome F) : List (Ray F) :=
  match o with
  | Outcome.ret _ _ => []
  | Outcome.call1 r _ _ _ => [r]
  | Outcome.call2 r1 r2 _ _ _ => [r1, r2]

/-! ### Film -/

/-- `inline Float Clamp(Float x) { return x < 0 ? 0 : x > 1 ? 1 : x; }`. -/
def Clamp (x : F) : F := if x < 0 then 0 else if x > 1 then 1 else x

/-- `inline int GammaEncoding(Float x) { return int(pow(Clamp(x), 1 / 2.2) * 255 + .5); }`.
The libm function `pow` and the conversion `int(...)` of a `double` are parameters. -/
def GammaEncoding (pow : F → F → F) (toInt : F → Int) (x : F) : Int :=
  toInt (pow (Clamp x) (1 / 2.2) * 255 + 0.5)

/-- What `store_bmp_impl` writes to the file: the fields of the header that depend on its
arguments, and the data body as a list of bytes. -/
structure BmpFile where
  file_size : Nat
  databody_offset : Nat
  width : Int
  height : Int
  per_pixel_bits : Int
  body : List Int
  deriving DecidableEq, Repr

/-- The conversion of an `int` to `uint32_t` (the same 32-bit pattern read as unsigned). -/
def toUInt32 (z : Int) : Nat := (z % 4294967296).toNat

/-- The conversion of an `int` to `uint8_t`. -/
def toUInt8 (z : Int) : Int := z % 256

/-- The gamma-encoding loop of `store_bmp_impl`,
`for (int i = 0; i < byte_num; i += 3) { bytes[i] = GammaEncoding(floats[i + 2]); ... }`,
with `i` the loop variable and `n` the number of iterations left; `floats[i]` is `floats i`. -/
def bmpBytes (encode : F → Int) (floats : Nat → F) : Nat → Nat → List Int
  | 0, _ => []
  | n + 1, i =>
    toUInt8 (encode (floats (i + 2))) :: toUInt8 (encode (floats (i + 1)))
      :: toUInt8 (encode (floats i)) :: bmpBytes encode floats n (i + 3)

/-- The row loop of `store_bmp_impl`,
`for (int y = height - 1; y >= 0; --y) img_file.write((char*)(bytes.get() + y * line_num), line_num);`,
with `y + 1` rows left to write: row `y` first, then `y - 1`, ..., down to `0`. -/
def bmpRows (bytes : List Int) (line_num : Nat) : Nat → List Int
  | 0 => []
  | y + 1 => ((bytes.drop (y * line_num)).take line_num) ++ bmpRows bytes line_num y

/-- `static bool store_bmp_impl(const std::string& filename, int width, int height, int channel,
const Float* floats)` : what is written to the file. `encode` is `GammaEncoding`. The `int`
expression `(width * channel + 3) & (~3)` is the bitwise and of the 32-bit patterns, here of the
operand read as unsigned with `0xFFFFFFFC`. `byte_num` and `line_num` are taken as they are for
an image whose byte count fits an `int` (the buffer `bytes` has `byte_num` elements). -/
def store_bmp_impl (encode : F → Int) (width height channel : Nat) (floats : Nat → F) :
    BmpFile :=
  let padding_line_bytes : Nat :=
    toUInt32 (wrapInt32 (wrapInt32 ((width : Int) * (channel : Int)) + 3)) &&& 4294967292
  let padding_image_bytes : Nat := (padding_line_bytes * height) % 4294967296
  let FILE_HEADER_SIZE : Nat := 14
  let INFO_HEADER_SIZE : Nat := 40
  let byte_num := width * height * channel
  let bytes := bmpBytes encode floats ((byte_num + 2) / 3) 0
  let line_num := width * channel
  { file_size := (FILE_HEADER_SIZE + INFO_HEADER_SIZE + padding_image_bytes) % 4294967296,
    databody_offset := FILE_HEADER_SIZE + INFO_HEADER_SIZE,
    width := width,
    height := height,
    per_pixel_bits := channel * 8,
    body := bmpRows bytes line_num height }

/-- The number of bytes `store_bmp_impl` writes: `"BM"`, the 52 bytes of the header struct, and
the data body. -/
def BmpFile.bytesWritten (b : BmpFile) : Nat := 2 + 52 + b.body.length

end MoreDefs

section FloatModel

/-! ## `Sphere::Intersect` in IEEE double arithmetic

A `double` is a rational number; every arithmetic operation returns the double nearest to the
exact result. -/

/-- The integer nearest to `q`, the even one of the two on a tie. -/
def roundNearestEven (q : ℚ) : Int :=
  let f := ⌊q⌋
  if q - f < 1 / 2 then f
  else if 1 / 2 < q - f then f + 1
  else if f % 2 = 0 then f else f + 1

/-- The binary exponent of `q ≠ 0` : the `e` with `2 ^ e <= |q| < 2 ^ (e + 1)`. -/
def binade (q : ℚ) : Int :=
  let e0 : Int := (Nat.log2 q.num.natAbs : Int) - (Nat.log2 q.den : Int)
  if (2 : ℚ) ^ e0 ≤ |q| then e0 else e0 - 1

/-- The `double` nearest to `q` (round to nearest, ties to even; 53-bit significand, least
exponent `-1022`). Overflow is not modelled: the values here stay far below `2 ^ 1024`. -/
def fl (q : ℚ) : ℚ :=
  if q = 0 then 0
  else
    let ulp : ℚ := 2 ^ (max (binade q) (-1022) - 52)
    (roundNearestEven (q / ulp) : ℚ) * ulp

/-- The `sqrt` of libm on a `double` `q >= 0` : the double nearest to the square root. With
`ulp` the spacing of the doubles around the root, `m = floor (sqrt q / ulp)` is computed as an
integer square root and the root is compared with `(m + 1/2) * ulp` by squaring. -/
def sqrtFl (q : ℚ) : ℚ :=
  if q ≤ 0 then 0
  else
    let ulp : ℚ := 2 ^ (binade q / 2 - 52)
    let x : ℚ := q / (ulp * ulp)
    let m : Nat := Nat.sqrt ⌊x⌋.toNat
    let mid : ℚ := (m : ℚ) * m + m + 1 / 4
    if x < mid then (m : ℚ) * ulp
    else if mid < x then ((m : ℚ) + 1) * ulp
    else if m % 2 = 0 then (m : ℚ) * ulp else ((m : ℚ) + 1) * ulp

/-- `Vector3 operator-(const Vector3& b) const` on doubles. -/
def Vector3.subFl (a b : Vector3 ℚ) : Vector3 ℚ :=
  ⟨fl (a.x - b.x), fl (a.y - b.y), fl (a.z - b.z)⟩

/-- `Float Dot(const Vector3& b) const { return x * b.x + y * b.y + z * b.z; }` on doubles. -/
def Vector3.DotFl (a b : Vector3 ℚ) : ℚ :=
  fl (fl (fl (a.x * b.x) + fl (a.y * b.y)) + fl (a.z * b.z))

/-- `Float Sphere::Intersect(const Ray& ray) const` on doubles: the body of `Sphere.Intersect`
with each operation rounded. The literal `1e-4` is the double nearest to it. -/
def Sphere.IntersectFl (s : Sphere ℚ) (ray : Ray ℚ) : ℚ :=
  let oc := s.center.subFl ray.origin
  let neg_b := oc.DotFl ray.direction
  let det := fl (fl (fl (neg_b * neg_b) - oc.DotFl oc) + fl (s.radius * s.radius))
  if det < 0 then 0
  else
    let det := sqrtFl det
    let epsilon : ℚ := fl 1e-4
    let t := fl (neg_b - det)
    if t > epsilon then t
    else
      let t := fl (neg_b + det)
      if t > epsilon then t
      else 0

/-- A sphere like the Left wall of the scene (radius `1e5`, `center.x = 1e5 + 1`), with
coordinates that are doubles. -/
def grazingSphere {F : Type} [LinearOrderedField F] : Sphere F :=
  ⟨100000, ⟨100001, 0, 0⟩, Vector3.zero, Vector3.zero, MaterialType.Diffuse⟩

/-- A ray that starts `2 ^ (-40)` inside `grazingSphere` and runs along its surface. -/
def grazingRay {F : Type} [LinearOrderedField F] : Ray F :=
  ⟨⟨1 + 1 / 1099511627776, 0, 0⟩, ⟨0, 1, 0⟩⟩

end FloatModel

/-! ## Theorems -/

section Theorems
variable {F : Type} [LinearOrderedField F]

set_option linter.unusedSectionVars false

theorem Vector3.add_def (a b : Vector3 F) : a + b = ⟨a.x + b.x, a.y + b.y, a.z + b.z⟩ := rfl
theorem Vector3.sub_def (a b : Vector3 F) : a - b = ⟨a.x - b.x, a.y - b.y, a.z - b.z⟩ := rfl
theorem Vector3.mul_def (a b : Vector3 F) : a * b = ⟨a.x * b.x, a.y * b.y, a.z * b.z⟩ := rfl
theorem Vector3.smul_def (a : Vector3 F) (b : F) : a * b = ⟨a.x * b, a.y * b, a.z * b⟩ := rfl
theorem Vector3.sdiv_def (a : Vector3 F) (b : F) : a / b = ⟨a.x / b, a.y / b, a.z / b⟩ := rfl

/-- The real-number instance of the libm parameter is exact. -/
theorem realMath_exact :
    FloatMath.Exact (⟨Real.sqrt, Real.cos, Real.sin, Real.pi⟩ : FloatMath ℝ) where
  sqrt_nonneg := fun x _ => Real.sqrt_nonneg x
  sqrt_mul_self := fun _ h => Real.mul_self_sqrt h
  cos_sq_add_sin_sq := fun x => by
    have := Real.cos_sq_add_sin_sq x
    nlinarith [this]
  Pi_pos := Real.pi_pos

/-- With a unit direction, `t` is a root exactly when `(t - neg_b)^2` is the discriminant. -/
theorem Sphere.isRoot_iff (s : Sphere F) (ray : Ray F)
    (hd : ray.direction.Dot ray.direction = 1) (t : F) :
    s.IsRoot ray t ↔
      (t - (s.center - ray.origin).Dot ray.direction)
        * (t - (s.center - ray.origin).Dot ray.direction) = s.discriminant ray := by
  unfold Sphere.IsRoot Sphere.discriminant
  simp only [Vector3.Dot, Vector3.add_def, Vector3.sub_def, Vector3.smul_def] at hd ⊢
  constructor
  · intro h
    linear_combination h - (t * t) * hd
  · intro h
    linear_combination h + (t * t) * hd

/-- The body of `Sphere::Intersect` in terms of `neg_b` and the discriminant. -/
theorem Sphere.Intersect_eq (m : FloatMath F) (s : Sphere F) (ray : Ray F) :
    s.Intersect m ray =
      if s.discriminant ray < 0 then 0
      else if (s.center - ray.origin).Dot ray.direction - m.sqrt (s.discriminant ray) > 1e-4 then
        (s.center - ray.origin).Dot ray.direction - m.sqrt (s.discriminant ray)
      else if (s.center - ray.origin).Dot ray.direction + m.sqrt (s.discriminant ray) > 1e-4 then
        (s.center - ray.origin).Dot ray.direction + m.sqrt (s.discriminant ray)
      else 0 := rfl

/-- A non-zero result of `Sphere::Intersect` exceeds epsilon (no unit-direction hypothesis). -/
theorem Sphere.Intersect_gt_of_ne_zero (m : FloatMath F) (s : Sphere F) (ray : Ray F)
    (h : s.Intersect m ray ≠ 0) : s.Intersect m ray > 1e-4 := by
  rw [Sphere.Intersect_eq] at h ⊢
  split_ifs at h ⊢ with h1 h2 h3
  · exact absurd rfl h
  · exact h2
  · exact h3
  · exact absurd rfl h

/-- Where the discriminant is non-negative and the direction has unit length, the roots are
exactly `neg_b - sqrt det` and `neg_b + sqrt det`. -/
theorem Sphere.isRoot_iff_eq (m : FloatMath F) (hm : m.Exact) (s : Sphere F) (ray : Ray F)
    (hd : ray.direction.Dot ray.direction = 1) (hD : 0 ≤ s.discriminant ray) (t : F) :
    s.IsRoot ray t ↔
      t = (s.center - ray.origin).Dot ray.direction - m.sqrt (s.discriminant ray) ∨
      t = (s.center - ray.origin).Dot ray.direction + m.sqrt (s.discriminant ray) := by
  rw [Sphere.isRoot_iff s ray hd]
  have hq := hm.sqrt_mul_self _ hD
  constructor
  · intro h
    have h0 : (t - ((s.center - ray.origin).Dot ray.direction - m.sqrt (s.discriminant ray)))
        * (t - ((s.center - ray.origin).Dot ray.direction + m.sqrt (s.discriminant ray))) = 0 := by
      linear_combination h - hq
    rcases mul_eq_zero.mp h0 with h1 | h1
    · left; linear_combination h1
    · right; linear_combination h1
  · rintro (h | h)
    · rw [h]; linear_combination hq
    · rw [h]; linear_combination hq

/-- No root exists where the discriminant is negative. -/
theorem Sphere.not_isRoot_of_neg (s : Sphere F) (ray : Ray F)
    (hd : ray.direction.Dot ray.direction = 1) (hD : s.discriminant ray < 0) (t : F) :
    ¬ s.IsRoot ray t := by
  rw [Sphere.isRoot_iff s ray hd]
  intro h
  have := mul_self_nonneg (t - (s.center - ray.origin).Dot ray.direction)
  linarith

/-- C1 (amended). In real-number semantics (exact arithmetic and an exact square root)
`Sphere::Intersect` returns the nearest valid root. For a sphere with positive radius and a
ray with unit direction: the result is non-zero iff some root exceeds `1e-4`; a non-zero result
exceeds `1e-4`, is a root (the point `origin + t*direction` lies on the sphere) and is the least
root above `1e-4`; where the discriminant is non-negative the roots are exactly
`neg_b - sqrt det <= neg_b + sqrt det`, the result is the smaller one if it exceeds epsilon and
otherwise the larger one if that exceeds epsilon; the result is `0` when the discriminant is
negative or every root is `<= 1e-4`. -/
theorem C1_sphere_intersect_nearest_root (m : FloatMath F) (hm : m.Exact) (s : Sphere F)
    (ray : Ray F) (hr : 0 < s.radius) (hd : ray.direction.Dot ray.direction = 1) :
    (s.Intersect m ray ≠ 0 ↔ ∃ t, s.IsRoot ray t ∧ t > 1e-4) ∧
    (s.Intersect m ray ≠ 0 →
      s.Intersect m ray > 1e-4 ∧ s.IsRoot ray (s.Intersect m ray) ∧
      ∀ t, s.IsRoot ray t → t > 1e-4 → s.Intersect m ray ≤ t) ∧
    (0 ≤ s.discriminant ray →
      (∀ t, s.IsRoot ray t ↔
        t = (s.center - ray.origin).Dot ray.direction - m.sqrt (s.discriminant ray) ∨
        t = (s.center - ray.origin).Dot ray.direction + m.sqrt (s.discriminant ray)) ∧
      (s.center - ray.origin).Dot ray.direction - m.sqrt (s.discriminant ray)
        ≤ (s.center - ray.origin).Dot ray.direction + m.sqrt (s.discriminant ray) ∧
      ((s.center - ray.origin).Dot ray.direction - m.sqrt (s.discriminant ray) > 1e-4 →
        s.Intersect m ray
          = (s.center - ray.origin).Dot ray.direction - m.sqrt (s.discriminant ray)) ∧
      ((s.center - ray.origin).Dot ray.direction - m.sqrt (s.discriminant ray) ≤ 1e-4 →
        (s.center - ray.origin).Dot ray.direction + m.sqrt (s.discriminant ray) > 1e-4 →
        s.Intersect m ray
          = (s.center - ray.origin).Dot ray.direction + m.sqrt (s.discriminant ray))) ∧
    (s.discriminant ray < 0 → s.Intersect m ray = 0) ∧
    ((∀ t, s.IsRoot ray t → t ≤ 1e-4) → s.Intersect m ray = 0) := by
  have _ := hr
  have key : s.Intersect m ray ≠ 0 →
      s.Intersect m ray > 1e-4 ∧ s.IsRoot ray (s.Intersect m ray) ∧
      ∀ t, s.IsRoot ray t → t > 1e-4 → s.Intersect m ray ≤ t := by
    intro hne
    refine ⟨Sphere.Intersect_gt_of_ne_zero m s ray hne, ?_⟩
    rw [Sphere.Intersect_eq] at hne ⊢
    by_cases hD : s.discriminant ray < 0
    · rw [if_pos hD] at hne; exact absurd rfl hne
    · have hD0 : 0 ≤ s.discriminant ray := not_lt.mp hD
      have hq := hm.sqrt_nonneg _ hD0
      rw [if_neg hD] at hne ⊢
      split_ifs at hne ⊢ with h2 h3
      · refine ⟨(Sphere.isRoot_iff_eq m hm s ray hd hD0 _).mpr (Or.inl rfl), ?_⟩
        intro t ht _
        rcases (Sphere.isRoot_iff_eq m hm s ray hd hD0 t).mp ht with h | h
        · rw [h]
        · rw [h]; linarith
      · refine ⟨(Sphere.isRoot_iff_eq m hm s ray hd hD0 _).mpr (Or.inr rfl), ?_⟩
        intro t ht hgt
        rcases (Sphere.isRoot_iff_eq m hm s ray hd hD0 t).mp ht with h | h
        · rw [h] at hgt; exact absurd hgt h2
        · rw [h]
      · exact absurd rfl hne
  have zero_of : (∀ t, s.IsRoot ray t → t ≤ 1e-4) → s.Intersect m ray = 0 := by
    intro hall
    by_contra hne
    obtain ⟨h1, h2, _⟩ := key hne
    exact absurd (hall _ h2) (not_le.mpr h1)
  refine ⟨⟨fun hne => ⟨_, (key hne).2.1, (key hne).1⟩, ?_⟩, key, ?_, ?_, zero_of⟩
  · rintro ⟨t, ht, hgt⟩ h0
    by_cases hD : s.discriminant ray < 0
    · exact Sphere.not_isRoot_of_neg s ray hd hD t ht
    · have hD0 : 0 ≤ s.discriminant ray := not_lt.mp hD
      have hq := hm.sqrt_nonneg _ hD0
      rw [Sphere.Intersect_eq, if_neg hD] at h0
      rcases (Sphere.isRoot_iff_eq m hm s ray hd hD0 t).mp ht with h | h
      · rw [h] at hgt
        rw [if_pos hgt] at h0
        rw [h0] at hgt
        norm_num at hgt
      · rw [h] at hgt
        split_ifs at h0 with h2
        · rw [h0] at h2; norm_num at h2
        · rw [h0] at hgt; norm_num at hgt
  · intro hD0
    have hq := hm.sqrt_nonneg _ hD0
    refine ⟨Sphere.isRoot_iff_eq m hm s ray hd hD0, by linarith, ?_, ?_⟩
    · intro h
      rw [Sphere.Intersect_eq, if_neg (not_lt.mpr hD0), if_pos h]
    · intro h h2
      rw [Sphere.Intersect_eq, if_neg (not_lt.mpr hD0), if_neg (not_lt.mpr h), if_pos h2]
  · intro hD
    rw [Sphere.Intersect_eq, if_pos hD]

/-- C1, witness: the unit sphere centred at `(0, 0, 5)` and the ray from the origin along `z`,
over the reals. -/
theorem C1_sphere_intersect_nearest_root_witness :
    FloatMath.Exact (⟨Real.sqrt, Real.cos, Real.sin, Real.pi⟩ : FloatMath ℝ) ∧
    (0 : ℝ) < (⟨1, ⟨0, 0, 5⟩, Vector3.zero, Vector3.zero, MaterialType.Diffuse⟩ : Sphere ℝ).radius ∧
    (⟨⟨0, 0, 0⟩, ⟨0, 0, 1⟩⟩ : Ray ℝ).direction.Dot (⟨⟨0, 0, 0⟩, ⟨0, 0, 1⟩⟩ : Ray ℝ).direction = 1 ∧
    ((⟨1, ⟨0, 0, 5⟩, Vector3.zero, Vector3.zero, MaterialType.Diffuse⟩ : Sphere ℝ).Intersect
        ⟨Real.sqrt, Real.cos, Real.sin, Real.pi⟩ ⟨⟨0, 0, 0⟩, ⟨0, 0, 1⟩⟩ ≠ 0 ↔
      ∃ t, (⟨1, ⟨0, 0, 5⟩, Vector3.zero, Vector3.zero, MaterialType.Diffuse⟩ : Sphere ℝ).IsRoot
        ⟨⟨0, 0, 0⟩, ⟨0, 0, 1⟩⟩ t ∧ t > 1e-4) :=
  ⟨realMath_exact, by norm_num, by norm_num [Vector3.Dot],
    (C1_sphere_intersect_nearest_root ⟨Real.sqrt, Real.cos, Real.sin, Real.pi⟩ realMath_exact
      ⟨1, ⟨0, 0, 5⟩, Vector3.zero, Vector3.zero, MaterialType.Diffuse⟩ ⟨⟨0, 0, 0⟩, ⟨0, 0, 1⟩⟩
      (by norm_num) (by norm_num [Vector3.Dot])).1⟩

/-! ### Scene-level intersection -/

/-- Loop invariant of `IntersectLoop`: either nothing was stored (no index below `n` has a
non-zero distance below the initial `minDistance`), or the result is the least non-zero distance,
strictly below the initial one, at the highest index attaining it. -/
theorem IntersectLoop_spec (dist : Nat → F) (n : Nat) (d0 : F) (id0 : Nat) :
    ((IntersectLoop dist n d0 id0).1 = d0 ∧ (IntersectLoop dist n d0 id0).2 = id0 ∧
      ∀ j, j < n → dist j ≠ 0 → d0 ≤ dist j) ∨
    ((IntersectLoop dist n d0 id0).1 < d0 ∧ (IntersectLoop dist n d0 id0).2 < n ∧
      dist (IntersectLoop dist n d0 id0).2 = (IntersectLoop dist n d0 id0).1 ∧
      (IntersectLoop dist n d0 id0).1 ≠ 0 ∧
      (∀ j, j < n → dist j ≠ 0 → (IntersectLoop dist n d0 id0).1 ≤ dist j) ∧
      ∀ j, j < n → dist j = (IntersectLoop dist n d0 id0).1 → j ≤ (IntersectLoop dist n d0 id0).2) := by
  induction n generalizing d0 id0 with
  | zero =>
    left
    exact ⟨rfl, rfl, fun j hj => absurd hj (Nat.not_lt_zero j)⟩
  | succ n ih =>
    by_cases hc : dist n ≠ 0 ∧ dist n < d0
    · have hstep : IntersectLoop dist (n + 1) d0 id0 = IntersectLoop dist n (dist n) n := by
        simp only [IntersectLoop]; rw [if_pos hc]
      rw [hstep]
      right
      rcases ih (dist n) n with ⟨h1, h2, h3⟩ | ⟨h1, h2, h3, h4, h5, h6⟩
      · rw [h1, h2]
        refine ⟨hc.2, Nat.lt_succ_self n, rfl, hc.1, ?_, ?_⟩
        · intro j hj hne
          rcases Nat.lt_succ_iff_lt_or_eq.mp hj with hlt | heq
          · exact h3 j hlt hne
          · rw [heq]
        · intro j hj _
          exact Nat.lt_succ_iff.mp hj
      · refine ⟨lt_trans h1 hc.2, Nat.lt_succ_of_lt h2, h3, h4, ?_, ?_⟩
        · intro j hj hne
          rcases Nat.lt_succ_iff_lt_or_eq.mp hj with hlt | heq
          · exact h5 j hlt hne
          · rw [heq]; exact le_of_lt h1
        · intro j hj hje
          rcases Nat.lt_succ_iff_lt_or_eq.mp hj with hlt | heq
          · exact h6 j hlt hje
          · rw [heq] at hje
            exact absurd (lt_of_lt_of_eq h1 hje) (lt_irrefl _)
    · have hstep : IntersectLoop dist (n + 1) d0 id0 = IntersectLoop dist n d0 id0 := by
        simp only [IntersectLoop]; rw [if_neg hc]
      rw [hstep]
      rcases ih d0 id0 with ⟨h1, h2, h3⟩ | ⟨h1, h2, h3, h4, h5, h6⟩
      · left
        refine ⟨h1, h2, ?_⟩
        intro j hj hne
        rcases Nat.lt_succ_iff_lt_or_eq.mp hj with hlt | heq
        · exact h3 j hlt hne
        · rw [heq] at hne ⊢
          by_contra hlt
          exact hc ⟨hne, not_le.mp hlt⟩
      · right
        refine ⟨h1, Nat.lt_succ_of_lt h2, h3, h4, ?_, ?_⟩
        · intro j hj hne
          rcases Nat.lt_succ_iff_lt_or_eq.mp hj with hlt | heq
          · exact h5 j hlt hne
          · rw [heq] at hne ⊢
            by_contra hlt
            exact hc ⟨hne, lt_trans (not_le.mp hlt) h1⟩
        · intro j hj hje
          rcases Nat.lt_succ_iff_lt_or_eq.mp hj with hlt | heq
          · exact h6 j hlt hje
          · rw [heq] at hje
            exact absurd ⟨by rw [hje]; exact h4, by rw [hje]; exact h1⟩ hc

/-- C2. The scene-level `Intersect` keeps the globally nearest hit and its identity. It returns
true iff some sphere's `Sphere::Intersect` is non-zero and below `1e20`; then `minDistance` is
that sphere's distance, it is non-zero and at most every non-zero per-sphere distance, and `id`
is the highest index attaining it. When it returns false, and in particular when every per-sphere
distance is zero, `minDistance` is the sentinel `1e20` and `id` is left unchanged. -/
theorem C2_scene_intersect_nearest (m : FloatMath F) (ray : Ray F) (id0 : Nat) :
    ((Intersect m ray id0).1 = true ↔
      ∃ i, i < 9 ∧ (sceneAt F i).Intersect m ray ≠ 0 ∧ (sceneAt F i).Intersect m ray < 1e20) ∧
    ((Intersect m ray id0).1 = true →
      (Intersect m ray id0).2.2 < 9 ∧
      (sceneAt F (Intersect m ray id0).2.2).Intersect m ray = (Intersect m ray id0).2.1 ∧
      (Intersect m ray id0).2.1 ≠ 0 ∧
      (∀ j, j < 9 → (sceneAt F j).Intersect m ray ≠ 0 →
        (Intersect m ray id0).2.1 ≤ (sceneAt F j).Intersect m ray) ∧
      (∀ j, j < 9 → (sceneAt F j).Intersect m ray = (Intersect m ray id0).2.1 →
        j ≤ (Intersect m ray id0).2.2)) ∧
    ((Intersect m ray id0).1 = false →
      (Intersect m ray id0).2.1 = 1e20 ∧ (Intersect m ray id0).2.2 = id0) ∧
    ((∀ i, i < 9 → (sceneAt F i).Intersect m ray = 0) →
      (Intersect m ray id0).1 = false ∧ (Intersect m ray id0).2.1 = 1e20 ∧
      (Intersect m ray id0).2.2 = id0) := by
  have hlen : (Scene F).length = 9 := rfl
  have hI : Intersect m ray id0 =
      (decide ((IntersectLoop (fun i => (sceneAt F i).Intersect m ray) 9 1e20 id0).1 < 1e20),
        (IntersectLoop (fun i => (sceneAt F i).Intersect m ray) 9 1e20 id0).1,
        (IntersectLoop (fun i => (sceneAt F i).Intersect m ray) 9 1e20 id0).2) := rfl
  rw [hI]
  simp only [decide_eq_true_eq, decide_eq_false_iff_not]
  rcases IntersectLoop_spec (fun i => (sceneAt F i).Intersect m ray) 9 1e20 id0 with
    ⟨h1, h2, h3⟩ | ⟨h1, h2, h3, h4, h5, h6⟩
  · have hnot : ¬ (IntersectLoop (fun i => (sceneAt F i).Intersect m ray) 9 1e20 id0).1 < 1e20 := by
      rw [h1]; exact lt_irrefl _
    refine ⟨⟨fun h => absurd h hnot, ?_⟩, fun h => absurd h hnot, fun _ => ⟨h1, h2⟩,
      fun _ => ⟨hnot, h1, h2⟩⟩
    rintro ⟨i, hi, hne, hlt⟩
    exact absurd (h3 i hi hne) (not_le.mpr hlt)
  · refine ⟨⟨fun _ => ⟨_, h2, ?_, ?_⟩, fun _ => h1⟩, fun _ => ⟨h2, h3, h4, h5, h6⟩,
      fun h => absurd h1 h, ?_⟩
    · show (sceneAt F _).Intersect m ray ≠ 0
      have := h3
      simp only at this
      rw [this]; exact h4
    · have := h3
      simp only at this
      rw [this]; exact h1
    · intro hall
      have := h3
      simp only at this
      rw [hall _ h2] at this
      exact absurd this.symm h4

/-! ### Sampler -/

theorem wrapInt32_of_range (z : Int) (h0 : -2147483648 ≤ z) (h1 : z ≤ 2147483647) :
    wrapInt32 z = z := by
  unfold wrapInt32; omega

theorem tdiv_four_of_nonneg (a : Int) (h : 0 ≤ a) : Int.tdiv a 4 = a / 4 :=
  Int.tdiv_eq_ediv h (by norm_num)

theorem tdiv_four_of_neg (a : Int) (h : a < 0) : Int.tdiv a 4 = -((-a) / 4) := by
  have h1 : a = -(-a) := by omega
  have h2 : Int.tdiv (-(-a)) 4 = -((-a) / 4) := by
    rw [Int.neg_tdiv, Int.tdiv_eq_ediv (by omega) (by norm_num)]
  rw [← h1] at h2
  exact h2

/-- C10 (amended). The entry point does not validate its argument. Without an argument
(`argc != 2`) the requested count is the default 10 and `SamplesPerPixel()` is 40. With one
argument the requested count is `atoi(argv[1]) / 4`, truncated toward zero, whatever its sign: it
is positive, and `SamplesPerPixel()` is positive, exactly when `atoi(argv[1]) >= 4`; for a
non-positive or unparsable argument (`atoi(argv[1]) <= 0`) the requested count and
`SamplesPerPixel()` are `<= 0`. -/
theorem C10_argument_not_validated (mt : Nat → F) (argc atoiArg : Int)
    (hlo : -2147483648 ≤ atoiArg) (hhi : atoiArg ≤ 2147483647) :
    (argc ≠ 2 → mainSamplesPerPixel argc atoiArg = 10 ∧
      (mainOriginalSampler mt argc atoiArg).SamplesPerPixel = 40) ∧
    (argc = 2 →
      mainSamplesPerPixel argc atoiArg = Int.tdiv atoiArg 4 ∧
      (0 < mainSamplesPerPixel argc atoiArg ↔ 4 ≤ atoiArg) ∧
      (0 < (mainOriginalSampler mt argc atoiArg).SamplesPerPixel ↔ 4 ≤ atoiArg) ∧
      (atoiArg ≤ 0 → mainSamplesPerPixel argc atoiArg ≤ 0 ∧
        (mainOriginalSampler mt argc atoiArg).SamplesPerPixel ≤ 0)) := by
  constructor
  · intro h
    have h1 : mainSamplesPerPixel argc atoiArg = 10 := by
      unfold mainSamplesPerPixel; rw [if_neg h]
    refine ⟨h1, ?_⟩
    show wrapInt32 (mainSamplesPerPixel argc atoiArg * 4) = 40
    rw [h1]; decide
  · intro h
    have h1 : mainSamplesPerPixel argc atoiArg = Int.tdiv atoiArg 4 := by
      unfold mainSamplesPerPixel; rw [if_pos h]
    have h2 : (mainOriginalSampler mt argc atoiArg).SamplesPerPixel
        = wrapInt32 (Int.tdiv atoiArg 4 * 4) := by
      show wrapInt32 (mainSamplesPerPixel argc atoiArg * 4) = _
      rw [h1]
    rw [h1, h2]
    rcases lt_or_le atoiArg 0 with hneg | hpos
    · rw [tdiv_four_of_neg _ hneg, wrapInt32_of_range _ (by omega) (by omega)]
      refine ⟨rfl, ?_, ?_, ?_⟩ <;> omega
    · rw [tdiv_four_of_nonneg _ hpos, wrapInt32_of_range _ (by omega) (by omega)]
      refine ⟨rfl, ?_, ?_, ?_⟩ <;> omega

/-- C10, witness: the argument `"40"`. -/
theorem C10_argument_not_validated_witness :
    (-2147483648 : Int) ≤ 40 ∧ (40 : Int) ≤ 2147483647 ∧
    ((2 : Int) = 2 →
      mainSamplesPerPixel 2 40 = Int.tdiv 40 4 ∧
      (0 < mainSamplesPerPixel 2 40 ↔ (4 : Int) ≤ 40) ∧
      (0 < (mainOriginalSampler (fun _ => (0 : ℚ)) 2 40).SamplesPerPixel ↔ (4 : Int) ≤ 40) ∧
      ((40 : Int) ≤ 0 → mainSamplesPerPixel 2 40 ≤ 0 ∧
        (mainOriginalSampler (fun _ => (0 : ℚ)) 2 40).SamplesPerPixel ≤ 0)) :=
  ⟨by decide, by decide,
    (C10_argument_not_validated (fun _ => (0 : ℚ)) 2 40 (by decide) (by decide)).2⟩

/-- C10, counterexample: for the arguments `"0"` (or any unparsable text, for which `atoi`
yields 0) and `"-8"` the requested count handed to the sampler is not positive (0 and -2, not
the default 10), `SamplesPerPixel()` is not positive (0 and -8), and for `"0"` the per-sample
weight is the quotient `1/0`. -/
theorem C10_counterexample :
    mainSamplesPerPixel 2 0 = 0 ∧
    ¬ (0 < (mainOriginalSampler (fun _ => (0 : ℚ)) 2 0).samplesPerPixel) ∧
    (mainOriginalSampler (fun _ => (0 : ℚ)) 2 0).SamplesPerPixel = 0 ∧
    ¬ (0 < (mainOriginalSampler (fun _ => (0 : ℚ)) 2 0).SamplesPerPixel) ∧
    mainSamplesPerPixel 2 (-8) = -2 ∧
    (mainOriginalSampler (fun _ => (0 : ℚ)) 2 (-8)).SamplesPerPixel = -8 := by
  decide

/-! ### Integrator : call structure and termination -/

theorem RadianceRefract_calls (m : FloatMath F) (obj : Sphere F)
    (f normal shading_normal position : Vector3 F) (ray : Ray F) (depth : Int)
    (sampler : Sampler F) :
    (RadianceRefract m obj f normal shading_normal position ray depth sampler).CallsAt depth ∧
    ((RadianceRefract m obj f normal shading_normal position ray depth sampler).numCalls = 2 →
      depth ≤ 2) := by
  unfold RadianceRefract
  simp only
  split_ifs
  all_goals refine ⟨rfl, fun h => ?_⟩
  all_goals first
    | omega
    | simp [Outcome.numCalls] at h

theorem RadianceMaterial_calls (m : FloatMath F) (obj : Sphere F)
    (f normal shading_normal position : Vector3 F) (ray : Ray F) (depth : Int)
    (sampler : Sampler F) :
    (RadianceMaterial m obj f normal shading_normal position ray depth sampler).CallsAt depth ∧
    ((RadianceMaterial m obj f normal shading_normal position ray depth sampler).numCalls = 2 →
      obj.materialType = MaterialType.Refract ∧ depth ≤ 2) := by
  unfold RadianceMaterial
  split
  · exact ⟨rfl, fun h => by simp [RadianceDiffuse, Outcome.numCalls] at h⟩
  · exact ⟨rfl, fun h => by simp [RadianceSpecular, Outcome.numCalls] at h⟩
  · rename_i hmat
    exact ⟨(RadianceRefract_calls m obj f normal shading_normal position ray depth sampler).1,
      fun h => ⟨hmat,
        (RadianceRefract_calls m obj f normal shading_normal position ray depth sampler).2 h⟩⟩

/-- The call structure of one activation of `Radiance`. -/
theorem RadianceBody_calls (m : FloatMath F) (ray : Ray F) (depth : Int) (sampler : Sampler F) :
    (RadianceBody m ray depth sampler).CallsAt (depth + 1) ∧
    ((RadianceBody m ray depth sampler).numCalls ≠ 0 → depth ≤ 100) ∧
    ((RadianceBody m ray depth sampler).numCalls = 2 →
      (sceneAt F (Intersect m ray 0).2.2).materialType = MaterialType.Refract ∧ depth + 1 ≤ 2) := by
  unfold RadianceBody
  simp only
  split_ifs
  all_goals (try split)
  all_goals first
    | (refine ⟨(RadianceMaterial_calls m _ _ _ _ _ ray _ _).1, fun _ => ?_,
        (RadianceMaterial_calls m _ _ _ _ _ ray _ _).2⟩
       omega)
    | (refine ⟨trivial, fun h => absurd rfl h, fun h => ?_⟩
       simp [Outcome.numCalls] at h)

/-- Beyond depth 100 an activation returns the emission of the hit sphere, or black on a miss,
without a nested call and with the sampler untouched. -/
theorem RadianceBody_deep (m : FloatMath F) (ray : Ray F) (depth : Int) (sampler : Sampler F)
    (h : 100 < depth) :
    RadianceBody m ray depth sampler =
      Outcome.ret (if (Intersect m ray 0).1 = false then Vector3.zero
        else (sceneAt F (Intersect m ray 0).2.2).emission) sampler := by
  unfold RadianceBody
  simp only
  split_ifs with h1
  · rfl
  · rfl

theorem Radiance_succ (m : FloatMath F) (fuel : Nat) (ray : Ray F) (depth : Int)
    (sampler : Sampler F) :
    Radiance m (fuel + 1) ray depth sampler =
      match RadianceBody m ray depth sampler with
      | Outcome.ret c s => some (c, s)
      | Outcome.call1 r d s k =>
        match Radiance m fuel r d s with
        | none => none
        | some (Li, s1) => some (k Li, s1)
      | Outcome.call2 r1 r2 d s k =>
        match Radiance m fuel r1 d s with
        | none => none
        | some (L1, s1) =>
          match Radiance m fuel r2 d s1 with
          | none => none
          | some (L2, s2) => some (k L1 L2, s2) := rfl

theorem fuelFor_succ (depth : Int) (h : depth ≤ 100) : fuelFor depth = fuelFor (depth + 1) + 1 := by
  unfold fuelFor; omega

theorem fuelFor_pos (depth : Int) : 1 ≤ fuelFor depth := by
  unfold fuelFor; omega

/-- With `fuelFor depth` units of fuel or more, `Radiance` returns. -/
theorem Radiance_total (m : FloatMath F) :
    ∀ (fuel : Nat) (ray : Ray F) (depth : Int) (sampler : Sampler F), fuelFor depth ≤ fuel →
      ∃ c s, Radiance m fuel ray depth sampler = some (c, s) := by
  intro fuel
  induction fuel with
  | zero =>
    intro ray depth sampler h
    exact absurd (fuelFor_pos depth) (by omega)
  | succ fuel ih =>
    intro ray depth sampler h
    rw [Radiance_succ]
    obtain ⟨hcalls, hdepth, _⟩ := RadianceBody_calls m ray depth sampler
    cases hb : RadianceBody m ray depth sampler with
    | ret c s => exact ⟨c, s, rfl⟩
    | call1 r d s k =>
      rw [hb] at hcalls hdepth
      have hd : d = depth + 1 := hcalls
      have h100 : depth ≤ 100 := hdepth (by simp [Outcome.numCalls])
      obtain ⟨c, s1, h1⟩ := ih r d s (by rw [hd]; have := fuelFor_succ depth h100; omega)
      simp only [h1]
      exact ⟨_, _, rfl⟩
    | call2 r1 r2 d s k =>
      rw [hb] at hcalls hdepth
      have hd : d = depth + 1 := hcalls
      have h100 : depth ≤ 100 := hdepth (by simp [Outcome.numCalls])
      have hf : fuelFor d ≤ fuel := by rw [hd]; have := fuelFor_succ depth h100; omega
      obtain ⟨c1, s1, h1⟩ := ih r1 d s hf
      obtain ⟨c2, s2, h2⟩ := ih r2 d s1 hf
      simp only [h1, h2]
      exact ⟨_, _, rfl⟩

/-- A result of `Radiance` does not depend on the fuel left over. -/
theorem Radiance_mono (m : FloatMath F) :
    ∀ (fuel : Nat) (ray : Ray F) (depth : Int) (sampler : Sampler F) (r : Vector3 F × Sampler F),
      Radiance m fuel ray depth sampler = some r →
      ∀ extra : Nat, Radiance m (fuel + extra) ray depth sampler = some r := by
  intro fuel
  induction fuel with
  | zero =>
    intro ray depth sampler r h
    exact absurd h (by simp [Radiance])
  | succ fuel ih =>
    intro ray depth sampler r h extra
    have he : fuel + 1 + extra = (fuel + extra) + 1 := by omega
    rw [he, Radiance_succ]
    rw [Radiance_succ] at h
    cases hb : RadianceBody m ray depth sampler with
    | ret c s => rw [hb] at h; exact h
    | call1 r1 d s k =>
      rw [hb] at h
      simp only at h ⊢
      cases h1 : Radiance m fuel r1 d s with
      | none => rw [h1] at h; exact absurd h (by simp)
      | some p =>
        rw [h1] at h
        rw [ih r1 d s p h1 extra]
        exact h
    | call2 r1 r2 d s k =>
      rw [hb] at h
      simp only at h ⊢
      cases h1 : Radiance m fuel r1 d s with
      | none => rw [h1] at h; exact absurd h (by simp)
      | some p =>
        rw [h1] at h
        simp only at h
        cases h2 : Radiance m fuel r2 d p.2 with
        | none => rw [h2] at h; exact absurd h (by simp)
        | some q =>
          rw [h2] at h
          rw [ih r1 d s p h1 extra]
          simp only
          rw [ih r2 d p.2 q h2 extra]
          exact h

/-- C4. `Radiance` terminates for every ray, starting depth and sequence of draws. Every nested
call of an activation is made with `depth + 1`, and only by an activation with `depth <= 100`;
an activation with `depth > 100` returns the emission of the hit sphere (black on a miss)
without a nested call and with the sampler untouched, so no number was drawn; two nested calls
are made only on the `Refract` sphere with incremented depth `<= 2`. The measure
`fuelFor depth = (101 - depth) + 1` drops by one at each nested call, `Radiance` returns with
that much nesting (102 from depth 0), and more fuel does not change the result. -/
theorem C4_radiance_terminates (m : FloatMath F) (ray : Ray F) (depth : Int)
    (sampler : Sampler F) :
    (RadianceBody m ray depth sampler).CallsAt (depth + 1) ∧
    ((RadianceBody m ray depth sampler).numCalls ≠ 0 →
      depth ≤ 100 ∧ fuelFor (depth + 1) + 1 = fuelFor depth) ∧
    (100 < depth →
      RadianceBody m ray depth sampler =
        Outcome.ret (if (Intersect m ray 0).1 = false then Vector3.zero
          else (sceneAt F (Intersect m ray 0).2.2).emission) sampler ∧
      Radiance m 1 ray depth sampler =
        some (if (Intersect m ray 0).1 = false then Vector3.zero
          else (sceneAt F (Intersect m ray 0).2.2).emission, sampler)) ∧
    ((RadianceBody m ray depth sampler).numCalls = 2 →
      (sceneAt F (Intersect m ray 0).2.2).materialType = MaterialType.Refract ∧ depth + 1 ≤ 2) ∧
    (∃ c s, Radiance m (fuelFor depth) ray depth sampler = some (c, s) ∧
      ∀ extra : Nat, Radiance m (fuelFor depth + extra) ray depth sampler = some (c, s)) ∧
    (∃ c s, Radiance m 102 ray 0 sampler = some (c, s)) := by
  obtain ⟨h1, h2, h3⟩ := RadianceBody_calls m ray depth sampler
  refine ⟨h1, fun h => ⟨h2 h, (fuelFor_succ depth (h2 h)).symm⟩, ?_, h3, ?_, ?_⟩
  · intro hd
    have hb := RadianceBody_deep m ray depth sampler hd
    refine ⟨hb, ?_⟩
    rw [Radiance_succ, hb]
  · obtain ⟨c, s, h⟩ := Radiance_total m (fuelFor depth) ray depth sampler le_rfl
    exact ⟨c, s, h, Radiance_mono m _ ray depth sampler _ h⟩
  · exact Radiance_total m 102 ray 0 sampler (by decide)

/-! ### Geometry -/

theorem Vector3.neg_one_smul_def (a : Vector3 F) : a * (-1 : F) = ⟨a.x * -1, a.y * -1, a.z * -1⟩ := rfl

/-- Cauchy-Schwarz for unit vectors. -/
theorem Vector3.dot_sq_le_one (a b : Vector3 F) (ha : a.Dot a = 1) (hb : b.Dot b = 1) :
    a.Dot b * a.Dot b ≤ 1 := by
  obtain ⟨ax, ay, az⟩ := a
  obtain ⟨bx, b_y, bz⟩ := b
  simp only [Vector3.Dot] at *
  nlinarith [sq_nonneg (ay * bz - az * b_y), sq_nonneg (az * bx - ax * bz),
    sq_nonneg (ax * b_y - ay * bx)]

theorem FloatMath.Exact.sqrt_ne_zero {m : FloatMath F} (hm : m.Exact) {x : F} (h : 0 < x) :
    m.sqrt x ≠ 0 := by
  intro h0
  have := hm.sqrt_mul_self x h.le
  rw [h0, mul_zero] at this
  exact absurd this.symm (ne_of_gt h)

theorem FloatMath.Exact.sqrt_pos {m : FloatMath F} (hm : m.Exact) {x : F} (h : 0 < x) :
    0 < m.sqrt x :=
  lt_of_le_of_ne (hm.sqrt_nonneg x h.le) (Ne.symm (hm.sqrt_ne_zero h))

theorem FloatMath.Exact.sqrt_one {m : FloatMath F} (hm : m.Exact) : m.sqrt 1 = 1 := by
  have h1 := hm.sqrt_mul_self 1 zero_le_one
  have h2 := hm.sqrt_nonneg 1 zero_le_one
  nlinarith

theorem FloatMath.Exact.sqrt_le_one {m : FloatMath F} (hm : m.Exact) {x : F} (h0 : 0 ≤ x)
    (h1 : x ≤ 1) : m.sqrt x ≤ 1 := by
  have h2 := hm.sqrt_mul_self x h0
  have h3 := hm.sqrt_nonneg x h0
  nlinarith

/-- `Normalize` yields a unit vector from a vector of positive length. -/
theorem Vector3.Normalize_unit (m : FloatMath F) (hm : m.Exact) (a : Vector3 F)
    (h : 0 < a.Dot a) : (a.Normalize m).Dot (a.Normalize m) = 1 := by
  have hq := hm.sqrt_mul_self _ h.le
  have hq0 := hm.sqrt_ne_zero h
  obtain ⟨x, y, z⟩ := a
  simp only [Vector3.Normalize, Vector3.scale, Vector3.Dot] at *
  field_simp
  linear_combination -hq

/-- `Normalize` leaves a unit vector unchanged. -/
theorem Vector3.Normalize_of_unit (m : FloatMath F) (hm : m.Exact) (a : Vector3 F)
    (h : a.Dot a = 1) : a.Normalize m = a := by
  obtain ⟨x, y, z⟩ := a
  simp only [Vector3.Dot] at h
  simp only [Vector3.Normalize, Vector3.scale, h, hm.sqrt_one]
  simp

/-- The mirror direction `d - n*2*(n.d)` of a unit direction about a unit normal is a unit vector. -/
theorem Vector3.mirror_unit (n d : Vector3 F) (hn : n.Dot n = 1) (hd : d.Dot d = 1) :
    (d - n * (2 : F) * n.Dot d).Dot (d - n * (2 : F) * n.Dot d) = 1 := by
  obtain ⟨nx, ny, nz⟩ := n
  obtain ⟨dx, dy, dz⟩ := d
  simp only [Vector3.Dot, Vector3.sub_def, Vector3.smul_def] at *
  linear_combination hd + (4 * (nx * dx + ny * dy + nz * dz) ^ 2) * hn

theorem Vector3.neg_one_unit (n : Vector3 F) (hn : n.Dot n = 1) :
    (n * (-1 : F)).Dot (n * (-1 : F)) = 1 := by
  obtain ⟨nx, ny, nz⟩ := n
  simp only [Vector3.Dot, Vector3.smul_def] at *
  linear_combination hn

theorem Vector3.cross_dot_right (a b : Vector3 F) : (a.Cross b).Dot b = 0 := by
  simp only [Vector3.Cross, Vector3.Dot]; ring

theorem Vector3.cross_dot_left (a b : Vector3 F) : (a.Cross b).Dot a = 0 := by
  simp only [Vector3.Cross, Vector3.Dot]; ring

theorem Vector3.dot_comm (a b : Vector3 F) : a.Dot b = b.Dot a := by
  simp only [Vector3.Dot]; ring

/-- Lagrange's identity. -/
theorem Vector3.cross_dot_cross (a b : Vector3 F) :
    (a.Cross b).Dot (a.Cross b) = a.Dot a * b.Dot b - a.Dot b * a.Dot b := by
  simp only [Vector3.Cross, Vector3.Dot]; ring

theorem Vector3.Normalize_dot (m : FloatMath F) (a b : Vector3 F) :
    (a.Normalize m).Dot b = a.Dot b * (1 / m.sqrt (a.Dot a)) := by
  simp only [Vector3.Normalize, Vector3.scale, Vector3.Dot]; ring

/-- The vector `axis x w` of the diffuse shading frame has positive length for a unit `w`. -/
theorem diffuse_axis_cross_pos (w : Vector3 F) (hw : w.Dot w = 1) :
    0 < ((if |w.x| > 0.1 then (⟨0, 1, 0⟩ : Vector3 F) else ⟨1, 0, 0⟩).Cross w).Dot
      ((if |w.x| > 0.1 then (⟨0, 1, 0⟩ : Vector3 F) else ⟨1, 0, 0⟩).Cross w) := by
  obtain ⟨x, y, z⟩ := w
  simp only [Vector3.Dot] at hw
  simp only
  split_ifs with h
  · simp only [Vector3.Cross, Vector3.Dot]
    have hx : x ≠ 0 := by
      intro h0
      rw [h0, abs_zero] at h
      norm_num at h
    have := mul_self_pos.mpr hx
    nlinarith [mul_self_nonneg z]
  · simp only [Vector3.Cross, Vector3.Dot]
    have hx : |x| ≤ 0.1 := not_lt.mp h
    have hx2 : x * x ≤ 0.01 := by
      have h1 := abs_nonneg x
      have h2 : |x| * |x| = x * x := abs_mul_abs_self x
      have h3 : |x| * |x| ≤ 0.1 * 0.1 := mul_le_mul hx hx h1 (by norm_num)
      rw [h2] at h3
      norm_num at h3 ⊢
      exact h3
    norm_num at hx2
    nlinarith

/-- The diffuse shading frame `u = normalize(axis x w)`, `v = w x u`, `w` is orthonormal for a
unit `w`. -/
theorem diffuse_frame (m : FloatMath F) (hm : m.Exact) (w : Vector3 F) (hw : w.Dot w = 1) :
    let u := ((if |w.x| > 0.1 then (⟨0, 1, 0⟩ : Vector3 F) else ⟨1, 0, 0⟩).Cross w).Normalize m
    let v := w.Cross u
    u.Dot u = 1 ∧ v.Dot v = 1 ∧ u.Dot v = 0 ∧ u.Dot w = 0 ∧ v.Dot w = 0 := by
  intro u v
  have hu : u.Dot u = 1 := Vector3.Normalize_unit m hm _ (diffuse_axis_cross_pos w hw)
  have huw : u.Dot w = 0 := by
    show (Vector3.Normalize m _).Dot w = 0
    rw [Vector3.Normalize_dot, Vector3.cross_dot_right, zero_mul]
  have hvv : v.Dot v = 1 := by
    show (w.Cross u).Dot (w.Cross u) = 1
    rw [Vector3.cross_dot_cross, hw, hu, Vector3.dot_comm w u, huw]
    ring
  have huv : u.Dot v = 0 := by
    show u.Dot (w.Cross u) = 0
    rw [Vector3.dot_comm, Vector3.cross_dot_right]
  have hvw : v.Dot w = 0 := by
    show (w.Cross u).Dot w = 0
    exact Vector3.cross_dot_left w u
  exact ⟨hu, hvv, huv, huw, hvw⟩

/-- In an orthonormal frame the combination `u*a1*a2 + v*b1*b2 + w*c` has squared length
`(a1*a2)^2 + (b1*b2)^2 + c^2` and component `c` along `w`. -/
theorem frame_combination (u v w : Vector3 F) (a1 a2 b1 b2 c : F)
    (hu : u.Dot u = 1) (hv : v.Dot v = 1) (hw : w.Dot w = 1)
    (huv : u.Dot v = 0) (huw : u.Dot w = 0) (hvw : v.Dot w = 0) :
    (u * a1 * a2 + v * b1 * b2 + w * c).Dot (u * a1 * a2 + v * b1 * b2 + w * c)
      = a1 * a2 * (a1 * a2) + b1 * b2 * (b1 * b2) + c * c ∧
    w.Dot (u * a1 * a2 + v * b1 * b2 + w * c) = c := by
  obtain ⟨ux, uy, uz⟩ := u
  obtain ⟨vx, vy, vz⟩ := v
  obtain ⟨wx, wy, wz⟩ := w
  simp only [Vector3.Dot, Vector3.add_def, Vector3.smul_def] at *
  constructor
  · linear_combination (a1 * a2 * (a1 * a2)) * hu + (b1 * b2 * (b1 * b2)) * hv + (c * c) * hw
      + (2 * a1 * a2 * b1 * b2) * huv + (2 * a1 * a2 * c) * huw + (2 * b1 * b2 * c) * hvw
  · linear_combination c * hw + (a1 * a2) * huw + (b1 * b2) * hvw

/-! ### Integrator : the diffuse branch -/

/-- The cosine-weighted direction of the diffuse branch, before `Normalize`, is a unit vector
whose component along the shading normal is `sqrt(1 - xi2)`. -/
theorem diffuse_direction (m : FloatMath F) (hm : m.Exact) (w : Vector3 F) (hw : w.Dot w = 1)
    (random1 random2 : F) (h0 : 0 ≤ random2) (h1 : random2 ≤ 1) :
    let u := ((if |w.x| > 0.1 then (⟨0, 1, 0⟩ : Vector3 F) else ⟨1, 0, 0⟩).Cross w).Normalize m
    let v := w.Cross u
    let D := u * m.cos random1 * m.sqrt random2 + v * m.sin random1 * m.sqrt random2
      + w * m.sqrt (1 - random2)
    D.Dot D = 1 ∧ w.Dot D = m.sqrt (1 - random2) ∧ D.Normalize m = D := by
  intro u v D
  obtain ⟨hu, hv, huv, huw, hvw⟩ := diffuse_frame m hm w hw
  obtain ⟨hDD, hwD⟩ := frame_combination u v w (m.cos random1) (m.sqrt random2)
    (m.sin random1) (m.sqrt random2) (m.sqrt (1 - random2)) hu hv hw huv huw hvw
  have hs2 := hm.sqrt_mul_self random2 h0
  have hs3 := hm.sqrt_mul_self (1 - random2) (by linarith)
  have hcs := hm.cos_sq_add_sin_sq random1
  have hD : D.Dot D = 1 := by
    rw [hDD]
    linear_combination (m.sqrt random2 * m.sqrt random2) * hcs + hs2 + hs3
  exact ⟨hD, hwD, Vector3.Normalize_of_unit m hm D hD⟩

/-- The diffuse branch: one nested call along a unit direction, with the cosine and the pdf
cancelling exactly. -/
theorem RadianceDiffuse_spec (m : FloatMath F) (hm : m.Exact) (obj : Sphere F)
    (f shading_normal position : Vector3 F) (depth : Int) (sampler : Sampler F)
    (hsn : shading_normal.Dot shading_normal = 1)
    (h0 : 0 ≤ sampler.Get1D.2.Get1D.1) (h1 : sampler.Get1D.2.Get1D.1 < 1) :
    ∃ direction k,
      RadianceDiffuse m obj f shading_normal position depth sampler
        = Outcome.call1 ⟨position, direction⟩ depth sampler.Get1D.2.Get1D.2 k ∧
      direction.Dot direction = 1 ∧
      shading_normal.Dot direction = m.sqrt (1 - sampler.Get1D.2.Get1D.1) ∧
      0 < m.sqrt (1 - sampler.Get1D.2.Get1D.1) ∧
      |shading_normal.Dot direction| / m.Pi ≠ 0 ∧
      ∀ Li, k Li = obj.emission + f * Li := by
  obtain ⟨hD, hwD, hN⟩ := diffuse_direction m hm shading_normal hsn
    (2 * m.Pi * sampler.Get1D.1) sampler.Get1D.2.Get1D.1 h0 h1.le
  have hpos : 0 < m.sqrt (1 - sampler.Get1D.2.Get1D.1) := hm.sqrt_pos (by linarith)
  have hPi := hm.Pi_pos
  refine ⟨_, _, rfl, ?_, ?_, hpos, ?_, ?_⟩
  · rw [hN]; exact hD
  · rw [hN]; exact hwD
  · rw [hN, hwD, abs_of_pos hpos]
    exact div_ne_zero (ne_of_gt hpos) (ne_of_gt hPi)
  · intro Li
    show obj.emission + (f / m.Pi * Li * |shading_normal.Dot (Vector3.Normalize m _)|)
      / (|shading_normal.Dot (Vector3.Normalize m _)| / m.Pi) = _
    rw [hN, hwD, abs_of_pos hpos]
    obtain ⟨fx, fy, fz⟩ := f
    obtain ⟨lx, ly, lz⟩ := Li
    simp only [Vector3.add_def, Vector3.mul_def, Vector3.smul_def, Vector3.sdiv_def]
    have h3 := ne_of_gt hpos
    have h4 := ne_of_gt hPi
    congr 1 <;> field_simp

/-! ### Integrator : the dielectric branch -/

/-- The shading normal is the unit normal or its opposite, whichever faces against the ray, and
`into` tells which. -/
theorem shading_normal_cases (n d : Vector3 F) (hn : n.Dot n = 1) :
    (refractInto n (if n.Dot d < 0 then n else n * (-1 : F)) = true ∧
      (if n.Dot d < 0 then n else n * (-1 : F)) = n ∧ n.Dot d < 0) ∨
    (refractInto n (if n.Dot d < 0 then n else n * (-1 : F)) = false ∧
      (if n.Dot d < 0 then n else n * (-1 : F)) = n * (-1 : F) ∧ 0 ≤ n.Dot d) := by
  by_cases h : n.Dot d < 0
  · left
    rw [if_pos h]
    refine ⟨?_, rfl, h⟩
    unfold refractInto
    rw [hn]
    exact decide_eq_true (by norm_num)
  · right
    rw [if_neg h]
    refine ⟨?_, rfl, not_lt.mp h⟩
    unfold refractInto
    have : n.Dot (n * (-1 : F)) = -1 := by
      obtain ⟨nx, ny, nz⟩ := n
      simp only [Vector3.Dot, Vector3.smul_def] at *
      linear_combination -hn
    rw [this]
    exact decide_eq_false (by norm_num)

theorem shading_normal_unit (n d : Vector3 F) (hn : n.Dot n = 1) :
    (if n.Dot d < 0 then n else n * (-1 : F)).Dot (if n.Dot d < 0 then n else n * (-1 : F)) = 1 := by
  split_ifs
  · exact hn
  · exact Vector3.neg_one_unit n hn

/-- The refraction vector has unit length (for any `eta`) when `cosThetaT2 >= 0`; its component
along the geometric normal is `-sqrt(cosThetaT2)` when entering and `sqrt(cosThetaT2)` when
leaving. -/
theorem refractVector_spec (m : FloatMath F) (hm : m.Exact) (n sn : Vector3 F) (ray : Ray F)
    (into : Bool) (eta : F) (hn : n.Dot n = 1) (hd : ray.direction.Dot ray.direction = 1)
    (hcase : (into = true ∧ sn = n) ∨ (into = false ∧ sn = n * (-1 : F)))
    (hT : 0 ≤ cosThetaT2 eta (ray.direction.Dot sn)) :
    (refractVector m n ray into eta (ray.direction.Dot sn)
        (cosThetaT2 eta (ray.direction.Dot sn))).Dot
      (refractVector m n ray into eta (ray.direction.Dot sn)
        (cosThetaT2 eta (ray.direction.Dot sn))) = 1 ∧
    (refractVector m n ray into eta (ray.direction.Dot sn)
        (cosThetaT2 eta (ray.direction.Dot sn))).Dot n
      = (if into then -1 else 1) * m.sqrt (cosThetaT2 eta (ray.direction.Dot sn)) := by
  have hq := hm.sqrt_mul_self _ hT
  simp only [refractVector]
  generalize m.sqrt (cosThetaT2 eta (ray.direction.Dot sn)) = q at hq ⊢
  obtain ⟨o, d⟩ := ray
  obtain ⟨nx, ny, nz⟩ := n
  obtain ⟨dx, dy, dz⟩ := d
  rcases hcase with ⟨hi, hs⟩ | ⟨hi, hs⟩
  · subst hi; subst hs
    simp only [refractVector, cosThetaT2, Vector3.Dot, Vector3.sub_def, Vector3.smul_def,
      if_true] at *
    constructor
    · linear_combination hq + (eta ^ 2) * hd
        + (eta ^ 2 * (dx * nx + dy * ny + dz * nz) ^ 2
          + 2 * eta * (dx * nx + dy * ny + dz * nz) * q + q ^ 2) * hn
    · linear_combination (-(dx * nx + dy * ny + dz * nz) * eta - q) * hn
  · subst hi; subst hs
    simp only [refractVector, cosThetaT2, Vector3.Dot, Vector3.sub_def, Vector3.smul_def,
      Bool.false_eq_true, if_false] at *
    constructor
    · linear_combination hq + (eta ^ 2) * hd
        + (eta ^ 2 * (dx * nx + dy * ny + dz * nz) ^ 2
          - 2 * eta * (dx * nx + dy * ny + dz * nz) * q + q ^ 2) * hn
    · linear_combination ((dx * nx + dy * ny + dz * nz) * eta - q) * (-hn)

/-- The Schlick reflectance lies between `R0 = 0.04` and 1 for `c` in `[0, 1]`. -/
theorem schlickRe_bounds (c : F) (h0 : 0 ≤ c) (h1 : c ≤ 1) :
    0.04 ≤ schlickRe c ∧ schlickRe c ≤ 1 := by
  have h5 : 0 ≤ c ^ 5 := pow_nonneg h0 5
  have h5' : c ^ 5 ≤ 1 := pow_le_one₀ h0 h1
  have he : schlickRe c = 0.04 + 0.96 * c ^ 5 := by
    unfold schlickRe
    norm_num
    ring
  rw [he]
  constructor <;> nlinarith


/-! ### Integrator : non-negativity -/

theorem Vector3.Nonneg.add {a b : Vector3 F} (ha : a.Nonneg) (hb : b.Nonneg) : (a + b).Nonneg :=
  ⟨add_nonneg ha.1 hb.1, add_nonneg ha.2.1 hb.2.1, add_nonneg ha.2.2 hb.2.2⟩

theorem Vector3.Nonneg.mul {a b : Vector3 F} (ha : a.Nonneg) (hb : b.Nonneg) : (a * b).Nonneg :=
  ⟨mul_nonneg ha.1 hb.1, mul_nonneg ha.2.1 hb.2.1, mul_nonneg ha.2.2 hb.2.2⟩

theorem Vector3.Nonneg.smul {a : Vector3 F} {k : F} (ha : a.Nonneg) (hk : 0 ≤ k) :
    (a * k).Nonneg :=
  ⟨mul_nonneg ha.1 hk, mul_nonneg ha.2.1 hk, mul_nonneg ha.2.2 hk⟩

theorem Vector3.Nonneg.zero : (Vector3.zero : Vector3 F).Nonneg :=
  ⟨le_refl _, le_refl _, le_refl _⟩

theorem Sampler.DrawsInUnit.get1D {s : Sampler F} (h : s.DrawsInUnit) :
    0 ≤ s.Get1D.1 ∧ s.Get1D.1 < 1 ∧ s.Get1D.2.DrawsInUnit :=
  ⟨(h _).1, (h _).2, h⟩

/-- The spheres of the scene have positive radius and non-negative emission and reflectance. -/
theorem Scene_facts (i : Nat) (hi : i < 9) :
    0 < (sceneAt F i).radius ∧ (sceneAt F i).emission.Nonneg ∧ (sceneAt F i).color.Nonneg := by
  interval_cases i <;>
    simp [sceneAt, Scene, Vector3.Nonneg, Vector3.zero, Vector3.smul_def] <;> norm_num

/-- A hit reported by the scene-level `Intersect` is a non-zero distance of the sphere `id`. -/
theorem Intersect_hit (m : FloatMath F) (ray : Ray F) (id0 : Nat)
    (h : (Intersect m ray id0).1 = true) :
    (Intersect m ray id0).2.2 < 9 ∧
    (sceneAt F (Intersect m ray id0).2.2).Intersect m ray = (Intersect m ray id0).2.1 ∧
    (Intersect m ray id0).2.1 ≠ 0 := by
  have hI : Intersect m ray id0 =
      (decide ((IntersectLoop (fun i => (sceneAt F i).Intersect m ray) 9 1e20 id0).1 < 1e20),
        (IntersectLoop (fun i => (sceneAt F i).Intersect m ray) 9 1e20 id0).1,
        (IntersectLoop (fun i => (sceneAt F i).Intersect m ray) 9 1e20 id0).2) := rfl
  rw [hI] at h ⊢
  simp only [decide_eq_true_eq] at h
  rcases IntersectLoop_spec (fun i => (sceneAt F i).Intersect m ray) 9 1e20 id0 with
    ⟨h1, _, _⟩ | ⟨_, h2, h3, h4, _, _⟩
  · rw [h1] at h; exact absurd h (lt_irrefl _)
  · exact ⟨h2, h3, h4⟩

/-- A non-zero result of `Sphere::Intersect` along a unit direction is a root. -/
theorem Sphere.Intersect_isRoot (m : FloatMath F) (hm : m.Exact) (s : Sphere F) (ray : Ray F)
    (hd : ray.direction.Dot ray.direction = 1) (hne : s.Intersect m ray ≠ 0) :
    s.IsRoot ray (s.Intersect m ray) := by
  rw [Sphere.Intersect_eq] at hne ⊢
  by_cases hD : s.discriminant ray < 0
  · rw [if_pos hD] at hne; exact absurd rfl hne
  · have hD0 : 0 ≤ s.discriminant ray := not_lt.mp hD
    rw [if_neg hD] at hne ⊢
    split_ifs at hne ⊢ with h2 h3
    · exact (Sphere.isRoot_iff_eq m hm s ray hd hD0 _).mpr (Or.inl rfl)
    · exact (Sphere.isRoot_iff_eq m hm s ray hd hD0 _).mpr (Or.inr rfl)
    · exact absurd rfl hne

/-- The geometric normal at a root of a sphere of positive radius is a unit vector. -/
theorem normal_unit (m : FloatMath F) (hm : m.Exact) (s : Sphere F) (ray : Ray F) (t : F)
    (hr : 0 < s.radius) (ht : s.IsRoot ray t) :
    ((ray.origin + ray.direction * t - s.center).Normalize m).Dot
      ((ray.origin + ray.direction * t - s.center).Normalize m) = 1 := by
  apply Vector3.Normalize_unit m hm
  unfold Sphere.IsRoot at ht
  rw [ht]
  exact mul_pos hr hr

/-- The largest channel of a non-negative colour, as `maxComponent` computes it, bounds each
channel. -/
theorem maxComponent_ge (f : Vector3 F) :
    f.x ≤ maxComponent f ∧ f.y ≤ maxComponent f ∧ f.z ≤ maxComponent f := by
  unfold maxComponent
  split_ifs with h1 h2
  · exact ⟨le_refl _, h1.1.le, h1.2.le⟩
  · refine ⟨?_, le_refl _, h2.le⟩
    by_contra hx
    push_neg at hx
    exact h1 ⟨hx, lt_trans h2 hx⟩
  · have h2' : f.y ≤ f.z := not_lt.mp h2
    refine ⟨?_, h2', le_refl _⟩
    by_contra hx
    push_neg at hx
    exact h1 ⟨lt_of_le_of_lt h2' hx, hx⟩

/-- Russian roulette keeps a non-negative reflectance non-negative. -/
theorem russianRoulette_nonneg (f f' : Vector3 F) (p u : F) (hf : f.Nonneg) (hu : 0 ≤ u)
    (h : russianRoulette f p u = some f') : f'.Nonneg := by
  unfold russianRoulette at h
  split_ifs at h with hlt
  have hp : 0 < p := lt_of_le_of_lt hu hlt
  have := Option.some.inj h
  rw [← this]
  exact hf.smul (by positivity)

/-- The quantities of the dielectric branch when transmission is possible: the refraction
direction is a unit vector, the Schlick term `c` lies in `[0, 1]` and `Re` in `[0.04, 1]`. -/
theorem refract_weights (m : FloatMath F) (hm : m.Exact) (n : Vector3 F) (ray : Ray F)
    (hn : n.Dot n = 1) (hd : ray.direction.Dot ray.direction = 1)
    (sn : Vector3 F) (hsn : sn = if n.Dot ray.direction < 0 then n else n * (-1 : F))
    (hT : ¬ cosThetaT2 (refractEta (refractInto n sn)) (ray.direction.Dot sn) < 0) :
    (refractDirection m n ray (refractInto n sn) (refractEta (refractInto n sn))
        (ray.direction.Dot sn)
        (cosThetaT2 (refractEta (refractInto n sn)) (ray.direction.Dot sn))).Dot
      (refractDirection m n ray (refractInto n sn) (refractEta (refractInto n sn))
        (ray.direction.Dot sn)
        (cosThetaT2 (refractEta (refractInto n sn)) (ray.direction.Dot sn))) = 1 ∧
    0 ≤ schlickC (refractInto n sn) (ray.direction.Dot sn)
      (refractDirection m n ray (refractInto n sn) (refractEta (refractInto n sn))
        (ray.direction.Dot sn)
        (cosThetaT2 (refractEta (refractInto n sn)) (ray.direction.Dot sn))) n ∧
    schlickC (refractInto n sn) (ray.direction.Dot sn)
      (refractDirection m n ray (refractInto n sn) (refractEta (refractInto n sn))
        (ray.direction.Dot sn)
        (cosThetaT2 (refractEta (refractInto n sn)) (ray.direction.Dot sn))) n ≤ 1 := by
  have hT0 := not_lt.mp hT
  have hcs := Vector3.dot_sq_le_one n ray.direction hn hd
  have hcases := shading_normal_cases n ray.direction hn
  rw [← hsn] at hcases
  have hcase : (refractInto n sn = true ∧ sn = n) ∨
      (refractInto n sn = false ∧ sn = n * (-1 : F)) := by
    rcases hcases with ⟨a, b, _⟩ | ⟨a, b, _⟩
    · exact Or.inl ⟨a, b⟩
    · exact Or.inr ⟨a, b⟩
  obtain ⟨hV, hVn⟩ := refractVector_spec m hm n sn ray (refractInto n sn)
    (refractEta (refractInto n sn)) hn hd hcase hT0
  have hrd : refractDirection m n ray (refractInto n sn) (refractEta (refractInto n sn))
      (ray.direction.Dot sn) (cosThetaT2 (refractEta (refractInto n sn)) (ray.direction.Dot sn))
      = refractVector m n ray (refractInto n sn) (refractEta (refractInto n sn))
      (ray.direction.Dot sn) (cosThetaT2 (refractEta (refractInto n sn)) (ray.direction.Dot sn)) :=
    Vector3.Normalize_of_unit m hm _ hV
  rw [hrd]
  refine ⟨hV, ?_⟩
  unfold schlickC
  rw [hVn]
  rcases hcases with ⟨hi, hs, hlt⟩ | ⟨hi, hs, hge⟩
  · rw [hi, hs]
    simp only [if_true]
    have hdn : ray.direction.Dot n = n.Dot ray.direction := Vector3.dot_comm _ _
    rw [hdn]
    constructor <;> nlinarith
  · have hq0 := hm.sqrt_nonneg _ hT0
    have hle : cosThetaT2 (refractEta (refractInto n sn)) (ray.direction.Dot sn) ≤ 1 := by
      have hsn1 : sn.Dot sn = 1 := by rw [hs]; exact Vector3.neg_one_unit n hn
      have h2 := Vector3.dot_sq_le_one ray.direction sn hd hsn1
      unfold cosThetaT2
      nlinarith [mul_self_nonneg (refractEta (refractInto n sn) : F)]
    have hq1 := hm.sqrt_le_one hT0 hle
    rw [hi] at hq0 hq1 ⊢
    simp only [Bool.false_eq_true, if_false, one_mul]
    constructor <;> linarith

theorem Outcome.good_of_linear (Le f : Vector3 F) (k : F) (hLe : Le.Nonneg) (hf : f.Nonneg)
    (hk : 0 ≤ k) (Li : Vector3 F) (hLi : Li.Nonneg) : (Le + f * (Li * k)).Nonneg :=
  hLe.add (hf.mul (hLi.smul hk))

/-- The dielectric branch yields a good outcome. -/
theorem RadianceRefract_good (m : FloatMath F) (hm : m.Exact) (obj : Sphere F)
    (f n sn position : Vector3 F) (ray : Ray F) (depth : Int) (s : Sampler F)
    (hLe : obj.emission.Nonneg) (hf : f.Nonneg) (hn : n.Dot n = 1)
    (hd : ray.direction.Dot ray.direction = 1)
    (hsn : sn = if n.Dot ray.direction < 0 then n else n * (-1 : F)) (hs : s.DrawsInUnit) :
    (RadianceRefract m obj f n sn position ray depth s).Good := by
  have hrefl : (reflectDirection n ray).Dot (reflectDirection n ray) = 1 :=
    Vector3.mirror_unit n ray.direction hn hd
  unfold RadianceRefract
  simp only
  by_cases hT : cosThetaT2 (refractEta (refractInto n sn)) (ray.direction.Dot sn) < 0
  · rw [if_pos hT]
    exact ⟨hrefl, hs, fun Li hLi => hLe.add (hf.mul hLi)⟩
  · rw [if_neg hT]
    obtain ⟨hrd, hc0, hc1⟩ := refract_weights m hm n ray hn hd sn hsn hT
    obtain ⟨hRe0, hRe1⟩ := schlickRe_bounds _ hc0 hc1
    generalize schlickRe (schlickC (refractInto n sn) (ray.direction.Dot sn)
      (refractDirection m n ray (refractInto n sn) (refractEta (refractInto n sn))
        (ray.direction.Dot sn)
        (cosThetaT2 (refractEta (refractInto n sn)) (ray.direction.Dot sn))) n) = Re
      at hRe0 hRe1 ⊢
    have hRe0' : 0 ≤ Re := le_trans (by norm_num) hRe0
    have hP0 : 0 < reflectProbability Re := by
      unfold reflectProbability; norm_num at hRe0 ⊢; linarith
    have hP1 : reflectProbability Re < 1 := by
      unfold reflectProbability; norm_num at hRe1 ⊢; linarith
    split_ifs with h2 h3
    · exact ⟨hrefl, hs.get1D.2.2, fun Li hLi =>
        Outcome.good_of_linear _ _ _ hLe hf (div_nonneg hRe0' hP0.le) Li hLi⟩
    · exact ⟨hrd, hs.get1D.2.2, fun Li hLi =>
        Outcome.good_of_linear _ _ _ hLe hf
          (div_nonneg (by linarith) (by linarith)) Li hLi⟩
    · exact ⟨hrefl, hrd, hs, fun L1 L2 h1 h2 =>
        hLe.add (hf.mul ((h1.smul hRe0').add (h2.smul (by linarith))))⟩

/-- The material dispatch yields a good outcome. -/
theorem RadianceMaterial_good (m : FloatMath F) (hm : m.Exact) (obj : Sphere F)
    (f n sn position : Vector3 F) (ray : Ray F) (depth : Int) (s : Sampler F)
    (hLe : obj.emission.Nonneg) (hf : f.Nonneg) (hn : n.Dot n = 1)
    (hd : ray.direction.Dot ray.direction = 1)
    (hsn : sn = if n.Dot ray.direction < 0 then n else n * (-1 : F)) (hs : s.DrawsInUnit) :
    (RadianceMaterial m obj f n sn position ray depth s).Good := by
  unfold RadianceMaterial
  split
  · have hsn1 : sn.Dot sn = 1 := by rw [hsn]; exact shading_normal_unit n ray.direction hn
    obtain ⟨direction, k, hk, hdir, _, _, _, hkv⟩ := RadianceDiffuse_spec m hm obj f sn position
      depth s hsn1 hs.get1D.2.2.get1D.1 hs.get1D.2.2.get1D.2.1
    rw [hk]
    refine ⟨hdir, hs.get1D.2.2.get1D.2.2, fun Li hLi => ?_⟩
    rw [hkv]
    exact hLe.add (hf.mul hLi)
  · exact ⟨Vector3.mirror_unit n ray.direction hn hd, hs, fun Li hLi => hLe.add (hf.mul hLi)⟩
  · exact RadianceRefract_good m hm obj f n sn position ray depth s hLe hf hn hd hsn hs

/-- One activation of `Radiance` on a ray with unit direction yields a good outcome. -/
theorem RadianceBody_good (m : FloatMath F) (hm : m.Exact) (ray : Ray F) (depth : Int)
    (s : Sampler F) (hd : ray.direction.Dot ray.direction = 1) (hs : s.DrawsInUnit) :
    (RadianceBody m ray depth s).Good := by
  unfold RadianceBody
  simp only
  by_cases hhit : (Intersect m ray 0).1 = false
  · rw [if_pos hhit]
    exact ⟨Vector3.Nonneg.zero, hs⟩
  · rw [if_neg hhit]
    have hhit' : (Intersect m ray 0).1 = true := by
      cases h : (Intersect m ray 0).1
      · exact absurd h hhit
      · rfl
    obtain ⟨hid, hdist, hne⟩ := Intersect_hit m ray 0 hhit'
    obtain ⟨hr, hLe, hcol⟩ := Scene_facts (F := F) _ hid
    by_cases hdeep : depth > 100
    · rw [if_pos hdeep]
      exact ⟨hLe, hs⟩
    · rw [if_neg hdeep]
      have hroot : (sceneAt F (Intersect m ray 0).2.2).IsRoot ray (Intersect m ray 0).2.1 := by
        have := Sphere.Intersect_isRoot m hm (sceneAt F (Intersect m ray 0).2.2) ray hd
          (by rw [hdist]; exact hne)
        rw [hdist] at this
        exact this
      have hn := normal_unit m hm _ ray _ hr hroot
      by_cases hrr : depth + 1 > 5
      · rw [if_pos hrr]
        split
        · rename_i f' hf'
          exact RadianceMaterial_good m hm _ f' _ _ _ ray _ _ hLe
            (russianRoulette_nonneg _ _ _ _ hcol hs.get1D.1 hf') hn hd rfl hs.get1D.2.2
        · exact ⟨hLe, hs.get1D.2.2⟩
      · rw [if_neg hrr]
        exact RadianceMaterial_good m hm _ _ _ _ _ ray _ _ hLe hcol hn hd rfl hs

/-- Whatever `Radiance` returns on a ray with unit direction is non-negative. -/
theorem Radiance_nonneg (m : FloatMath F) (hm : m.Exact) :
    ∀ (fuel : Nat) (ray : Ray F) (depth : Int) (s : Sampler F) (c : Vector3 F) (s' : Sampler F),
      ray.direction.Dot ray.direction = 1 → s.DrawsInUnit →
      Radiance m fuel ray depth s = some (c, s') → c.Nonneg ∧ s'.DrawsInUnit := by
  intro fuel
  induction fuel with
  | zero =>
    intro ray depth s c s' _ _ h
    exact absurd h (by simp [Radiance])
  | succ fuel ih =>
    intro ray depth s c s' hd hs h
    rw [Radiance_succ] at h
    have hgood := RadianceBody_good m hm ray depth s hd hs
    cases hb : RadianceBody m ray depth s with
    | ret c0 s0 =>
      rw [hb] at h hgood
      simp only [Option.some.injEq, Prod.mk.injEq] at h
      rw [← h.1, ← h.2]
      exact hgood
    | call1 r d s0 k =>
      rw [hb] at h hgood
      obtain ⟨hr, hs0, hk⟩ := hgood
      simp only at h
      cases h1 : Radiance m fuel r d s0 with
      | none => rw [h1] at h; exact absurd h (by simp)
      | some p =>
        rw [h1] at h
        simp only [Option.some.injEq, Prod.mk.injEq] at h
        obtain ⟨hp1, hp2⟩ := ih r d s0 p.1 p.2 hr hs0 h1
        rw [← h.1, ← h.2]
        exact ⟨hk _ hp1, hp2⟩
    | call2 r1 r2 d s0 k =>
      rw [hb] at h hgood
      obtain ⟨hr1, hr2, hs0, hk⟩ := hgood
      simp only at h
      cases h1 : Radiance m fuel r1 d s0 with
      | none => rw [h1] at h; exact absurd h (by simp)
      | some p =>
        rw [h1] at h
        simp only at h
        obtain ⟨hp1, hp2⟩ := ih r1 d s0 p.1 p.2 hr1 hs0 h1
        cases h2 : Radiance m fuel r2 d p.2 with
        | none => rw [h2] at h; exact absurd h (by simp)
        | some q =>
          rw [h2] at h
          simp only [Option.some.injEq, Prod.mk.injEq] at h
          obtain ⟨hq1, hq2⟩ := ih r2 d p.2 q.1 q.2 hr2 hp2 h2
          rw [← h.1, ← h.2]
          exact ⟨hk _ _ hp1 hq1, hq2⟩

/-- C5. Energy non-negativity. For the nine-sphere scene, every ray with unit direction, every
depth and every sequence of draws in `[0, 1)`, `Radiance` returns (with `fuelFor depth` units of
fuel or more) and each of the three channels of the returned colour is `>= 0`. -/
theorem C5_energy_nonneg (m : FloatMath F) (hm : m.Exact) (ray : Ray F) (depth : Int)
    (sampler : Sampler F) (hd : ray.direction.Dot ray.direction = 1)
    (hs : ∀ i, 0 ≤ sampler.rng.engine i ∧ sampler.rng.engine i < 1) (extra : Nat) :
    ∃ c s, Radiance m (fuelFor depth + extra) ray depth sampler = some (c, s) ∧
      0 ≤ c.x ∧ 0 ≤ c.y ∧ 0 ≤ c.z := by
  obtain ⟨c, s, h⟩ := Radiance_total m (fuelFor depth + extra) ray depth sampler
    (Nat.le_add_right _ _)
  exact ⟨c, s, h, (Radiance_nonneg m hm _ ray depth sampler c s hd hs h).1⟩

/-- C5, witness: the ray from the camera position straight down the `-z` axis, over the reals,
with every draw equal to `1/2`. -/
theorem C5_energy_nonneg_witness :
    FloatMath.Exact (⟨Real.sqrt, Real.cos, Real.sin, Real.pi⟩ : FloatMath ℝ) ∧
    (⟨⟨50, 52, 295.6⟩, ⟨0, 0, -1⟩⟩ : Ray ℝ).direction.Dot
      (⟨⟨50, 52, 295.6⟩, ⟨0, 0, -1⟩⟩ : Ray ℝ).direction = 1 ∧
    (∀ i, 0 ≤ (Sampler.new (fun _ => (1 / 2 : ℝ)) SamplerKind.TrapezoidalSampler 10).rng.engine i ∧
      (Sampler.new (fun _ => (1 / 2 : ℝ)) SamplerKind.TrapezoidalSampler 10).rng.engine i < 1) ∧
    ∃ c s, Radiance (⟨Real.sqrt, Real.cos, Real.sin, Real.pi⟩ : FloatMath ℝ) (fuelFor 0 + 0)
        ⟨⟨50, 52, 295.6⟩, ⟨0, 0, -1⟩⟩ 0
        (Sampler.new (fun _ => (1 / 2 : ℝ)) SamplerKind.TrapezoidalSampler 10) = some (c, s) ∧
      0 ≤ c.x ∧ 0 ≤ c.y ∧ 0 ≤ c.z :=
  ⟨realMath_exact, by norm_num [Vector3.Dot],
    fun _ => ⟨by norm_num [Sampler.new], by norm_num [Sampler.new]⟩,
    C5_energy_nonneg ⟨Real.sqrt, Real.cos, Real.sin, Real.pi⟩ realMath_exact
      ⟨⟨50, 52, 295.6⟩, ⟨0, 0, -1⟩⟩ 0
      (Sampler.new (fun _ => (1 / 2 : ℝ)) SamplerKind.TrapezoidalSampler 10)
      (by norm_num [Vector3.Dot]) (fun _ => ⟨by norm_num [Sampler.new], by norm_num [Sampler.new]⟩)
      0⟩


/-! ### Averages over a uniform draw -/

/-- The mean over a uniform draw `u` in `[0, 1)` of a quantity that is `a` for `u < p` and `b`
otherwise is `p * a + (1 - p) * b`. -/
theorem integral_Ico_step (p a b : ℝ) (hp0 : 0 ≤ p) (hp1 : p ≤ 1) :
    ∫ u in Set.Ico (0 : ℝ) 1, (if u < p then a else b) = p * a + (1 - p) * b := by
  have hsplit : Set.Ico (0 : ℝ) 1 = Set.Ico 0 p ∪ Set.Ico p 1 :=
    (Set.Ico_union_Ico_eq_Ico hp0 hp1).symm
  have hdisj : Disjoint (Set.Ico (0 : ℝ) p) (Set.Ico p 1) := by
    rw [Set.disjoint_left]
    intro x hx hx'
    exact absurd hx.2 (not_lt.mpr hx'.1)
  have e1 : Set.EqOn (fun u : ℝ => if u < p then a else b) (fun _ => a) (Set.Ico 0 p) :=
    fun u hu => if_pos hu.2
  have e2 : Set.EqOn (fun u : ℝ => if u < p then a else b) (fun _ => b) (Set.Ico p 1) :=
    fun u hu => if_neg (not_lt.mpr hu.1)
  have i1 : MeasureTheory.IntegrableOn (fun u : ℝ => if u < p then a else b) (Set.Ico 0 p) := by
    refine MeasureTheory.IntegrableOn.congr_fun ?_ e1.symm measurableSet_Ico
    exact MeasureTheory.integrableOn_const.mpr (Or.inr (by simp))
  have i2 : MeasureTheory.IntegrableOn (fun u : ℝ => if u < p then a else b) (Set.Ico p 1) := by
    refine MeasureTheory.IntegrableOn.congr_fun ?_ e2.symm measurableSet_Ico
    exact MeasureTheory.integrableOn_const.mpr (Or.inr (by simp))
  rw [hsplit, MeasureTheory.setIntegral_union hdisj measurableSet_Ico i1 i2,
    MeasureTheory.setIntegral_congr_fun measurableSet_Ico e1,
    MeasureTheory.setIntegral_congr_fun measurableSet_Ico e2,
    MeasureTheory.setIntegral_const, MeasureTheory.setIntegral_const,
    Real.volume_Ico, Real.volume_Ico, ENNReal.toReal_ofReal (by linarith),
    ENNReal.toReal_ofReal (by linarith)]
  simp only [smul_eq_mul]
  ring

/-! ### Integrator : one activation on a hit -/

theorem Radiance_succ_run (m : FloatMath F) (fuel : Nat) (ray : Ray F) (depth : Int)
    (sampler : Sampler F) :
    Radiance m (fuel + 1) ray depth sampler
      = (RadianceBody m ray depth sampler).run (Radiance m fuel) := by
  rw [Radiance_succ]
  cases RadianceBody m ray depth sampler <;> rfl

/-- On a hit at depth `<= 100` an activation plays the roulette and enters the material branch
of the hit sphere, or returns the emission when the path is terminated. -/
theorem RadianceBody_hit (m : FloatMath F) (ray : Ray F) (depth : Int) (sampler : Sampler F)
    (hhit : (Intersect m ray 0).1 = true) (hdepth : depth ≤ 100) :
    RadianceBody m ray depth sampler =
      match rouletteStep m ray depth sampler with
      | some (f, s) =>
        RadianceMaterial m (hitObject m ray) f (hitNormal m ray)
          (shadingNormal (hitNormal m ray) ray) (hitPosition m ray) ray (depth + 1) s
      | none => Outcome.ret (hitObject m ray).emission sampler.Get1D.2 := by
  unfold RadianceBody rouletteStep
  simp only
  rw [if_neg (by rw [hhit]; exact Bool.noConfusion), if_neg (not_lt.mpr hdepth)]
  by_cases hrr : depth + 1 > 5
  · rw [if_pos hrr, if_pos hrr]
    cases h : russianRoulette (hitObject m ray).color (maxComponent (hitObject m ray).color)
      sampler.Get1D.1 with
    | none =>
      simp only
      have h' : russianRoulette (sceneAt F (Intersect m ray 0).2.2).color
          (maxComponent (sceneAt F (Intersect m ray 0).2.2).color) sampler.Get1D.1 = none := h
      rw [h']
      rfl
    | some f =>
      simp only
      have h' : russianRoulette (sceneAt F (Intersect m ray 0).2.2).color
          (maxComponent (sceneAt F (Intersect m ray 0).2.2).color) sampler.Get1D.1 = some f := h
      rw [h']
      rfl
  · rw [if_neg hrr, if_neg hrr]
    rfl

/-- On a hit along a unit direction the geometric normal and the shading normal are unit
vectors. -/
theorem hitNormal_unit (m : FloatMath F) (hm : m.Exact) (ray : Ray F)
    (hd : ray.direction.Dot ray.direction = 1) (hhit : (Intersect m ray 0).1 = true) :
    (hitNormal m ray).Dot (hitNormal m ray) = 1 ∧
    (shadingNormal (hitNormal m ray) ray).Dot (shadingNormal (hitNormal m ray) ray) = 1 := by
  obtain ⟨hid, hdist, hne⟩ := Intersect_hit m ray 0 hhit
  obtain ⟨hr, _, _⟩ := Scene_facts (F := F) _ hid
  have hroot : (sceneAt F (Intersect m ray 0).2.2).IsRoot ray (Intersect m ray 0).2.1 := by
    have := Sphere.Intersect_isRoot m hm (sceneAt F (Intersect m ray 0).2.2) ray hd
      (by rw [hdist]; exact hne)
    rw [hdist] at this
    exact this
  have hn : (hitNormal m ray).Dot (hitNormal m ray) = 1 := normal_unit m hm _ ray _ hr hroot
  exact ⟨hn, shading_normal_unit _ ray.direction hn⟩

/-! ### Russian roulette -/

theorem russianRoulette_lt (f : Vector3 F) (p u : F) (h : u < p) :
    russianRoulette f p u = some (f * (1 / p)) := by
  unfold russianRoulette; rw [if_pos h]

theorem russianRoulette_ge (f : Vector3 F) (p u : F) (h : p ≤ u) :
    russianRoulette f p u = none := by
  unfold russianRoulette; rw [if_neg (not_lt.mpr h)]

/-- C6. Russian-roulette unbiasedness. For a reflectance `f` with `p = max_component` and
`0 < p <= 1`: the roulette terminates the path (`Radiance` returns only `Le`) for a draw
`u >= p` and otherwise continues with `f * (1/p)`; the mean over a uniform draw `u` in `[0, 1)`
of the continuation weight is `f` in every channel, and the mean of the estimate
`Le + weight * Li` is `Le + f * Li` in every channel, for any fixed `Li`. -/
theorem C6_russian_roulette_unbiased (m : FloatMath ℝ) (f Le Li : Vector3 ℝ)
    (hp0 : 0 < maxComponent f) (hp1 : maxComponent f ≤ 1) :
    (∀ u, maxComponent f ≤ u → russianRoulette f (maxComponent f) u = none) ∧
    (∀ u, u < maxComponent f →
      russianRoulette f (maxComponent f) u = some (f * (1 / maxComponent f))) ∧
    (∀ (ray : Ray ℝ) (depth : Int) (sampler : Sampler ℝ),
      (Intersect m ray 0).1 = true → 5 ≤ depth → depth ≤ 100 → (hitObject m ray).color = f →
      (maxComponent f ≤ sampler.Get1D.1 →
        RadianceBody m ray depth sampler
          = Outcome.ret (hitObject m ray).emission sampler.Get1D.2) ∧
      (sampler.Get1D.1 < maxComponent f →
        RadianceBody m ray depth sampler
          = RadianceMaterial m (hitObject m ray) (f * (1 / maxComponent f)) (hitNormal m ray)
              (shadingNormal (hitNormal m ray) ray) (hitPosition m ray) ray (depth + 1)
              sampler.Get1D.2)) ∧
    (∫ u in Set.Ico (0 : ℝ) 1, (rouletteWeight f u).x) = f.x ∧
    (∫ u in Set.Ico (0 : ℝ) 1, (rouletteWeight f u).y) = f.y ∧
    (∫ u in Set.Ico (0 : ℝ) 1, (rouletteWeight f u).z) = f.z ∧
    (∫ u in Set.Ico (0 : ℝ) 1, (rouletteEstimate Le f Li u).x) = (Le + f * Li).x ∧
    (∫ u in Set.Ico (0 : ℝ) 1, (rouletteEstimate Le f Li u).y) = (Le + f * Li).y ∧
    (∫ u in Set.Ico (0 : ℝ) 1, (rouletteEstimate Le f Li u).z) = (Le + f * Li).z := by
  have hp : maxComponent f ≠ 0 := ne_of_gt hp0
  have hw : ∀ u, rouletteWeight f u
      = if u < maxComponent f then f * (1 / maxComponent f) else Vector3.zero := by
    intro u
    unfold rouletteWeight russianRoulette
    split_ifs <;> rfl
  have he : ∀ u, rouletteEstimate Le f Li u
      = if u < maxComponent f then Le + f * (1 / maxComponent f) * Li else Le := by
    intro u
    unfold rouletteEstimate russianRoulette
    split_ifs <;> rfl
  have hwx : ∀ g : Vector3 ℝ → ℝ, (fun u => g (rouletteWeight f u))
      = fun u => if u < maxComponent f then g (f * (1 / maxComponent f)) else g Vector3.zero := by
    intro g; funext u; rw [hw]; split_ifs <;> rfl
  have hex : ∀ g : Vector3 ℝ → ℝ, (fun u => g (rouletteEstimate Le f Li u))
      = fun u => if u < maxComponent f then g (Le + f * (1 / maxComponent f) * Li)
          else g Le := by
    intro g; funext u; rw [he]; split_ifs <;> rfl
  refine ⟨fun u h => russianRoulette_ge f _ u h, fun u h => russianRoulette_lt f _ u h, ?_,
    ?_, ?_, ?_, ?_, ?_, ?_⟩
  · intro ray depth sampler hhit h5 h100 hcol
    have hbody := RadianceBody_hit m ray depth sampler hhit h100
    have hstep : rouletteStep m ray depth sampler =
        match russianRoulette f (maxComponent f) sampler.Get1D.1 with
        | some f1 => some (f1, sampler.Get1D.2)
        | none => none := by
      unfold rouletteStep
      rw [if_pos (by omega), hcol]
      cases russianRoulette f (maxComponent f) sampler.Get1D.1 <;> rfl
    constructor
    · intro hu
      rw [hbody, hstep, russianRoulette_ge f _ _ hu]
    · intro hu
      rw [hbody, hstep, russianRoulette_lt f _ _ hu]
  · rw [hwx (fun v => v.x), integral_Ico_step _ _ _ hp0.le hp1]
    simp only [Vector3.smul_def, Vector3.zero]
    field_simp
  · rw [hwx (fun v => v.y), integral_Ico_step _ _ _ hp0.le hp1]
    simp only [Vector3.smul_def, Vector3.zero]
    field_simp
  · rw [hwx (fun v => v.z), integral_Ico_step _ _ _ hp0.le hp1]
    simp only [Vector3.smul_def, Vector3.zero]
    field_simp
  · rw [hex (fun v => v.x), integral_Ico_step _ _ _ hp0.le hp1]
    simp only [Vector3.smul_def, Vector3.add_def, Vector3.mul_def]
    field_simp
    ring
  · rw [hex (fun v => v.y), integral_Ico_step _ _ _ hp0.le hp1]
    simp only [Vector3.smul_def, Vector3.add_def, Vector3.mul_def]
    field_simp
    ring
  · rw [hex (fun v => v.z), integral_Ico_step _ _ _ hp0.le hp1]
    simp only [Vector3.smul_def, Vector3.add_def, Vector3.mul_def]
    field_simp
    ring

/-- C6, witness: the reflectance of the Left wall, `(.75, .25, .25)`, with `p = .75`. -/
theorem C6_russian_roulette_unbiased_witness :
    0 < maxComponent (⟨0.75, 0.25, 0.25⟩ : Vector3 ℝ) ∧
    maxComponent (⟨0.75, 0.25, 0.25⟩ : Vector3 ℝ) ≤ 1 ∧
    (∫ u in Set.Ico (0 : ℝ) 1,
      (rouletteEstimate (⟨0, 0, 0⟩ : Vector3 ℝ) ⟨0.75, 0.25, 0.25⟩ ⟨1, 1, 1⟩ u).x)
      = ((⟨0, 0, 0⟩ : Vector3 ℝ) + (⟨0.75, 0.25, 0.25⟩ : Vector3 ℝ) * (⟨1, 1, 1⟩ : Vector3 ℝ)).x :=
  ⟨by norm_num [maxComponent], by norm_num [maxComponent],
    (C6_russian_roulette_unbiased ⟨Real.sqrt, Real.cos, Real.sin, Real.pi⟩
      ⟨0.75, 0.25, 0.25⟩ ⟨0, 0, 0⟩ ⟨1, 1, 1⟩ (by norm_num [maxComponent])
      (by norm_num [maxComponent])).2.2.2.2.2.2.1⟩


/-! ### Integrator : one activation on a hit, by material -/

theorem RadianceBody_material (m : FloatMath F) (ray : Ray F) (depth : Int) (sampler : Sampler F)
    (f : Vector3 F) (s1 : Sampler F) (hhit : (Intersect m ray 0).1 = true)
    (hdepth : depth ≤ 100) (hrr : rouletteStep m ray depth sampler = some (f, s1)) :
    RadianceBody m ray depth sampler =
      RadianceMaterial m (hitObject m ray) f (hitNormal m ray)
        (shadingNormal (hitNormal m ray) ray) (hitPosition m ray) ray (depth + 1) s1 := by
  rw [RadianceBody_hit m ray depth sampler hhit hdepth, hrr]

theorem RadianceMaterial_diffuse (m : FloatMath F) (obj : Sphere F)
    (f n sn position : Vector3 F) (ray : Ray F) (depth : Int) (s : Sampler F)
    (h : obj.materialType = MaterialType.Diffuse) :
    RadianceMaterial m obj f n sn position ray depth s
      = RadianceDiffuse m obj f sn position depth s := by
  unfold RadianceMaterial; rw [h]

theorem RadianceMaterial_refract (m : FloatMath F) (obj : Sphere F)
    (f n sn position : Vector3 F) (ray : Ray F) (depth : Int) (s : Sampler F)
    (h : obj.materialType = MaterialType.Refract) :
    RadianceMaterial m obj f n sn position ray depth s
      = RadianceRefract m obj f n sn position ray depth s := by
  unfold RadianceMaterial; rw [h]

theorem Outcome.run_call1 (rec : Ray F → Int → Sampler F → Option (Vector3 F × Sampler F))
    (r : Ray F) (d : Int) (s : Sampler F) (k : Vector3 F → Vector3 F) :
    (Outcome.call1 r d s k).run rec =
      match rec r d s with
      | none => none
      | some (Li, s1) => some (k Li, s1) := rfl

theorem Outcome.run_call2 (rec : Ray F → Int → Sampler F → Option (Vector3 F × Sampler F))
    (r1 r2 : Ray F) (d : Int) (s : Sampler F) (k : Vector3 F → Vector3 F → Vector3 F) :
    (Outcome.call2 r1 r2 d s k).run rec =
      match rec r1 d s with
      | none => none
      | some (L1, s1) =>
        match rec r2 d s1 with
        | none => none
        | some (L2, s2) => some (k L1 L2, s2) := rfl

/-- The cosine and the pdf of the diffuse branch cancel. -/
theorem diffuse_cancel (f Li : Vector3 F) (a Pi : F) (ha : a ≠ 0) (hPi : Pi ≠ 0) :
    (f / Pi * Li * a) / (a / Pi) = f * Li := by
  obtain ⟨fx, fy, fz⟩ := f
  obtain ⟨lx, ly, lz⟩ := Li
  simp only [Vector3.mul_def, Vector3.smul_def, Vector3.sdiv_def]
  congr 1 <;> field_simp

/-- C7. Diffuse cancellation. For a hit on a Diffuse sphere at depth `<= 100` whose shading
normal is a unit vector, with `f` the reflectance after any roulette rescaling and draws `xi1`,
`xi2` in `[0, 1)`: the sampled direction is a unit vector, `|cos theta|` is
`shading_normal . direction = sqrt(1 - xi2) > 0`, the pdf `|cos theta| / Pi` is not zero,
`(f/Pi * Li * |cos theta|) / (|cos theta| / Pi) = f * Li`, and the value `Radiance` returns is
exactly `Le + f * Li` with `Li` the result of the nested `Radiance` call. -/
theorem C7_diffuse_cancellation (m : FloatMath F) (hm : m.Exact) (ray : Ray F) (depth : Int)
    (sampler : Sampler F) (f : Vector3 F) (s1 : Sampler F)
    (hhit : (Intersect m ray 0).1 = true) (hdepth : depth ≤ 100)
    (hmat : (hitObject m ray).materialType = MaterialType.Diffuse)
    (hsn : (shadingNormal (hitNormal m ray) ray).Dot (shadingNormal (hitNormal m ray) ray) = 1)
    (hrr : rouletteStep m ray depth sampler = some (f, s1))
    (h1 : 0 ≤ s1.Get1D.1 ∧ s1.Get1D.1 < 1)
    (h2 : 0 ≤ s1.Get1D.2.Get1D.1 ∧ s1.Get1D.2.Get1D.1 < 1) :
    ∃ direction : Vector3 F,
      direction.Dot direction = 1 ∧
      (shadingNormal (hitNormal m ray) ray).Dot direction = m.sqrt (1 - s1.Get1D.2.Get1D.1) ∧
      0 < m.sqrt (1 - s1.Get1D.2.Get1D.1) ∧
      |(shadingNormal (hitNormal m ray) ray).Dot direction| / m.Pi ≠ 0 ∧
      (∀ Li : Vector3 F,
        (f / m.Pi * Li * |(shadingNormal (hitNormal m ray) ray).Dot direction|)
          / (|(shadingNormal (hitNormal m ray) ray).Dot direction| / m.Pi) = f * Li) ∧
      (∃ k, RadianceBody m ray depth sampler
          = Outcome.call1 ⟨hitPosition m ray, direction⟩ (depth + 1) s1.Get1D.2.Get1D.2 k ∧
        ∀ Li, k Li = (hitObject m ray).emission + f * Li) ∧
      ∀ fuel : Nat, Radiance m (fuel + 1) ray depth sampler =
        (Radiance m fuel ⟨hitPosition m ray, direction⟩ (depth + 1) s1.Get1D.2.Get1D.2).map
          (fun p => ((hitObject m ray).emission + f * p.1, p.2)) := by
  have _ := h1
  obtain ⟨direction, k, hk, hdir, hcos, hpos, hpdf, hkv⟩ :=
    RadianceDiffuse_spec m hm (hitObject m ray) f (shadingNormal (hitNormal m ray) ray)
      (hitPosition m ray) (depth + 1) s1 hsn h2.1 h2.2
  have hbody : RadianceBody m ray depth sampler
      = Outcome.call1 ⟨hitPosition m ray, direction⟩ (depth + 1) s1.Get1D.2.Get1D.2 k := by
    rw [RadianceBody_material m ray depth sampler f s1 hhit hdepth hrr,
      RadianceMaterial_diffuse m _ _ _ _ _ ray _ _ hmat, hk]
  refine ⟨direction, hdir, hcos, hpos, hpdf, ?_, ⟨k, hbody, hkv⟩, ?_⟩
  · intro Li
    have ha : |(shadingNormal (hitNormal m ray) ray).Dot direction| ≠ 0 := by
      rw [hcos, abs_of_pos hpos]; exact ne_of_gt hpos
    exact diffuse_cancel f Li _ _ ha (ne_of_gt hm.Pi_pos)
  · intro fuel
    rw [Radiance_succ_run, hbody, Outcome.run_call1]
    cases Radiance m fuel ⟨hitPosition m ray, direction⟩ (depth + 1) s1.Get1D.2.Get1D.2 with
    | none => rfl
    | some p => simp only [hkv, Option.map_some']

/-! ### Evaluating the model on concrete rays -/

theorem FloatMath.Exact.sqrt_eq {m : FloatMath F} (hm : m.Exact) {x y : F} (hy : 0 ≤ y)
    (h : y * y = x) : m.sqrt x = y := by
  have hx : 0 ≤ x := by rw [← h]; exact mul_nonneg hy hy
  have h1 := hm.sqrt_mul_self x hx
  have h2 := hm.sqrt_nonneg x hx
  nlinarith [mul_self_nonneg (m.sqrt x - y), mul_nonneg h2 hy]

/-- A sphere none of whose roots above epsilon is `<= t` is missed or hit beyond `t`. -/
theorem Sphere.Intersect_zero_or_gt (m : FloatMath F) (hm : m.Exact) (s : Sphere F) (ray : Ray F)
    (hd : ray.direction.Dot ray.direction = 1) (t : F)
    (h : ∀ r, s.IsRoot ray r → 1e-4 < r → t < r) :
    s.Intersect m ray = 0 ∨ t < s.Intersect m ray := by
  by_cases h0 : s.Intersect m ray = 0
  · exact Or.inl h0
  · exact Or.inr (h _ (Sphere.Intersect_isRoot m hm s ray hd h0)
      (Sphere.Intersect_gt_of_ne_zero m s ray h0))

/-- The scene-level `Intersect` reports sphere `k` at distance `t` when sphere `k` is hit at
`t < 1e20` and every other sphere is missed or hit beyond `t`. -/
theorem Intersect_eq_of_nearest (m : FloatMath F) (ray : Ray F) (id0 k : Nat) (t : F)
    (hk : k < 9) (hkt : (sceneAt F k).Intersect m ray = t) (ht0 : t ≠ 0) (ht : t < 1e20)
    (hothers : ∀ j, j < 9 → j ≠ k →
      (sceneAt F j).Intersect m ray = 0 ∨ t < (sceneAt F j).Intersect m ray) :
    Intersect m ray id0 = (true, t, k) := by
  have hI : Intersect m ray id0 =
      (decide ((IntersectLoop (fun i => (sceneAt F i).Intersect m ray) 9 1e20 id0).1 < 1e20),
        (IntersectLoop (fun i => (sceneAt F i).Intersect m ray) 9 1e20 id0).1,
        (IntersectLoop (fun i => (sceneAt F i).Intersect m ray) 9 1e20 id0).2) := rfl
  rw [hI]
  rcases IntersectLoop_spec (fun i => (sceneAt F i).Intersect m ray) 9 1e20 id0 with
    ⟨_, _, h3⟩ | ⟨h1, h2, h3, h4, h5, _⟩
  · have hge : (1e20 : F) ≤ (sceneAt F k).Intersect m ray :=
      h3 k hk (by show (sceneAt F k).Intersect m ray ≠ 0; rw [hkt]; exact ht0)
    rw [hkt] at hge
    exact absurd ht (not_lt.mpr hge)
  · have hle : (IntersectLoop (fun i => (sceneAt F i).Intersect m ray) 9 1e20 id0).1
        ≤ (sceneAt F k).Intersect m ray :=
      h5 k hk (by show (sceneAt F k).Intersect m ray ≠ 0; rw [hkt]; exact ht0)
    have h3 : (sceneAt F (IntersectLoop (fun i => (sceneAt F i).Intersect m ray) 9 1e20 id0).2).Intersect
        m ray = (IntersectLoop (fun i => (sceneAt F i).Intersect m ray) 9 1e20 id0).1 := h3
    rw [hkt] at hle
    have hid : (IntersectLoop (fun i => (sceneAt F i).Intersect m ray) 9 1e20 id0).2 = k := by
      by_contra hne
      rcases hothers _ h2 hne with h0 | hgt
      · rw [h3] at h0; exact h4 h0
      · rw [h3] at hgt; exact absurd hle (not_le.mpr hgt)
    have hval : (IntersectLoop (fun i => (sceneAt F i).Intersect m ray) 9 1e20 id0).1 = t := by
      rw [← h3, hid, hkt]
    rw [hid, hval, decide_eq_true ht]

theorem probeRayDiffuse_unit :
    (probeRayDiffuse : Ray F).direction.Dot (probeRayDiffuse : Ray F).direction = 1 := by
  simp [probeRayDiffuse, Vector3.Dot]

theorem probeRayGlass_unit :
    (probeRayGlass : Ray F).direction.Dot (probeRayGlass : Ray F).direction = 1 := by
  simp [probeRayGlass, Vector3.Dot]

set_option maxHeartbeats 1000000 in
/-- The probe ray at the Back wall hits it (sphere 2) at distance 81.6. -/
theorem Intersect_probeRayDiffuse (m : FloatMath F) (hm : m.Exact) (id0 : Nat) :
    Intersect m (probeRayDiffuse : Ray F) id0 = (true, 81.6, 2) := by
  apply Intersect_eq_of_nearest m _ id0 2 81.6 (by norm_num)
  · rw [Sphere.Intersect_eq]
    have hD : (sceneAt F 2).discriminant (probeRayDiffuse : Ray F) = 100000 * 100000 := by
      simp [Sphere.discriminant, sceneAt, Scene, probeRayDiffuse, Vector3.Dot, Vector3.sub_def]
      norm_num
    have hs : m.sqrt ((sceneAt F 2).discriminant (probeRayDiffuse : Ray F)) = 100000 := by
      rw [hD]; exact hm.sqrt_eq (by norm_num) rfl
    have hb : ((sceneAt F 2).center - (probeRayDiffuse : Ray F).origin).Dot
        (probeRayDiffuse : Ray F).direction = -99918.4 := by
      simp [sceneAt, Scene, probeRayDiffuse, Vector3.Dot, Vector3.sub_def]
      norm_num
    rw [hs, hb, hD]
    norm_num
  · norm_num
  · norm_num
  · intro j hj hne
    apply Sphere.Intersect_zero_or_gt m hm _ _ probeRayDiffuse_unit
    intro r hr hgt
    interval_cases j
    all_goals first
      | exact absurd rfl hne
      | (simp [Sphere.IsRoot, sceneAt, Scene, probeRayDiffuse, Vector3.Dot, Vector3.sub_def,
          Vector3.add_def, Vector3.smul_def, Vector3.zero] at hr
         norm_num at hr hgt ⊢
         first
           | nlinarith
           | nlinarith [mul_self_nonneg (408 / 5 + -r - 47)])

set_option maxHeartbeats 1000000 in
/-- The probe ray at the Glass sphere hits it (sphere 7) at distance 6.5. -/
theorem Intersect_probeRayGlass (m : FloatMath F) (hm : m.Exact) (id0 : Nat) :
    Intersect m (probeRayGlass : Ray F) id0 = (true, 6.5, 7) := by
  apply Intersect_eq_of_nearest m _ id0 7 6.5 (by norm_num)
  · rw [Sphere.Intersect_eq]
    have hD : (sceneAt F 7).discriminant (probeRayGlass : Ray F) = 16.5 * 16.5 := by
      simp [Sphere.discriminant, sceneAt, Scene, probeRayGlass, Vector3.Dot, Vector3.sub_def]
    have hs : m.sqrt ((sceneAt F 7).discriminant (probeRayGlass : Ray F)) = 16.5 := by
      rw [hD]; exact hm.sqrt_eq (by norm_num) rfl
    have hb : ((sceneAt F 7).center - (probeRayGlass : Ray F).origin).Dot
        (probeRayGlass : Ray F).direction = 23 := by
      simp [sceneAt, Scene, probeRayGlass, Vector3.Dot, Vector3.sub_def]
      norm_num
    rw [hs, hb, hD]
    norm_num
  · norm_num
  · norm_num
  · intro j hj hne
    apply Sphere.Intersect_zero_or_gt m hm _ _ probeRayGlass_unit
    intro r hr hgt
    interval_cases j
    all_goals first
      | exact absurd rfl hne
      | (simp [Sphere.IsRoot, sceneAt, Scene, probeRayGlass, Vector3.Dot, Vector3.sub_def,
          Vector3.add_def, Vector3.smul_def, Vector3.zero] at hr
         norm_num at hr hgt ⊢
         nlinarith)

/-- C7, witness: the probe ray at the Back wall (a Diffuse sphere), depth 0, over the reals,
every draw equal to `1/2`. -/
theorem C7_diffuse_cancellation_witness :
    FloatMath.Exact (⟨Real.sqrt, Real.cos, Real.sin, Real.pi⟩ : FloatMath ℝ) ∧
    (Intersect (⟨Real.sqrt, Real.cos, Real.sin, Real.pi⟩ : FloatMath ℝ) probeRayDiffuse 0).1
      = true ∧
    (0 : Int) ≤ 100 ∧
    (hitObject (⟨Real.sqrt, Real.cos, Real.sin, Real.pi⟩ : FloatMath ℝ)
      probeRayDiffuse).materialType = MaterialType.Diffuse ∧
    (shadingNormal (hitNormal (⟨Real.sqrt, Real.cos, Real.sin, Real.pi⟩ : FloatMath ℝ)
        probeRayDiffuse) probeRayDiffuse).Dot
      (shadingNormal (hitNormal (⟨Real.sqrt, Real.cos, Real.sin, Real.pi⟩ : FloatMath ℝ)
        probeRayDiffuse) probeRayDiffuse) = 1 ∧
    rouletteStep (⟨Real.sqrt, Real.cos, Real.sin, Real.pi⟩ : FloatMath ℝ) probeRayDiffuse 0
        (Sampler.new (fun _ => (1 / 2 : ℝ)) SamplerKind.TrapezoidalSampler 10)
      = some ((hitObject (⟨Real.sqrt, Real.cos, Real.sin, Real.pi⟩ : FloatMath ℝ)
          probeRayDiffuse).color,
        Sampler.new (fun _ => (1 / 2 : ℝ)) SamplerKind.TrapezoidalSampler 10) ∧
    ∃ direction : Vector3 ℝ,
      direction.Dot direction = 1 ∧
      ∀ fuel : Nat,
        Radiance (⟨Real.sqrt, Real.cos, Real.sin, Real.pi⟩ : FloatMath ℝ) (fuel + 1)
          probeRayDiffuse 0 (Sampler.new (fun _ => (1 / 2 : ℝ)) SamplerKind.TrapezoidalSampler 10)
        = (Radiance (⟨Real.sqrt, Real.cos, Real.sin, Real.pi⟩ : FloatMath ℝ) fuel
            ⟨hitPosition (⟨Real.sqrt, Real.cos, Real.sin, Real.pi⟩ : FloatMath ℝ) probeRayDiffuse,
              direction⟩ (0 + 1)
            (Sampler.new (fun _ => (1 / 2 : ℝ)) SamplerKind.TrapezoidalSampler
              10).Get1D.2.Get1D.2).map
          (fun p =>
            ((hitObject (⟨Real.sqrt, Real.cos, Real.sin, Real.pi⟩ : FloatMath ℝ)
              probeRayDiffuse).emission
              + (hitObject (⟨Real.sqrt, Real.cos, Real.sin, Real.pi⟩ : FloatMath ℝ)
                probeRayDiffuse).color * p.1, p.2)) := by
  have hhit : (Intersect (⟨Real.sqrt, Real.cos, Real.sin, Real.pi⟩ : FloatMath ℝ)
      probeRayDiffuse 0).1 = true := by
    rw [Intersect_probeRayDiffuse _ realMath_exact]
  have hmat : (hitObject (⟨Real.sqrt, Real.cos, Real.sin, Real.pi⟩ : FloatMath ℝ)
      probeRayDiffuse).materialType = MaterialType.Diffuse := by
    unfold hitObject
    rw [Intersect_probeRayDiffuse _ realMath_exact]
    rfl
  have hsn := (hitNormal_unit _ realMath_exact (probeRayDiffuse : Ray ℝ) probeRayDiffuse_unit
    hhit).2
  have hrr : rouletteStep (⟨Real.sqrt, Real.cos, Real.sin, Real.pi⟩ : FloatMath ℝ)
      probeRayDiffuse 0 (Sampler.new (fun _ => (1 / 2 : ℝ)) SamplerKind.TrapezoidalSampler 10)
      = some ((hitObject (⟨Real.sqrt, Real.cos, Real.sin, Real.pi⟩ : FloatMath ℝ)
          probeRayDiffuse).color,
        Sampler.new (fun _ => (1 / 2 : ℝ)) SamplerKind.TrapezoidalSampler 10) := by
    unfold rouletteStep
    rw [if_neg (by decide)]
  obtain ⟨direction, hdir, _, _, _, _, _, hrad⟩ :=
    C7_diffuse_cancellation (⟨Real.sqrt, Real.cos, Real.sin, Real.pi⟩ : FloatMath ℝ)
      realMath_exact probeRayDiffuse 0
      (Sampler.new (fun _ => (1 / 2 : ℝ)) SamplerKind.TrapezoidalSampler 10) _ _ hhit
      (by decide) hmat hsn hrr
      ⟨by norm_num [Sampler.Get1D, RNG.UniformFloat, Sampler.new],
        by norm_num [Sampler.Get1D, RNG.UniformFloat, Sampler.new]⟩
      ⟨by norm_num [Sampler.Get1D, RNG.UniformFloat, Sampler.new],
        by norm_num [Sampler.Get1D, RNG.UniformFloat, Sampler.new]⟩
  exact ⟨realMath_exact, hhit, by decide, hmat, hsn, hrr, direction, hdir, hrad⟩


/-! ### Integrator : the dielectric branch on a hit -/

theorem refractEta_true : refractEta (F := F) true = 1 / 1.5 := by
  simp [refractEta]

theorem refractEta_false : refractEta (F := F) false = 1.5 := by
  simp [refractEta]

/-- With a unit normal, `into` holds exactly when the ray runs against the geometric normal. -/
theorem refractInto_iff (n : Vector3 F) (ray : Ray F) (hn : n.Dot n = 1) :
    refractInto n (shadingNormal n ray) = true ↔ n.Dot ray.direction < 0 := by
  unfold shadingNormal
  rcases shading_normal_cases n ray.direction hn with ⟨h1, _, h3⟩ | ⟨h1, _, h3⟩
  · exact ⟨fun _ => h3, fun _ => h1⟩
  · constructor
    · intro h; rw [h1] at h; exact absurd h (by decide)
    · intro h; exact absurd h (not_lt.mpr h3)

/-- Entering the glass, `cosThetaT2` is at least `5/9`. -/
theorem cosThetaT2_entering (c : F) : 5 / 9 ≤ cosThetaT2 (refractEta true) c := by
  rw [refractEta_true]
  unfold cosThetaT2
  norm_num
  nlinarith [mul_self_nonneg c]

/-- Leaving the glass, `cosThetaT2` is negative exactly beyond the critical angle. -/
theorem cosThetaT2_leaving (c : F) :
    cosThetaT2 (refractEta false) c < 0 ↔ 1 - c * c > (1 / 1.5) * (1 / 1.5) := by
  rw [refractEta_false]
  unfold cosThetaT2
  norm_num
  constructor <;> intro h <;> nlinarith

/-- The dielectric branch under total internal reflection. -/
theorem RadianceRefract_tir (m : FloatMath F) (obj : Sphere F)
    (f n sn position : Vector3 F) (ray : Ray F) (depth : Int) (s : Sampler F)
    (hT : cosThetaT2 (refractEta (refractInto n sn)) (ray.direction.Dot sn) < 0) :
    RadianceRefract m obj f n sn position ray depth s
      = Outcome.call1 ⟨position, reflectDirection n ray⟩ depth s
          (fun Lr => obj.emission + f * Lr) := by
  unfold RadianceRefract
  simp only
  rw [if_pos hT]

/-- The dielectric branch when transmission is possible. -/
theorem RadianceRefract_transmit (m : FloatMath F) (obj : Sphere F)
    (f n sn position : Vector3 F) (ray : Ray F) (depth : Int) (s : Sampler F)
    (hT : ¬ cosThetaT2 (refractEta (refractInto n sn)) (ray.direction.Dot sn) < 0) :
    RadianceRefract m obj f n sn position ray depth s =
      if depth > 2 then
        if s.Get1D.1 < reflectProbability (schlickRe (schlickC (refractInto n sn)
            (ray.direction.Dot sn)
            (refractDirection m n ray (refractInto n sn) (refractEta (refractInto n sn))
              (ray.direction.Dot sn)
              (cosThetaT2 (refractEta (refractInto n sn)) (ray.direction.Dot sn))) n)) then
          Outcome.call1 ⟨position, reflectDirection n ray⟩ depth s.Get1D.2
            (fun Lr => obj.emission + f * (Lr *
              (schlickRe (schlickC (refractInto n sn) (ray.direction.Dot sn)
                (refractDirection m n ray (refractInto n sn) (refractEta (refractInto n sn))
                  (ray.direction.Dot sn)
                  (cosThetaT2 (refractEta (refractInto n sn)) (ray.direction.Dot sn))) n)
              / reflectProbability (schlickRe (schlickC (refractInto n sn)
                (ray.direction.Dot sn)
                (refractDirection m n ray (refractInto n sn) (refractEta (refractInto n sn))
                  (ray.direction.Dot sn)
                  (cosThetaT2 (refractEta (refractInto n sn)) (ray.direction.Dot sn))) n)))))
        else
          Outcome.call1 ⟨position, refractDirection m n ray (refractInto n sn)
              (refractEta (refractInto n sn)) (ray.direction.Dot sn)
              (cosThetaT2 (refractEta (refractInto n sn)) (ray.direction.Dot sn))⟩ depth s.Get1D.2
            (fun Lt => obj.emission + f * (Lt *
              ((1 - schlickRe (schlickC (refractInto n sn) (ray.direction.Dot sn)
                (refractDirection m n ray (refractInto n sn) (refractEta (refractInto n sn))
                  (ray.direction.Dot sn)
                  (cosThetaT2 (refractEta (refractInto n sn)) (ray.direction.Dot sn))) n))
              / (1 - reflectProbability (schlickRe (schlickC (refractInto n sn)
                (ray.direction.Dot sn)
                (refractDirection m n ray (refractInto n sn) (refractEta (refractInto n sn))
                  (ray.direction.Dot sn)
                  (cosThetaT2 (refractEta (refractInto n sn)) (ray.direction.Dot sn))) n))))))
      else
        Outcome.call2 ⟨position, reflectDirection n ray⟩
          ⟨position, refractDirection m n ray (refractInto n sn)
            (refractEta (refractInto n sn)) (ray.direction.Dot sn)
            (cosThetaT2 (refractEta (refractInto n sn)) (ray.direction.Dot sn))⟩ depth s
          (fun Lr Lt => obj.emission + f * (Lr *
              schlickRe (schlickC (refractInto n sn) (ray.direction.Dot sn)
                (refractDirection m n ray (refractInto n sn) (refractEta (refractInto n sn))
                  (ray.direction.Dot sn)
                  (cosThetaT2 (refractEta (refractInto n sn)) (ray.direction.Dot sn))) n)
            + Lt * (1 - schlickRe (schlickC (refractInto n sn) (ray.direction.Dot sn)
                (refractDirection m n ray (refractInto n sn) (refractEta (refractInto n sn))
                  (ray.direction.Dot sn)
                  (cosThetaT2 (refractEta (refractInto n sn)) (ray.direction.Dot sn))) n)))) := by
  unfold RadianceRefract
  simp only
  rw [if_neg hT]

/-- C9. Total internal reflection boundary. For a hit on the Refract sphere at depth `<= 100`
with unit ray direction and unit normal: `into` holds exactly when the ray runs against the
normal; `cosThetaT2 = 1 - eta^2 * (1 - cosThetaI^2)` is negative exactly when the ray is leaving
the glass (`into` false, `eta = 1.5`) with `1 - cosThetaI^2 > (1/1.5)^2`, and then `Radiance`
returns `Le + f * Radiance(reflectRay)`, its one nested call receiving the sampler as the
roulette step left it (no reflect/transmit draw); for a ray entering the glass
(`eta = 1/1.5`), `cosThetaT2 >= 5/9 > 0`. -/
theorem C9_total_internal_reflection (m : FloatMath F) (ray : Ray F) (depth : Int)
    (sampler : Sampler F) (f : Vector3 F) (s1 : Sampler F)
    (hd : ray.direction.Dot ray.direction = 1)
    (hn : (hitNormal m ray).Dot (hitNormal m ray) = 1)
    (hhit : (Intersect m ray 0).1 = true) (hdepth : depth ≤ 100)
    (hmat : (hitObject m ray).materialType = MaterialType.Refract)
    (hrr : rouletteStep m ray depth sampler = some (f, s1)) :
    (hitInto m ray = true ↔ (hitNormal m ray).Dot ray.direction < 0) ∧
    (hitInto m ray = true → hitEta m ray = 1 / 1.5 ∧ 5 / 9 ≤ hitCosThetaT2 m ray) ∧
    (hitInto m ray = false → hitEta m ray = 1.5) ∧
    hitCosThetaT2 m ray
      = 1 - hitEta m ray * hitEta m ray * (1 - hitCosThetaI m ray * hitCosThetaI m ray) ∧
    (hitCosThetaT2 m ray < 0 ↔
      hitInto m ray = false ∧
      1 - hitCosThetaI m ray * hitCosThetaI m ray > (1 / 1.5) * (1 / 1.5)) ∧
    (hitCosThetaT2 m ray < 0 →
      RadianceBody m ray depth sampler
        = Outcome.call1 (hitReflectRay m ray) (depth + 1) s1
            (fun Lr => (hitObject m ray).emission + f * Lr) ∧
      ∀ fuel : Nat, Radiance m (fuel + 1) ray depth sampler =
        (Radiance m fuel (hitReflectRay m ray) (depth + 1) s1).map
          (fun p => ((hitObject m ray).emission + f * p.1, p.2))) := by
  have _ := hd
  have hinto : hitInto m ray = true ↔ (hitNormal m ray).Dot ray.direction < 0 :=
    refractInto_iff (hitNormal m ray) ray hn
  have hent : hitInto m ray = true → hitEta m ray = 1 / 1.5 ∧ 5 / 9 ≤ hitCosThetaT2 m ray := by
    intro h
    unfold hitCosThetaT2 hitEta
    rw [h]
    exact ⟨refractEta_true, cosThetaT2_entering _⟩
  have hlv : hitInto m ray = false → hitEta m ray = 1.5 := by
    intro h
    unfold hitEta
    rw [h]
    exact refractEta_false
  refine ⟨hinto, hent, hlv, rfl, ?_, ?_⟩
  · constructor
    · intro hT
      cases hi : hitInto m ray with
      | true =>
        have := (hent hi).2
        exact absurd hT (not_lt.mpr (le_trans (by norm_num) this))
      | false =>
        refine ⟨rfl, ?_⟩
        unfold hitCosThetaT2 hitEta at hT
        rw [hi] at hT
        exact (cosThetaT2_leaving _).mp hT
    · rintro ⟨hi, hgt⟩
      unfold hitCosThetaT2 hitEta
      rw [hi]
      exact (cosThetaT2_leaving _).mpr hgt
  · intro hT
    have hbody : RadianceBody m ray depth sampler
        = Outcome.call1 (hitReflectRay m ray) (depth + 1) s1
            (fun Lr => (hitObject m ray).emission + f * Lr) := by
      rw [RadianceBody_material m ray depth sampler f s1 hhit hdepth hrr,
        RadianceMaterial_refract m _ _ _ _ _ ray _ _ hmat,
        RadianceRefract_tir m _ _ _ _ _ ray _ _ hT]
      rfl
    refine ⟨hbody, fun fuel => ?_⟩
    rw [Radiance_succ_run, hbody, Outcome.run_call1]
    cases Radiance m fuel (hitReflectRay m ray) (depth + 1) s1 <;> rfl

/-- On a hit along a unit direction where transmission is possible, the refraction direction is
a unit vector and `Re` lies in `[0.04, 1]`, so `P = 0.25 + 0.5 * Re` lies in `[0.27, 0.75]`. -/
theorem hit_weights (m : FloatMath F) (hm : m.Exact) (ray : Ray F)
    (hd : ray.direction.Dot ray.direction = 1) (hhit : (Intersect m ray 0).1 = true)
    (hT : ¬ hitCosThetaT2 m ray < 0) :
    (hitRefractRay m ray).direction.Dot (hitRefractRay m ray).direction = 1 ∧
    0.04 ≤ hitRe m ray ∧ hitRe m ray ≤ 1 ∧
    0.27 ≤ reflectProbability (hitRe m ray) ∧ reflectProbability (hitRe m ray) ≤ 0.75 := by
  obtain ⟨hn, _⟩ := hitNormal_unit m hm ray hd hhit
  obtain ⟨hrd, hc0, hc1⟩ := refract_weights m hm (hitNormal m ray) ray hn hd
    (shadingNormal (hitNormal m ray) ray) rfl hT
  obtain ⟨hRe0, hRe1⟩ := schlickRe_bounds _ hc0 hc1
  have hRe0' : 0.04 ≤ hitRe m ray := hRe0
  have hRe1' : hitRe m ray ≤ 1 := hRe1
  refine ⟨hrd, hRe0', hRe1', ?_, ?_⟩
  · unfold reflectProbability; norm_num at hRe0' ⊢; linarith
  · unfold reflectProbability; norm_num at hRe1' ⊢; linarith

/-- One activation on a hit of the Refract sphere where transmission is possible. -/
theorem RadianceBody_transmit (m : FloatMath F) (ray : Ray F) (depth : Int)
    (sampler : Sampler F) (f : Vector3 F) (s1 : Sampler F)
    (hhit : (Intersect m ray 0).1 = true) (hdepth : depth ≤ 100)
    (hmat : (hitObject m ray).materialType = MaterialType.Refract)
    (hrr : rouletteStep m ray depth sampler = some (f, s1))
    (hT : ¬ hitCosThetaT2 m ray < 0) :
    RadianceBody m ray depth sampler =
      if depth + 1 > 2 then
        if s1.Get1D.1 < reflectProbability (hitRe m ray) then
          Outcome.call1 (hitReflectRay m ray) (depth + 1) s1.Get1D.2
            (fun Lr => (hitObject m ray).emission
              + f * (Lr * (hitRe m ray / reflectProbability (hitRe m ray))))
        else
          Outcome.call1 (hitRefractRay m ray) (depth + 1) s1.Get1D.2
            (fun Lt => (hitObject m ray).emission
              + f * (Lt * ((1 - hitRe m ray) / (1 - reflectProbability (hitRe m ray)))))
      else
        Outcome.call2 (hitReflectRay m ray) (hitRefractRay m ray) (depth + 1) s1
          (fun Lr Lt => (hitObject m ray).emission
            + f * (Lr * hitRe m ray + Lt * (1 - hitRe m ray))) := by
  rw [RadianceBody_material m ray depth sampler f s1 hhit hdepth hrr,
    RadianceMaterial_refract m _ _ _ _ _ ray _ _ hmat,
    RadianceRefract_transmit m _ _ _ _ _ ray _ _ hT]
  rfl

/-- C8. Dielectric branch splitting is unbiased. For a hit on the Refract sphere at depth
`<= 100` along a unit direction where transmission is possible (`cosThetaT2 >= 0`), with
`P = 0.25 + 0.5 * Re` (which lies strictly between 0 and 1): for incremented depth `<= 2`
`Radiance` makes both nested calls and returns `Le + f * (Lr * Re + Lt * Tr)`; for incremented
depth `> 2` it draws `u` and returns `Le + f * (Lr * (Re / P))` from the reflected call alone
when `u < P`, and `Le + f * (Lt * (Tr / (1 - P)))` from the transmitted call alone otherwise,
which is `splitEstimate` at `u`; for fixed `Lr` and `Lt` the mean of `splitEstimate` over a
uniform `u` in `[0, 1)` equals the deterministic sum in every channel. -/
theorem C8_dielectric_split_unbiased (m : FloatMath ℝ) (hm : m.Exact) (ray : Ray ℝ)
    (depth : Int) (sampler : Sampler ℝ) (f : Vector3 ℝ) (s1 : Sampler ℝ)
    (hd : ray.direction.Dot ray.direction = 1)
    (hhit : (Intersect m ray 0).1 = true) (hdepth : depth ≤ 100)
    (hmat : (hitObject m ray).materialType = MaterialType.Refract)
    (hrr : rouletteStep m ray depth sampler = some (f, s1))
    (hT : ¬ hitCosThetaT2 m ray < 0) :
    reflectProbability (hitRe m ray) = 0.25 + 0.5 * hitRe m ray ∧
    0 < reflectProbability (hitRe m ray) ∧ reflectProbability (hitRe m ray) < 1 ∧
    (depth + 1 ≤ 2 →
      RadianceBody m ray depth sampler
        = Outcome.call2 (hitReflectRay m ray) (hitRefractRay m ray) (depth + 1) s1
            (fun Lr Lt => (hitObject m ray).emission
              + f * (Lr * hitRe m ray + Lt * (1 - hitRe m ray)))) ∧
    (2 < depth + 1 → s1.Get1D.1 < reflectProbability (hitRe m ray) →
      RadianceBody m ray depth sampler
        = Outcome.call1 (hitReflectRay m ray) (depth + 1) s1.Get1D.2
            (fun Lr => (hitObject m ray).emission
              + f * (Lr * (hitRe m ray / reflectProbability (hitRe m ray))))) ∧
    (2 < depth + 1 → reflectProbability (hitRe m ray) ≤ s1.Get1D.1 →
      RadianceBody m ray depth sampler
        = Outcome.call1 (hitRefractRay m ray) (depth + 1) s1.Get1D.2
            (fun Lt => (hitObject m ray).emission
              + f * (Lt * ((1 - hitRe m ray) / (1 - reflectProbability (hitRe m ray)))))) ∧
    (2 < depth + 1 → ∀ fuel : Nat, Radiance m (fuel + 1) ray depth sampler =
      (Radiance m fuel
        (if s1.Get1D.1 < reflectProbability (hitRe m ray) then hitReflectRay m ray
          else hitRefractRay m ray) (depth + 1) s1.Get1D.2).map
        (fun p => (splitEstimate (hitObject m ray).emission f p.1 p.1 (hitRe m ray) s1.Get1D.1,
          p.2))) ∧
    (∀ Lr Lt : Vector3 ℝ,
      (∫ u in Set.Ico (0 : ℝ) 1,
          (splitEstimate (hitObject m ray).emission f Lr Lt (hitRe m ray) u).x)
        = ((hitObject m ray).emission + f * (Lr * hitRe m ray + Lt * (1 - hitRe m ray))).x ∧
      (∫ u in Set.Ico (0 : ℝ) 1,
          (splitEstimate (hitObject m ray).emission f Lr Lt (hitRe m ray) u).y)
        = ((hitObject m ray).emission + f * (Lr * hitRe m ray + Lt * (1 - hitRe m ray))).y ∧
      (∫ u in Set.Ico (0 : ℝ) 1,
          (splitEstimate (hitObject m ray).emission f Lr Lt (hitRe m ray) u).z)
        = ((hitObject m ray).emission + f * (Lr * hitRe m ray + Lt * (1 - hitRe m ray))).z) := by
  obtain ⟨_, hRe0, hRe1, hP0, hP1⟩ := hit_weights m hm ray hd hhit hT
  have hPpos : 0 < reflectProbability (hitRe m ray) := lt_of_lt_of_le (by norm_num) hP0
  have hPlt : reflectProbability (hitRe m ray) < 1 := lt_of_le_of_lt hP1 (by norm_num)
  have hbody := RadianceBody_transmit m ray depth sampler f s1 hhit hdepth hmat hrr hT
  have hP' : reflectProbability (hitRe m ray) ≠ 0 := ne_of_gt hPpos
  have hQ' : 1 - reflectProbability (hitRe m ray) ≠ 0 := by linarith
  have hsx : ∀ (Lr Lt : Vector3 ℝ) (g : Vector3 ℝ → ℝ),
      (fun u => g (splitEstimate (hitObject m ray).emission f Lr Lt (hitRe m ray) u))
      = fun u => if u < reflectProbability (hitRe m ray)
          then g ((hitObject m ray).emission
            + f * (Lr * (hitRe m ray / reflectProbability (hitRe m ray))))
          else g ((hitObject m ray).emission
            + f * (Lt * ((1 - hitRe m ray) / (1 - reflectProbability (hitRe m ray))))) := by
    intro Lr Lt g
    funext u
    unfold splitEstimate
    split_ifs <;> rfl
  refine ⟨rfl, hPpos, hPlt, ?_, ?_, ?_, ?_, ?_⟩
  · intro h
    rw [hbody, if_neg (by omega)]
  · intro h hu
    rw [hbody, if_pos (by omega), if_pos hu]
  · intro h hu
    rw [hbody, if_pos (by omega), if_neg (not_lt.mpr hu)]
  · intro h fuel
    rw [Radiance_succ_run, hbody, if_pos (by omega)]
    by_cases hu : s1.Get1D.1 < reflectProbability (hitRe m ray)
    · rw [if_pos hu, if_pos hu, Outcome.run_call1]
      cases Radiance m fuel (hitReflectRay m ray) (depth + 1) s1.Get1D.2 with
      | none => rfl
      | some p => simp only [Option.map_some', splitEstimate, if_pos hu]
    · rw [if_neg hu, if_neg hu, Outcome.run_call1]
      cases Radiance m fuel (hitRefractRay m ray) (depth + 1) s1.Get1D.2 with
      | none => rfl
      | some p => simp only [Option.map_some', splitEstimate, if_neg hu]
  · intro Lr Lt
    refine ⟨?_, ?_, ?_⟩
    · rw [hsx Lr Lt (fun v => v.x), integral_Ico_step _ _ _ hPpos.le hPlt.le]
      simp only [Vector3.smul_def, Vector3.add_def, Vector3.mul_def]
      field_simp
      ring
    · rw [hsx Lr Lt (fun v => v.y), integral_Ico_step _ _ _ hPpos.le hPlt.le]
      simp only [Vector3.smul_def, Vector3.add_def, Vector3.mul_def]
      field_simp
      ring
    · rw [hsx Lr Lt (fun v => v.z), integral_Ico_step _ _ _ hPpos.le hPlt.le]
      simp only [Vector3.smul_def, Vector3.add_def, Vector3.mul_def]
      field_simp
      ring

/-- The probe ray at the Glass sphere enters the glass. -/
theorem hitInto_probeRayGlass (m : FloatMath F) (hm : m.Exact) :
    hitInto m (probeRayGlass : Ray F) = true := by
  have hhit : (Intersect m (probeRayGlass : Ray F) 0).1 = true := by
    rw [Intersect_probeRayGlass m hm]
  have hn := (hitNormal_unit m hm (probeRayGlass : Ray F) probeRayGlass_unit hhit).1
  unfold hitInto
  rw [refractInto_iff _ _ hn]
  unfold hitNormal hitPosition hitObject
  rw [Intersect_probeRayGlass m hm, Vector3.Normalize_dot]
  have hv : ((probeRayGlass : Ray F).origin + (probeRayGlass : Ray F).direction * (6.5 : F)
      - (sceneAt F 7).center).Dot ((probeRayGlass : Ray F).origin
        + (probeRayGlass : Ray F).direction * (6.5 : F) - (sceneAt F 7).center)
      = 16.5 * 16.5 := by
    simp [sceneAt, Scene, probeRayGlass, Vector3.Dot, Vector3.sub_def, Vector3.add_def,
      Vector3.smul_def]
    norm_num
  have hvd : ((probeRayGlass : Ray F).origin + (probeRayGlass : Ray F).direction * (6.5 : F)
      - (sceneAt F 7).center).Dot (probeRayGlass : Ray F).direction = -16.5 := by
    simp [sceneAt, Scene, probeRayGlass, Vector3.Dot, Vector3.sub_def, Vector3.add_def,
      Vector3.smul_def]
    norm_num
  show ((probeRayGlass : Ray F).origin + (probeRayGlass : Ray F).direction * (6.5 : F)
      - (sceneAt F 7).center).Dot (probeRayGlass : Ray F).direction
      * (1 / m.sqrt (((probeRayGlass : Ray F).origin + (probeRayGlass : Ray F).direction * (6.5 : F)
      - (sceneAt F 7).center).Dot ((probeRayGlass : Ray F).origin
        + (probeRayGlass : Ray F).direction * (6.5 : F) - (sceneAt F 7).center))) < 0
  rw [hv, hvd, hm.sqrt_eq (by norm_num : (0 : F) ≤ 16.5) rfl]
  norm_num

/-- C8, witness: the probe ray at the Glass sphere, depth 0, over the reals. -/
theorem C8_dielectric_split_unbiased_witness :
    FloatMath.Exact (⟨Real.sqrt, Real.cos, Real.sin, Real.pi⟩ : FloatMath ℝ) ∧
    (probeRayGlass : Ray ℝ).direction.Dot (probeRayGlass : Ray ℝ).direction = 1 ∧
    (Intersect (⟨Real.sqrt, Real.cos, Real.sin, Real.pi⟩ : FloatMath ℝ) probeRayGlass 0).1
      = true ∧
    (0 : Int) ≤ 100 ∧
    (hitObject (⟨Real.sqrt, Real.cos, Real.sin, Real.pi⟩ : FloatMath ℝ)
      probeRayGlass).materialType = MaterialType.Refract ∧
    rouletteStep (⟨Real.sqrt, Real.cos, Real.sin, Real.pi⟩ : FloatMath ℝ) probeRayGlass 0
        (Sampler.new (fun _ => (1 / 2 : ℝ)) SamplerKind.TrapezoidalSampler 10)
      = some ((hitObject (⟨Real.sqrt, Real.cos, Real.sin, Real.pi⟩ : FloatMath ℝ)
          probeRayGlass).color,
        Sampler.new (fun _ => (1 / 2 : ℝ)) SamplerKind.TrapezoidalSampler 10) ∧
    ¬ hitCosThetaT2 (⟨Real.sqrt, Real.cos, Real.sin, Real.pi⟩ : FloatMath ℝ) probeRayGlass < 0 ∧
    0 < reflectProbability
      (hitRe (⟨Real.sqrt, Real.cos, Real.sin, Real.pi⟩ : FloatMath ℝ) probeRayGlass) ∧
    reflectProbability
      (hitRe (⟨Real.sqrt, Real.cos, Real.sin, Real.pi⟩ : FloatMath ℝ) probeRayGlass) < 1 := by
  have hhit : (Intersect (⟨Real.sqrt, Real.cos, Real.sin, Real.pi⟩ : FloatMath ℝ)
      probeRayGlass 0).1 = true := by
    rw [Intersect_probeRayGlass _ realMath_exact]
  have hmat : (hitObject (⟨Real.sqrt, Real.cos, Real.sin, Real.pi⟩ : FloatMath ℝ)
      probeRayGlass).materialType = MaterialType.Refract := by
    unfold hitObject
    rw [Intersect_probeRayGlass _ realMath_exact]
    rfl
  have hrr : rouletteStep (⟨Real.sqrt, Real.cos, Real.sin, Real.pi⟩ : FloatMath ℝ)
      probeRayGlass 0 (Sampler.new (fun _ => (1 / 2 : ℝ)) SamplerKind.TrapezoidalSampler 10)
      = some ((hitObject (⟨Real.sqrt, Real.cos, Real.sin, Real.pi⟩ : FloatMath ℝ)
          probeRayGlass).color,
        Sampler.new (fun _ => (1 / 2 : ℝ)) SamplerKind.TrapezoidalSampler 10) := by
    unfold rouletteStep
    rw [if_neg (by decide)]
  have hT : ¬ hitCosThetaT2 (⟨Real.sqrt, Real.cos, Real.sin, Real.pi⟩ : FloatMath ℝ)
      probeRayGlass < 0 := by
    unfold hitCosThetaT2 hitEta
    rw [hitInto_probeRayGlass _ realMath_exact]
    have := cosThetaT2_entering
      (hitCosThetaI (⟨Real.sqrt, Real.cos, Real.sin, Real.pi⟩ : FloatMath ℝ) probeRayGlass)
    exact not_lt.mpr (le_trans (by norm_num) this)
  have h := C8_dielectric_split_unbiased (⟨Real.sqrt, Real.cos, Real.sin, Real.pi⟩ : FloatMath ℝ)
    realMath_exact probeRayGlass 0
    (Sampler.new (fun _ => (1 / 2 : ℝ)) SamplerKind.TrapezoidalSampler 10) _ _
    probeRayGlass_unit hhit (by decide) hmat hrr hT
  exact ⟨realMath_exact, probeRayGlass_unit, hhit, by decide, hmat, hrr, hT, h.2.1, h.2.2.1⟩


/-! ### The largest channel -/

/-- C18. The nested conditional computing `max_component` in `Radiance`,
`f.x > f.y && f.x > f.z ? f.x : f.y > f.z ? f.y : f.z`, equals `max(f.r, f.g, f.b)` for every
triple of channel values, ties included. -/
theorem C18_max_component (f : Vector3 F) : maxComponent f = max f.x (max f.y f.z) := by
  obtain ⟨h1, h2, h3⟩ := maxComponent_ge f
  apply le_antisymm
  · unfold maxComponent
    split_ifs
    · exact le_max_left _ _
    · exact le_trans (le_max_left _ _) (le_max_right _ _)
    · exact le_trans (le_max_right _ _) (le_max_right _ _)
  · exact max_le h1 (max_le h2 h3)

/-! ### The tent warp -/

theorem FloatMath.Exact.sqrt_lt {m : FloatMath F} (hm : m.Exact) {a b : F} (ha : 0 ≤ a)
    (h : a < b) : m.sqrt a < m.sqrt b := by
  by_contra hle
  push_neg at hle
  have h1 := hm.sqrt_mul_self a ha
  have h2 := hm.sqrt_mul_self b (le_trans ha h.le)
  have h3 := hm.sqrt_nonneg b (le_trans ha h.le)
  have h4 : m.sqrt b * m.sqrt b ≤ m.sqrt a * m.sqrt a := mul_le_mul hle hle h3 (le_trans h3 hle)
  linarith

theorem FloatMath.Exact.sqrt_lt_one {m : FloatMath F} (hm : m.Exact) {a : F} (ha : 0 ≤ a)
    (h : a < 1) : m.sqrt a < 1 := by
  have := hm.sqrt_lt ha h
  rwa [hm.sqrt_one] at this

/-- The tent warp on `u = 2 * r` for `r` in `[0, 1)`: its value by piece, and its range. -/
theorem tentWarp_spec (m : FloatMath F) (hm : m.Exact) (r : F) (h0 : 0 ≤ r) (h1 : r < 1) :
    (2 * r < 1 → tentWarp m (2 * r) = m.sqrt (2 * r) - 1 ∧ -1 ≤ tentWarp m (2 * r) ∧
      tentWarp m (2 * r) < 0) ∧
    (1 ≤ 2 * r → tentWarp m (2 * r) = 1 - m.sqrt (2 - 2 * r) ∧ 0 ≤ tentWarp m (2 * r) ∧
      tentWarp m (2 * r) < 1) := by
  constructor
  · intro h
    have e : tentWarp m (2 * r) = m.sqrt (2 * r) - 1 := by unfold tentWarp; rw [if_pos h]
    have hs0 := hm.sqrt_nonneg (2 * r) (by linarith)
    have hs1 := hm.sqrt_lt_one (by linarith : (0 : F) ≤ 2 * r) h
    rw [e]
    exact ⟨rfl, by linarith, by linarith⟩
  · intro h
    have e : tentWarp m (2 * r) = 1 - m.sqrt (2 - 2 * r) := by
      unfold tentWarp; rw [if_neg (not_lt.mpr h)]
    have hs0 := hm.sqrt_pos (by linarith : (0 : F) < 2 - 2 * r)
    have hs1 := hm.sqrt_le_one (by linarith : (0 : F) ≤ 2 - 2 * r) (by linarith)
    rw [e]
    exact ⟨rfl, by linarith, by linarith⟩

theorem tentWarp_range (m : FloatMath F) (hm : m.Exact) (r : F) (h0 : 0 ≤ r) (h1 : r < 1) :
    -1 ≤ tentWarp m (2 * r) ∧ tentWarp m (2 * r) < 1 := by
  obtain ⟨ha, hb⟩ := tentWarp_spec m hm r h0 h1
  rcases lt_or_le (2 * r) 1 with h | h
  · obtain ⟨_, h2, h3⟩ := ha h
    exact ⟨h2, by linarith⟩
  · obtain ⟨_, h2, h3⟩ := hb h
    exact ⟨by linarith, h3⟩

/-- C12. The tent warp of `TrapezoidalSampler::GetCameraSample` is the inverse CDF of the
triangle distribution on `[-1, 1)`. With `u = 2 * r` and `delta(r) = tentWarp u`
(`sqrt(u) - 1` if `u < 1`, else `1 - sqrt(2 - u)`): for every `r` in `[0, 1)`,
`tentCDF (delta r) = r`; `delta` is strictly increasing on `[0, 1)`; the first piece takes
values in `[-1, 0)`, the second in `[0, 1)`, and both pieces give 0 at `u = 1`. -/
theorem C12_tent_warp_inverse_cdf (m : FloatMath F) (hm : m.Exact) (r : F) (h0 : 0 ≤ r)
    (h1 : r < 1) :
    tentCDF (tentWarp m (2 * r)) = r ∧
    (2 * r < 1 → tentWarp m (2 * r) = m.sqrt (2 * r) - 1 ∧ -1 ≤ tentWarp m (2 * r) ∧
      tentWarp m (2 * r) < 0) ∧
    (1 ≤ 2 * r → tentWarp m (2 * r) = 1 - m.sqrt (2 - 2 * r) ∧ 0 ≤ tentWarp m (2 * r) ∧
      tentWarp m (2 * r) < 1) ∧
    (∀ r2 : F, r < r2 → r2 < 1 → tentWarp m (2 * r) < tentWarp m (2 * r2)) ∧
    (m.sqrt 1 - 1 = 0 ∧ 1 - m.sqrt (2 - 1) = 0 ∧ tentWarp m 1 = 0) := by
  obtain ⟨ha, hb⟩ := tentWarp_spec m hm r h0 h1
  refine ⟨?_, ha, hb, ?_, ?_⟩
  · rcases lt_or_le (2 * r) 1 with h | h
    · obtain ⟨e, _, hneg⟩ := ha h
      have hs := hm.sqrt_mul_self (2 * r) (by linarith)
      unfold tentCDF
      rw [if_pos hneg, e]
      linear_combination hs / 2
    · obtain ⟨e, hnn, _⟩ := hb h
      have hs := hm.sqrt_mul_self (2 - 2 * r) (by linarith)
      unfold tentCDF
      rw [if_neg (not_lt.mpr hnn), e]
      linear_combination -hs / 2
  · intro r2 hlt h2
    obtain ⟨ha2, hb2⟩ := tentWarp_spec m hm r2 (by linarith) h2
    rcases lt_or_le (2 * r) 1 with h | h
    · obtain ⟨e, _, hneg⟩ := ha h
      rcases lt_or_le (2 * r2) 1 with h' | h'
      · obtain ⟨e2, _, _⟩ := ha2 h'
        have := hm.sqrt_lt (by linarith : (0 : F) ≤ 2 * r) (by linarith : 2 * r < 2 * r2)
        rw [e, e2]; linarith
      · obtain ⟨_, hnn2, _⟩ := hb2 h'
        linarith
    · obtain ⟨e, _, _⟩ := hb h
      obtain ⟨e2, _, _⟩ := hb2 (by linarith)
      have := hm.sqrt_lt (by linarith : (0 : F) ≤ 2 - 2 * r2)
        (by linarith : 2 - 2 * r2 < 2 - 2 * r)
      rw [e, e2]; linarith
  · have h21 : (2 : F) - 1 = 1 := by norm_num
    refine ⟨by rw [hm.sqrt_one]; ring, by rw [h21, hm.sqrt_one]; ring, ?_⟩
    unfold tentWarp
    rw [if_neg (lt_irrefl _), h21, hm.sqrt_one]
    ring

/-- C12, witness: the draw `r = 1/4`, over the reals. -/
theorem C12_tent_warp_inverse_cdf_witness :
    FloatMath.Exact (⟨Real.sqrt, Real.cos, Real.sin, Real.pi⟩ : FloatMath ℝ) ∧
    (0 : ℝ) ≤ 1 / 4 ∧ (1 / 4 : ℝ) < 1 ∧
    tentCDF (tentWarp (⟨Real.sqrt, Real.cos, Real.sin, Real.pi⟩ : FloatMath ℝ) (2 * (1 / 4)))
      = 1 / 4 :=
  ⟨realMath_exact, by norm_num, by norm_num,
    (C12_tent_warp_inverse_cdf ⟨Real.sqrt, Real.cos, Real.sin, Real.pi⟩ realMath_exact (1 / 4)
      (by norm_num) (by norm_num)).1⟩

/-- The camera sample of a `TrapezoidalSampler`. -/
theorem Sampler.GetCameraSample_trapezoidal (m : FloatMath F) (s : Sampler F)
    (pFilm : Vector2 F) (hk : s.kind = SamplerKind.TrapezoidalSampler) :
    (s.GetCameraSample m pFilm).1.pFilm = pFilm.add
      ⟨(((Int.tmod s.currentSubPixelIndex 2 : Int) : F)
          + tentWarp m (2 * s.rng.UniformFloat.1) + 0.5) / 2,
        (((Int.tdiv s.currentSubPixelIndex 2 : Int) : F)
          + tentWarp m (2 * s.rng.UniformFloat.2.UniformFloat.1) + 0.5) / 2⟩ := by
  unfold Sampler.GetCameraSample
  rw [hk]

/-- C13. Tent-warp range. For every draw `r` in `[0, 1)` the warped offset lies in `[-1, 1)`;
for a `TrapezoidalSampler` at a stratum index in `0..3` whose generator draws in `[0, 1)`,
`GetCameraSample(pFilm)` returns `pFilm + s` with `s = (subPixel + delta + 0.5) / 2`,
`subPixelX, subPixelY` in `{0, 1}`, `deltaX, deltaY` in `[-1, 1)`, and each coordinate of `s` in
`[-0.25, 1.25)`. -/
theorem C13_tent_warp_range (m : FloatMath F) (hm : m.Exact) (s : Sampler F)
    (pFilm : Vector2 F) (hk : s.kind = SamplerKind.TrapezoidalSampler)
    (hsub0 : 0 ≤ s.currentSubPixelIndex) (hsub3 : s.currentSubPixelIndex ≤ 3)
    (hs : ∀ i, 0 ≤ s.rng.engine i ∧ s.rng.engine i < 1) :
    (∀ r : F, 0 ≤ r → r < 1 → -1 ≤ tentWarp m (2 * r) ∧ tentWarp m (2 * r) < 1) ∧
    (-1 ≤ tentWarp m (2 * s.rng.UniformFloat.1) ∧ tentWarp m (2 * s.rng.UniformFloat.1) < 1) ∧
    (-1 ≤ tentWarp m (2 * s.rng.UniformFloat.2.UniformFloat.1) ∧
      tentWarp m (2 * s.rng.UniformFloat.2.UniformFloat.1) < 1) ∧
    (Int.tmod s.currentSubPixelIndex 2 = 0 ∨ Int.tmod s.currentSubPixelIndex 2 = 1) ∧
    (Int.tdiv s.currentSubPixelIndex 2 = 0 ∨ Int.tdiv s.currentSubPixelIndex 2 = 1) ∧
    (s.GetCameraSample m pFilm).1.pFilm = pFilm.add
      ⟨(((Int.tmod s.currentSubPixelIndex 2 : Int) : F)
          + tentWarp m (2 * s.rng.UniformFloat.1) + 0.5) / 2,
        (((Int.tdiv s.currentSubPixelIndex 2 : Int) : F)
          + tentWarp m (2 * s.rng.UniformFloat.2.UniformFloat.1) + 0.5) / 2⟩ ∧
    (-0.25 ≤ (s.GetCameraSample m pFilm).1.pFilm.x - pFilm.x ∧
      (s.GetCameraSample m pFilm).1.pFilm.x - pFilm.x < 1.25) ∧
    (-0.25 ≤ (s.GetCameraSample m pFilm).1.pFilm.y - pFilm.y ∧
      (s.GetCameraSample m pFilm).1.pFilm.y - pFilm.y < 1.25) := by
  have hx := tentWarp_range m hm s.rng.UniformFloat.1 (hs _).1 (hs _).2
  have hy := tentWarp_range m hm s.rng.UniformFloat.2.UniformFloat.1 (hs _).1 (hs _).2
  have hcs := Sampler.GetCameraSample_trapezoidal m s pFilm hk
  have hmod : Int.tmod s.currentSubPixelIndex 2 = 0 ∨ Int.tmod s.currentSubPixelIndex 2 = 1 := by
    generalize s.currentSubPixelIndex = k at hsub0 hsub3
    interval_cases k <;> decide
  have hdiv : Int.tdiv s.currentSubPixelIndex 2 = 0 ∨ Int.tdiv s.currentSubPixelIndex 2 = 1 := by
    generalize s.currentSubPixelIndex = k at hsub0 hsub3
    interval_cases k <;> decide
  refine ⟨fun r h0 h1 => tentWarp_range m hm r h0 h1, hx, hy, hmod, hdiv, hcs, ?_, ?_⟩
  · rw [hcs]
    simp only [Vector2.add]
    rcases hmod with h | h <;> rw [h] <;> norm_num <;> constructor <;> linarith [hx.1, hx.2]
  · rw [hcs]
    simp only [Vector2.add]
    rcases hdiv with h | h <;> rw [h] <;> norm_num <;> constructor <;> linarith [hy.1, hy.2]

/-- C13, witness: a fresh `TrapezoidalSampler` (stratum 0) drawing `1/4`, over the reals. -/
theorem C13_tent_warp_range_witness :
    FloatMath.Exact (⟨Real.sqrt, Real.cos, Real.sin, Real.pi⟩ : FloatMath ℝ) ∧
    (Sampler.new (fun _ => (1 / 4 : ℝ)) SamplerKind.TrapezoidalSampler 10).kind
      = SamplerKind.TrapezoidalSampler ∧
    0 ≤ (Sampler.new (fun _ => (1 / 4 : ℝ)) SamplerKind.TrapezoidalSampler
      10).currentSubPixelIndex ∧
    (Sampler.new (fun _ => (1 / 4 : ℝ)) SamplerKind.TrapezoidalSampler
      10).currentSubPixelIndex ≤ 3 ∧
    (∀ i, 0 ≤ (Sampler.new (fun _ => (1 / 4 : ℝ)) SamplerKind.TrapezoidalSampler 10).rng.engine i ∧
      (Sampler.new (fun _ => (1 / 4 : ℝ)) SamplerKind.TrapezoidalSampler 10).rng.engine i < 1) ∧
    (-0.25 ≤ ((Sampler.new (fun _ => (1 / 4 : ℝ)) SamplerKind.TrapezoidalSampler
        10).GetCameraSample ⟨Real.sqrt, Real.cos, Real.sin, Real.pi⟩ ⟨3, 5⟩).1.pFilm.x - 3 ∧
      ((Sampler.new (fun _ => (1 / 4 : ℝ)) SamplerKind.TrapezoidalSampler
        10).GetCameraSample ⟨Real.sqrt, Real.cos, Real.sin, Real.pi⟩ ⟨3, 5⟩).1.pFilm.x - 3
        < 1.25) :=
  ⟨realMath_exact, rfl, le_refl _, by decide,
    fun _ => ⟨by norm_num [Sampler.new], by norm_num [Sampler.new]⟩,
    (C13_tent_warp_range ⟨Real.sqrt, Real.cos, Real.sin, Real.pi⟩ realMath_exact
      (Sampler.new (fun _ => (1 / 4 : ℝ)) SamplerKind.TrapezoidalSampler 10) ⟨3, 5⟩ rfl
      (le_refl _) (by decide)
      (fun _ => ⟨by norm_num [Sampler.new], by norm_num [Sampler.new]⟩)).2.2.2.2.2.2.1⟩

/-! ### A ray aimed at the centre of a sphere -/

theorem Vector3.dot_self_nonneg (a : Vector3 F) : 0 ≤ a.Dot a := by
  unfold Vector3.Dot
  nlinarith [mul_self_nonneg a.x, mul_self_nonneg a.y, mul_self_nonneg a.z]

/-- C14. For a sphere of radius `r > 0` and a ray whose direction is
`(c - o) / |c - o|` with `|c - o| - r > 1e-4` (so the origin lies outside the sphere),
`Sphere::Intersect` returns exactly `|c - o| - r`; the direction has unit length. -/
theorem C14_aimed_at_centre (m : FloatMath F) (hm : m.Exact) (s : Sphere F) (ray : Ray F)
    (hr : 0 < s.radius)
    (hdir : ray.direction = (s.center - ray.origin)
      / m.sqrt ((s.center - ray.origin).Dot (s.center - ray.origin)))
    (hgap : m.sqrt ((s.center - ray.origin).Dot (s.center - ray.origin)) - s.radius > 1e-4) :
    s.Intersect m ray
      = m.sqrt ((s.center - ray.origin).Dot (s.center - ray.origin)) - s.radius ∧
    ray.direction.Dot ray.direction = 1 ∧
    s.radius < m.sqrt ((s.center - ray.origin).Dot (s.center - ray.origin)) := by
  have hnn := Vector3.dot_self_nonneg (s.center - ray.origin)
  have hL2 := hm.sqrt_mul_self _ hnn
  have hLpos : 0 < m.sqrt ((s.center - ray.origin).Dot (s.center - ray.origin)) := by
    have : (0 : F) < 1e-4 := by norm_num
    linarith
  have hL0 := ne_of_gt hLpos
  have hb : (s.center - ray.origin).Dot ray.direction
      = m.sqrt ((s.center - ray.origin).Dot (s.center - ray.origin)) := by
    rw [hdir]
    generalize m.sqrt ((s.center - ray.origin).Dot (s.center - ray.origin)) = L at hL2 hL0 ⊢
    generalize s.center - ray.origin = oc at hL2 ⊢
    obtain ⟨x, y, z⟩ := oc
    simp only [Vector3.Dot, Vector3.sdiv_def] at hL2 ⊢
    field_simp
    linear_combination -hL2
  have hunit : ray.direction.Dot ray.direction = 1 := by
    rw [hdir]
    generalize m.sqrt ((s.center - ray.origin).Dot (s.center - ray.origin)) = L at hL2 hL0 ⊢
    generalize s.center - ray.origin = oc at hL2 ⊢
    obtain ⟨x, y, z⟩ := oc
    simp only [Vector3.Dot, Vector3.sdiv_def] at hL2 ⊢
    field_simp
    linear_combination -hL2
  have hD : s.discriminant ray = s.radius * s.radius := by
    unfold Sphere.discriminant
    rw [hb]
    linear_combination hL2
  have hsq : m.sqrt (s.discriminant ray) = s.radius := by
    rw [hD]; exact hm.sqrt_eq hr.le rfl
  have hout : s.radius < m.sqrt ((s.center - ray.origin).Dot (s.center - ray.origin)) := by
    have : (0 : F) < 1e-4 := by norm_num
    linarith
  refine ⟨?_, hunit, hout⟩
  rw [Sphere.Intersect_eq, hsq, hb, if_neg (by rw [hD]; exact not_lt.mpr (mul_nonneg hr.le hr.le)),
    if_pos hgap]

/-- C14, witness: the unit sphere centred at `(0, 0, 5)` and the ray from the origin along `z`,
over the reals. -/
theorem C14_aimed_at_centre_witness :
    FloatMath.Exact (⟨Real.sqrt, Real.cos, Real.sin, Real.pi⟩ : FloatMath ℝ) ∧
    (0 : ℝ) < (⟨1, ⟨0, 0, 5⟩, Vector3.zero, Vector3.zero, MaterialType.Diffuse⟩ : Sphere ℝ).radius ∧
    (⟨1, ⟨0, 0, 5⟩, Vector3.zero, Vector3.zero, MaterialType.Diffuse⟩ : Sphere ℝ).Intersect
        ⟨Real.sqrt, Real.cos, Real.sin, Real.pi⟩ ⟨⟨0, 0, 0⟩, ⟨0, 0, 1⟩⟩
      = Real.sqrt (((⟨0, 0, 5⟩ : Vector3 ℝ) - ⟨0, 0, 0⟩).Dot ((⟨0, 0, 5⟩ : Vector3 ℝ) - ⟨0, 0, 0⟩))
        - 1 := by
  have hs : Real.sqrt (((⟨0, 0, 5⟩ : Vector3 ℝ) - ⟨0, 0, 0⟩).Dot
      ((⟨0, 0, 5⟩ : Vector3 ℝ) - ⟨0, 0, 0⟩)) = 5 := by
    have : ((⟨0, 0, 5⟩ : Vector3 ℝ) - ⟨0, 0, 0⟩).Dot ((⟨0, 0, 5⟩ : Vector3 ℝ) - ⟨0, 0, 0⟩)
        = 5 * 5 := by
      simp [Vector3.Dot, Vector3.sub_def]
    rw [this]
    exact Real.sqrt_mul_self (by norm_num)
  exact ⟨realMath_exact, by norm_num,
    (C14_aimed_at_centre ⟨Real.sqrt, Real.cos, Real.sin, Real.pi⟩ realMath_exact
      ⟨1, ⟨0, 0, 5⟩, Vector3.zero, Vector3.zero, MaterialType.Diffuse⟩ ⟨⟨0, 0, 0⟩, ⟨0, 0, 1⟩⟩
      (by norm_num)
      (by
        show (⟨0, 0, 1⟩ : Vector3 ℝ) = ((⟨0, 0, 5⟩ : Vector3 ℝ) - ⟨0, 0, 0⟩)
          / Real.sqrt (((⟨0, 0, 5⟩ : Vector3 ℝ) - ⟨0, 0, 0⟩).Dot
            ((⟨0, 0, 5⟩ : Vector3 ℝ) - ⟨0, 0, 0⟩))
        rw [hs]
        simp [Vector3.sub_def, Vector3.sdiv_def])
      (by
        show Real.sqrt (((⟨0, 0, 5⟩ : Vector3 ℝ) - ⟨0, 0, 0⟩).Dot
            ((⟨0, 0, 5⟩ : Vector3 ℝ) - ⟨0, 0, 0⟩)) - 1 > 1e-4
        rw [hs]; norm_num)).1⟩

/-! ### The diffuse shading frame and the refraction direction -/

/-- C19. The diffuse shading frame is an orthonormal basis for every unit shading normal `w`.
With `axis = (0,1,0)` when `|w.x| > 0.1` and `(1,0,0)` otherwise, `axis x w` has positive length
(it is not the zero vector and the square root `Normalize` divides by is not zero);
`u = normalize(axis x w)`, `v = w x u` and `w` are mutually orthogonal unit vectors; and for
`phi = 2 * Pi * xi1` and a draw `xi2` in `[0, 1)` the direction
`u*cos(phi)*sqrt(xi2) + v*sin(phi)*sqrt(xi2) + w*sqrt(1 - xi2)` has unit length before it is
normalised, so `Normalize` leaves it unchanged and it is the direction of the nested ray of
the Diffuse branch. -/
theorem C19_diffuse_frame_orthonormal (m : FloatMath F) (hm : m.Exact) (w : Vector3 F)
    (s : Sampler F) (hw : w.Dot w = 1)
    (h0 : 0 ≤ s.Get1D.2.Get1D.1) (h1 : s.Get1D.2.Get1D.1 < 1) :
    let axis : Vector3 F := if |w.x| > 0.1 then ⟨0, 1, 0⟩ else ⟨1, 0, 0⟩
    let u := (axis.Cross w).Normalize m
    let v := w.Cross u
    let D := u * m.cos (2 * m.Pi * s.Get1D.1) * m.sqrt s.Get1D.2.Get1D.1
      + v * m.sin (2 * m.Pi * s.Get1D.1) * m.sqrt s.Get1D.2.Get1D.1
      + w * m.sqrt (1 - s.Get1D.2.Get1D.1)
    0 < (axis.Cross w).Dot (axis.Cross w) ∧
    axis.Cross w ≠ Vector3.zero ∧
    m.sqrt ((axis.Cross w).x * (axis.Cross w).x + (axis.Cross w).y * (axis.Cross w).y
      + (axis.Cross w).z * (axis.Cross w).z) ≠ 0 ∧
    u.Dot u = 1 ∧ v.Dot v = 1 ∧ w.Dot w = 1 ∧
    u.Dot v = 0 ∧ u.Dot w = 0 ∧ v.Dot w = 0 ∧
    D.Dot D = 1 ∧
    m.sqrt (D.x * D.x + D.y * D.y + D.z * D.z) = 1 ∧
    D.Normalize m = D ∧
    ∀ (obj : Sphere F) (f position : Vector3 F) (depth : Int),
      (RadianceDiffuse m obj f w position depth s).rays = [⟨position, D⟩] := by
  intro axis u v D
  have hpos := diffuse_axis_cross_pos w hw
  obtain ⟨hu, hv, huv, huw, hvw⟩ := diffuse_frame m hm w hw
  obtain ⟨hD, _, hN⟩ := diffuse_direction m hm w hw (2 * m.Pi * s.Get1D.1) s.Get1D.2.Get1D.1
    h0 h1.le
  refine ⟨hpos, ?_, hm.sqrt_ne_zero hpos, hu, hv, hw, huv, huw, hvw, hD, ?_, hN, ?_⟩
  · intro hz
    have hz' : (axis.Cross w).Dot (axis.Cross w) = 0 := by
      rw [hz]; simp [Vector3.zero, Vector3.Dot]
    exact absurd hz' (ne_of_gt hpos)
  · have : D.x * D.x + D.y * D.y + D.z * D.z = 1 := hD
    rw [this, hm.sqrt_one]
  · intro obj f position depth
    show [(⟨position, D.Normalize m⟩ : Ray F)] = [⟨position, D⟩]
    rw [hN]

/-- C19, witness: the unit normal `(0, 0, 1)`, over the reals, every draw equal to `1/2`. -/
theorem C19_diffuse_frame_orthonormal_witness :
    FloatMath.Exact (⟨Real.sqrt, Real.cos, Real.sin, Real.pi⟩ : FloatMath ℝ) ∧
    (⟨0, 0, 1⟩ : Vector3 ℝ).Dot ⟨0, 0, 1⟩ = 1 ∧
    0 ≤ (Sampler.new (fun _ => (1 / 2 : ℝ)) SamplerKind.TrapezoidalSampler 10).Get1D.2.Get1D.1 ∧
    (Sampler.new (fun _ => (1 / 2 : ℝ)) SamplerKind.TrapezoidalSampler 10).Get1D.2.Get1D.1 < 1 ∧
    0 < ((if |(⟨0, 0, 1⟩ : Vector3 ℝ).x| > 0.1 then (⟨0, 1, 0⟩ : Vector3 ℝ)
        else ⟨1, 0, 0⟩).Cross ⟨0, 0, 1⟩).Dot
      ((if |(⟨0, 0, 1⟩ : Vector3 ℝ).x| > 0.1 then (⟨0, 1, 0⟩ : Vector3 ℝ)
        else ⟨1, 0, 0⟩).Cross ⟨0, 0, 1⟩) :=
  ⟨realMath_exact, by norm_num [Vector3.Dot],
    by norm_num [Sampler.Get1D, RNG.UniformFloat, Sampler.new],
    by norm_num [Sampler.Get1D, RNG.UniformFloat, Sampler.new],
    (C19_diffuse_frame_orthonormal ⟨Real.sqrt, Real.cos, Real.sin, Real.pi⟩ realMath_exact
      ⟨0, 0, 1⟩ (Sampler.new (fun _ => (1 / 2 : ℝ)) SamplerKind.TrapezoidalSampler 10)
      (by norm_num [Vector3.Dot])
      (by norm_num [Sampler.Get1D, RNG.UniformFloat, Sampler.new])
      (by norm_num [Sampler.Get1D, RNG.UniformFloat, Sampler.new])).1⟩

theorem Vector3.dot_neg_one_smul (a n : Vector3 F) : a.Dot (n * (-1 : F)) = -(a.Dot n) := by
  simp only [Vector3.Dot, Vector3.smul_def]; ring

/-- C20. The refraction direction obeys Snell's law. With unit ray direction `d`, unit geometric
normal `n`, shading normal `sn` (`n` or `-n`, facing against `d`) and `cosThetaT2 >= 0`: the
vector `d*eta - n*((into ? 1 : -1)*(cosThetaI*eta + sqrt(cosThetaT2)))` has unit length before
`Normalize` is applied (the square root `Normalize` divides by is 1, and `refractDirection` is
that vector), its component along `sn` is `-sqrt(cosThetaT2)`, its component tangent to the
surface is `eta` times that of `d` (so `1 - cosThetaT2 = eta^2 * (1 - cosThetaI^2)`), and `eta`
is `1/1.5` when entering (`n.d < 0`) and `1.5` when leaving. -/
theorem C20_refraction_snell (m : FloatMath F) (hm : m.Exact) (n : Vector3 F) (ray : Ray F)
    (hn : n.Dot n = 1) (hd : ray.direction.Dot ray.direction = 1)
    (hT : 0 ≤ cosThetaT2 (refractEta (refractInto n (shadingNormal n ray)))
      (ray.direction.Dot (shadingNormal n ray))) :
    let sn := shadingNormal n ray
    let into := refractInto n sn
    let eta : F := refractEta into
    let cosThetaI := ray.direction.Dot sn
    let T2 := cosThetaT2 eta cosThetaI
    let V := refractVector m n ray into eta cosThetaI T2
    (sn = n ∨ sn = n * (-1 : F)) ∧ sn.Dot sn = 1 ∧ cosThetaI ≤ 0 ∧
    (into = true ↔ n.Dot ray.direction < 0) ∧
    (into = true → eta = 1 / 1.5) ∧ (into = false → eta = 1.5) ∧
    V.Dot V = 1 ∧
    m.sqrt (V.x * V.x + V.y * V.y + V.z * V.z) = 1 ∧
    refractDirection m n ray into eta cosThetaI T2 = V ∧
    V.Dot sn = -m.sqrt T2 ∧
    V - sn * V.Dot sn = (ray.direction - sn * cosThetaI) * eta ∧
    1 - V.Dot sn * V.Dot sn = eta * eta * (1 - cosThetaI * cosThetaI) := by
  intro sn into eta cosThetaI T2 V
  have hcases := shading_normal_cases n ray.direction hn
  have hsn1 : sn.Dot sn = 1 := shading_normal_unit n ray.direction hn
  have hcase : (into = true ∧ sn = n) ∨ (into = false ∧ sn = n * (-1 : F)) := by
    rcases hcases with ⟨a, b, _⟩ | ⟨a, b, _⟩
    · exact Or.inl ⟨a, b⟩
    · exact Or.inr ⟨a, b⟩
  obtain ⟨hV, hVn⟩ := refractVector_spec m hm n sn ray into eta hn hd hcase hT
  have hq := hm.sqrt_mul_self T2 hT
  have hVsn : V.Dot sn = -m.sqrt T2 := by
    rcases hcase with ⟨hi, hs⟩ | ⟨hi, hs⟩
    · have e : V.Dot n = (if into = true then -1 else 1) * m.sqrt T2 := hVn
      rw [hi] at e
      rw [hs, e]
      simp
    · have e : V.Dot n = (if into = true then -1 else 1) * m.sqrt T2 := hVn
      rw [hi] at e
      rw [hs, Vector3.dot_neg_one_smul, e]
      simp
  have hcosI : cosThetaI ≤ 0 := by
    rcases hcases with ⟨_, hs, hlt⟩ | ⟨_, hs, hge⟩
    · have hs' : sn = n := hs
      show ray.direction.Dot sn ≤ 0
      rw [hs', Vector3.dot_comm]
      exact hlt.le
    · have hs' : sn = n * (-1 : F) := hs
      show ray.direction.Dot sn ≤ 0
      rw [hs', Vector3.dot_neg_one_smul, Vector3.dot_comm]
      linarith
  refine ⟨?_, hsn1, hcosI, refractInto_iff n ray hn, ?_, ?_, hV, ?_,
    Vector3.Normalize_of_unit m hm V hV, hVsn, ?_, ?_⟩
  · rcases hcase with ⟨_, hs⟩ | ⟨_, hs⟩
    · exact Or.inl hs
    · exact Or.inr hs
  · intro h
    show refractEta into = 1 / 1.5
    rw [h]; exact refractEta_true
  · intro h
    show refractEta into = 1.5
    rw [h]; exact refractEta_false
  · have : V.x * V.x + V.y * V.y + V.z * V.z = 1 := hV
    rw [this, hm.sqrt_one]
  · rw [hVsn]
    rcases hcase with ⟨hi, hs⟩ | ⟨hi, hs⟩
    · show refractVector m n ray into eta (ray.direction.Dot sn) T2 - sn * -m.sqrt T2
        = (ray.direction - sn * ray.direction.Dot sn) * eta
      rw [hi, hs]
      simp only [refractVector, if_true, Vector3.sub_def, Vector3.smul_def, Vector3.mk.injEq]
      refine ⟨?_, ?_, ?_⟩ <;> ring
    · show refractVector m n ray into eta (ray.direction.Dot sn) T2 - sn * -m.sqrt T2
        = (ray.direction - sn * ray.direction.Dot sn) * eta
      rw [hi, hs]
      simp only [refractVector, Bool.false_eq_true, if_false, Vector3.sub_def, Vector3.smul_def,
        Vector3.mk.injEq, Vector3.Dot]
      refine ⟨?_, ?_, ?_⟩ <;> ring
  · rw [hVsn]
    have e : T2 = 1 - eta * eta * (1 - cosThetaI * cosThetaI) := rfl
    linear_combination -hq - e

/-- C20, witness: the ray `(1, 0, 0)` onto the normal `(-1, 0, 0)` (entering), over the
reals. -/
theorem C20_refraction_snell_witness :
    FloatMath.Exact (⟨Real.sqrt, Real.cos, Real.sin, Real.pi⟩ : FloatMath ℝ) ∧
    (⟨-1, 0, 0⟩ : Vector3 ℝ).Dot ⟨-1, 0, 0⟩ = 1 ∧
    (⟨⟨0, 0, 0⟩, ⟨1, 0, 0⟩⟩ : Ray ℝ).direction.Dot (⟨⟨0, 0, 0⟩, ⟨1, 0, 0⟩⟩ : Ray ℝ).direction = 1 ∧
    0 ≤ cosThetaT2 (refractEta (refractInto (⟨-1, 0, 0⟩ : Vector3 ℝ)
        (shadingNormal ⟨-1, 0, 0⟩ ⟨⟨0, 0, 0⟩, ⟨1, 0, 0⟩⟩)))
      ((⟨⟨0, 0, 0⟩, ⟨1, 0, 0⟩⟩ : Ray ℝ).direction.Dot
        (shadingNormal ⟨-1, 0, 0⟩ ⟨⟨0, 0, 0⟩, ⟨1, 0, 0⟩⟩)) ∧
    (refractVector (⟨Real.sqrt, Real.cos, Real.sin, Real.pi⟩ : FloatMath ℝ) ⟨-1, 0, 0⟩
        ⟨⟨0, 0, 0⟩, ⟨1, 0, 0⟩⟩
        (refractInto (⟨-1, 0, 0⟩ : Vector3 ℝ) (shadingNormal ⟨-1, 0, 0⟩ ⟨⟨0, 0, 0⟩, ⟨1, 0, 0⟩⟩))
        (refractEta (refractInto (⟨-1, 0, 0⟩ : Vector3 ℝ)
          (shadingNormal ⟨-1, 0, 0⟩ ⟨⟨0, 0, 0⟩, ⟨1, 0, 0⟩⟩)))
        ((⟨⟨0, 0, 0⟩, ⟨1, 0, 0⟩⟩ : Ray ℝ).direction.Dot
          (shadingNormal ⟨-1, 0, 0⟩ ⟨⟨0, 0, 0⟩, ⟨1, 0, 0⟩⟩))
        (cosThetaT2 (refractEta (refractInto (⟨-1, 0, 0⟩ : Vector3 ℝ)
            (shadingNormal ⟨-1, 0, 0⟩ ⟨⟨0, 0, 0⟩, ⟨1, 0, 0⟩⟩)))
          ((⟨⟨0, 0, 0⟩, ⟨1, 0, 0⟩⟩ : Ray ℝ).direction.Dot
            (shadingNormal ⟨-1, 0, 0⟩ ⟨⟨0, 0, 0⟩, ⟨1, 0, 0⟩⟩)))).Dot
      (refractVector (⟨Real.sqrt, Real.cos, Real.sin, Real.pi⟩ : FloatMath ℝ) ⟨-1, 0, 0⟩
        ⟨⟨0, 0, 0⟩, ⟨1, 0, 0⟩⟩
        (refractInto (⟨-1, 0, 0⟩ : Vector3 ℝ) (shadingNormal ⟨-1, 0, 0⟩ ⟨⟨0, 0, 0⟩, ⟨1, 0, 0⟩⟩))
        (refractEta (refractInto (⟨-1, 0, 0⟩ : Vector3 ℝ)
          (shadingNormal ⟨-1, 0, 0⟩ ⟨⟨0, 0, 0⟩, ⟨1, 0, 0⟩⟩)))
        ((⟨⟨0, 0, 0⟩, ⟨1, 0, 0⟩⟩ : Ray ℝ).direction.Dot
          (shadingNormal ⟨-1, 0, 0⟩ ⟨⟨0, 0, 0⟩, ⟨1, 0, 0⟩⟩))
        (cosThetaT2 (refractEta (refractInto (⟨-1, 0, 0⟩ : Vector3 ℝ)
            (shadingNormal ⟨-1, 0, 0⟩ ⟨⟨0, 0, 0⟩, ⟨1, 0, 0⟩⟩)))
          ((⟨⟨0, 0, 0⟩, ⟨1, 0, 0⟩⟩ : Ray ℝ).direction.Dot
            (shadingNormal ⟨-1, 0, 0⟩ ⟨⟨0, 0, 0⟩, ⟨1, 0, 0⟩⟩)))) = 1 := by
  have hn : (⟨-1, 0, 0⟩ : Vector3 ℝ).Dot ⟨-1, 0, 0⟩ = 1 := by norm_num [Vector3.Dot]
  have hd : (⟨⟨0, 0, 0⟩, ⟨1, 0, 0⟩⟩ : Ray ℝ).direction.Dot
      (⟨⟨0, 0, 0⟩, ⟨1, 0, 0⟩⟩ : Ray ℝ).direction = 1 := by norm_num [Vector3.Dot]
  have hinto : refractInto (⟨-1, 0, 0⟩ : Vector3 ℝ)
      (shadingNormal ⟨-1, 0, 0⟩ ⟨⟨0, 0, 0⟩, ⟨1, 0, 0⟩⟩) = true :=
    (refractInto_iff _ _ hn).mpr (by norm_num [Vector3.Dot])
  have hT : 0 ≤ cosThetaT2 (refractEta (refractInto (⟨-1, 0, 0⟩ : Vector3 ℝ)
        (shadingNormal ⟨-1, 0, 0⟩ ⟨⟨0, 0, 0⟩, ⟨1, 0, 0⟩⟩)))
      ((⟨⟨0, 0, 0⟩, ⟨1, 0, 0⟩⟩ : Ray ℝ).direction.Dot
        (shadingNormal ⟨-1, 0, 0⟩ ⟨⟨0, 0, 0⟩, ⟨1, 0, 0⟩⟩)) := by
    rw [hinto]
    exact le_trans (by norm_num) (cosThetaT2_entering _)
  exact ⟨realMath_exact, hn, hd, hT,
    (C20_refraction_snell ⟨Real.sqrt, Real.cos, Real.sin, Real.pi⟩ realMath_exact ⟨-1, 0, 0⟩
      ⟨⟨0, 0, 0⟩, ⟨1, 0, 0⟩⟩ hn hd hT).2.2.2.2.2.2.1⟩

/-! ### Unit directions along the call tree -/

theorem Outcome.Good.rays_unit {o : Outcome F} (h : o.Good) :
    ∀ r ∈ o.rays, r.direction.Dot r.direction = 1 := by
  cases o with
  | ret c s => intro r hr; simp [Outcome.rays] at hr
  | call1 r0 d s k =>
    intro r hr
    simp only [Outcome.rays, List.mem_singleton] at hr
    rw [hr]; exact h.1
  | call2 r1 r2 d s k =>
    intro r hr
    simp only [Outcome.rays, List.mem_cons, List.mem_singleton, List.not_mem_nil, or_false] at hr
    rcases hr with hr | hr
    · rw [hr]; exact h.1
    · rw [hr]; exact h.2.1

/-- Started on a ray with unit direction, every activation in the call tree of `Radiance` is
entered with a ray of unit direction. -/
theorem RadianceRaysUnit_of_unit (m : FloatMath F) (hm : m.Exact) :
    ∀ (fuel : Nat) (ray : Ray F) (depth : Int) (s : Sampler F),
      ray.direction.Dot ray.direction = 1 → s.DrawsInUnit →
      RadianceRaysUnit m fuel ray depth s := by
  intro fuel
  induction fuel with
  | zero => intro ray depth s hd _; exact hd
  | succ fuel ih =>
    intro ray depth s hd hs
    have hgood := RadianceBody_good m hm ray depth s hd hs
    unfold RadianceRaysUnit
    refine ⟨hd, ?_⟩
    cases hb : RadianceBody m ray depth s with
    | ret c0 s0 => trivial
    | call1 r d s0 k =>
      rw [hb] at hgood
      exact ih r d s0 hgood.1 hgood.2.1
    | call2 r1 r2 d s0 k =>
      rw [hb] at hgood
      obtain ⟨hr1, hr2, hs0, _⟩ := hgood
      refine ⟨ih r1 d s0 hr1 hs0, fun p hp => ?_⟩
      exact ih r2 d p.2 hr2 (Radiance_nonneg m hm fuel r1 d s0 p.1 p.2 hr1 hs0 hp).2

/-- C15. Ray unit-direction invariant inside the integrator. If the ray passed to `Radiance` has
unit direction (and the sampler draws in `[0, 1)`), then every ray the activation constructs for
a nested call has unit direction, and so has the ray of every activation further down the call
tree, whatever the nesting bound; in particular the mirror direction `d - n*2*(n.d)` of the
`Specular` branch and of `reflectRay`, which is not passed through `Normalize`, has unit length
for every unit normal `n`. -/
theorem C15_unit_direction_invariant (m : FloatMath F) (hm : m.Exact) (ray : Ray F) (depth : Int)
    (sampler : Sampler F) (hd : ray.direction.Dot ray.direction = 1)
    (hs : sampler.DrawsInUnit) :
    (∀ r ∈ (RadianceBody m ray depth sampler).rays, r.direction.Dot r.direction = 1) ∧
    (∀ fuel, RadianceRaysUnit m fuel ray depth sampler) ∧
    (∀ n : Vector3 F, n.Dot n = 1 →
      (reflectDirection n ray).Dot (reflectDirection n ray) = 1 ∧
      reflectDirection n ray = ray.direction - n * (2 : F) * n.Dot ray.direction ∧
      ∀ (obj : Sphere F) (f position : Vector3 F) (d : Int) (s : Sampler F),
        (RadianceSpecular obj f n position ray d s).rays
          = [⟨position, reflectDirection n ray⟩]) := by
  refine ⟨(RadianceBody_good m hm ray depth sampler hd hs).rays_unit,
    fun fuel => RadianceRaysUnit_of_unit m hm fuel ray depth sampler hd hs, fun n hn => ?_⟩
  exact ⟨Vector3.mirror_unit n ray.direction hn hd, rfl, fun _ _ _ _ _ => rfl⟩

/-- C15, witness: the probe ray at the Glass sphere, over the reals, with every draw equal to
`1/2`. -/
theorem C15_unit_direction_invariant_witness :
    FloatMath.Exact (⟨Real.sqrt, Real.cos, Real.sin, Real.pi⟩ : FloatMath ℝ) ∧
    (probeRayGlass : Ray ℝ).direction.Dot (probeRayGlass : Ray ℝ).direction = 1 ∧
    (Sampler.new (fun _ => (1 / 2 : ℝ)) SamplerKind.TrapezoidalSampler 10).DrawsInUnit ∧
    (∀ r ∈ (RadianceBody (⟨Real.sqrt, Real.cos, Real.sin, Real.pi⟩ : FloatMath ℝ) probeRayGlass 0
        (Sampler.new (fun _ => (1 / 2 : ℝ)) SamplerKind.TrapezoidalSampler 10)).rays,
      r.direction.Dot r.direction = 1) ∧
    (∀ fuel, RadianceRaysUnit (⟨Real.sqrt, Real.cos, Real.sin, Real.pi⟩ : FloatMath ℝ) fuel
      probeRayGlass 0 (Sampler.new (fun _ => (1 / 2 : ℝ)) SamplerKind.TrapezoidalSampler 10)) := by
  have hs : (Sampler.new (fun _ => (1 / 2 : ℝ)) SamplerKind.TrapezoidalSampler 10).DrawsInUnit := by
    intro i
    simp only [Sampler.new]
    norm_num
  have h := C15_unit_direction_invariant ⟨Real.sqrt, Real.cos, Real.sin, Real.pi⟩ realMath_exact
    probeRayGlass 0 (Sampler.new (fun _ => (1 / 2 : ℝ)) SamplerKind.TrapezoidalSampler 10)
    probeRayGlass_unit hs
  exact ⟨realMath_exact, probeRayGlass_unit, hs, h.1, h.2.1⟩

/-! ### The sampler protocol -/

/-- Within a stratum (`0 <= currentSampleIndex < samplesPerPixel`, `samplesPerPixel >= 2`), a
`StartNextSample` call of `TrapezoidalSampler` that returns false is followed by one that
returns true. -/
theorem Sampler.StartNextSample_false_then_true (s : Sampler F)
    (hk : s.kind = SamplerKind.TrapezoidalSampler) (hn : 2 ≤ s.samplesPerPixel)
    (hmax : s.samplesPerPixel ≤ 2147483647) (h0 : 0 ≤ s.currentSampleIndex)
    (h1 : s.currentSampleIndex < s.samplesPerPixel) (hf : s.StartNextSample.1 = false) :
    s.StartNextSample.2.StartNextSample.1 = true := by
  have hw : wrapInt32 (s.currentSampleIndex + 1) = s.currentSampleIndex + 1 :=
    wrapInt32_of_range _ (by omega) (by omega)
  have hw1 : wrapInt32 ((0 : Int) + 1) = 1 := by unfold wrapInt32; norm_num
  obtain ⟨kind, rng, n, i, j⟩ := s
  simp only at hk hn hmax h0 h1 hw
  subst hk
  simp only [Sampler.StartNextSample, hw] at hf ⊢
  by_cases hlt : i + 1 < n
  · rw [if_pos hlt] at hf
    exact absurd hf (by simp)
  · have heq : i + 1 = n := by omega
    rw [if_neg hlt, if_pos heq]
    simp only [hw1]
    rw [if_pos (by omega)]

/-- C11 (evaluation). After `StartPixel`, a `TrapezoidalSampler` constructed with
`samplesPerPixel = 2` returns true seven times from `StartNextSample`, then false, and then true
again on the next call: the call that returns false has reset `currentSampleIndex` to 0, so the
`else` branch that returns false is not reached. So it is for every `samplesPerPixel >= 2`
within a stratum. With `samplesPerPixel = 1`, and for the `StartNextSample` of the base class,
which `RandomSampler` uses, the calls after the first false return false. -/
theorem C11_false_not_terminal (mt : Nat → F) :
    ((Sampler.new mt SamplerKind.TrapezoidalSampler 2).StartPixel).nextFlags 9
      = [true, true, true, true, true, true, true, false, true] ∧
    ((Sampler.new mt SamplerKind.TrapezoidalSampler 2).StartPixel).nextFlags 17
      = [true, true, true, true, true, true, true, false,
         true, false, true, false, true, false, true, false, true] ∧
    ((Sampler.new mt SamplerKind.TrapezoidalSampler 1).StartPixel).nextFlags 8
      = [true, true, true, false, false, false, false, false] ∧
    ((Sampler.new mt SamplerKind.RandomSampler 2).StartPixel).nextFlags 6
      = [true, false, false, false, false, false] ∧
    (∀ s : Sampler F, s.kind = SamplerKind.TrapezoidalSampler → 2 ≤ s.samplesPerPixel →
      s.samplesPerPixel ≤ 2147483647 → 0 ≤ s.currentSampleIndex →
      s.currentSampleIndex < s.samplesPerPixel → s.StartNextSample.1 = false →
      s.StartNextSample.2.StartNextSample.1 = true) := by
  refine ⟨?_, ?_, ?_, ?_, Sampler.StartNextSample_false_then_true⟩ <;>
    simp [Sampler.nextFlags, Sampler.StartNextSample, Sampler.StartPixel, Sampler.new, wrapInt32,
      SubPixelNum]

theorem Sampler.call_static (m : FloatMath F) (op : SamplerOp F) (s : Sampler F) :
    (s.call m op).2.kind = s.kind ∧ (s.call m op).2.samplesPerPixel = s.samplesPerPixel := by
  cases op <;>
    simp only [Sampler.call, Sampler.StartPixel, Sampler.StartNextSample, Sampler.Get1D,
      Sampler.Get2D, Sampler.GetCameraSample] <;>
    (try split) <;> (try split) <;> (try split) <;>
    first | exact ⟨rfl, rfl⟩ | exact ⟨trivial, trivial⟩

theorem Sampler.after_static (m : FloatMath F) :
    ∀ (ops : List (SamplerOp F)) (s : Sampler F),
      (Sampler.after m ops s).kind = s.kind ∧
      (Sampler.after m ops s).samplesPerPixel = s.samplesPerPixel
  | [], _ => ⟨rfl, rfl⟩
  | op :: ops, s => by
    obtain ⟨h1, h2⟩ := Sampler.after_static m ops (s.call m op).2
    obtain ⟨h3, h4⟩ := Sampler.call_static m op s
    exact ⟨h1.trans h3, h2.trans h4⟩

/-- In any interleaving of calls on two sampler objects, each object returns what it returns
when its own calls are made on it alone. -/
theorem callsOnTwo_outputsOf (m : FloatMath F) :
    ∀ (ops : List (Bool × SamplerOp F)) (a b : Sampler F),
      outputsOf false (callsOnTwo m ops (a, b)) = Sampler.calls m (callsOf false ops) a ∧
      outputsOf true (callsOnTwo m ops (a, b)) = Sampler.calls m (callsOf true ops) b
  | [], _, _ => ⟨rfl, rfl⟩
  | (false, op) :: ops, a, b => by
    obtain ⟨h1, h2⟩ := callsOnTwo_outputsOf m ops (a.call m op).2 b
    constructor
    · simpa [callsOnTwo, outputsOf, callsOf, Sampler.calls] using h1
    · simpa [callsOnTwo, outputsOf, callsOf, Sampler.calls] using h2
  | (true, op) :: ops, a, b => by
    obtain ⟨h1, h2⟩ := callsOnTwo_outputsOf m ops a (b.call m op).2
    constructor
    · simpa [callsOnTwo, outputsOf, callsOf, Sampler.calls] using h1
    · simpa [callsOnTwo, outputsOf, callsOf, Sampler.calls] using h2

/-- C16. `Clone()` produces an independent sampler in the freshly constructed state. Let the
original be a sampler of either class constructed with `samplesPerPixel = n` on which any
sequence `pre` of calls has been made. Its clone is the sampler `Sampler.new mt kind n` : the
same class, the same `samplesPerPixel`, both counters 0 and the default-seeded generator at its
first output. In every interleaving `ops` of later calls on the two objects, the original
returns what it returns when only its own calls are made, and the clone returns what a newly
constructed sampler returns for the clone's calls. -/
theorem C16_clone_independent (m : FloatMath F) (mt : Nat → F) (kind : SamplerKind) (n : Int)
    (pre : List (SamplerOp F)) (ops : List (Bool × SamplerOp F)) :
    ((Sampler.after m pre (Sampler.new mt kind n)).Clone mt).kind = kind ∧
    ((Sampler.after m pre (Sampler.new mt kind n)).Clone mt).samplesPerPixel = n ∧
    ((Sampler.after m pre (Sampler.new mt kind n)).Clone mt).currentSampleIndex = 0 ∧
    ((Sampler.after m pre (Sampler.new mt kind n)).Clone mt).currentSubPixelIndex = 0 ∧
    ((Sampler.after m pre (Sampler.new mt kind n)).Clone mt).rng.engine = mt ∧
    ((Sampler.after m pre (Sampler.new mt kind n)).Clone mt).rng.count = 0 ∧
    (Sampler.after m pre (Sampler.new mt kind n)).Clone mt = Sampler.new mt kind n ∧
    outputsOf false (callsOnTwo m ops (Sampler.after m pre (Sampler.new mt kind n),
        (Sampler.after m pre (Sampler.new mt kind n)).Clone mt))
      = Sampler.calls m (callsOf false ops) (Sampler.after m pre (Sampler.new mt kind n)) ∧
    outputsOf true (callsOnTwo m ops (Sampler.after m pre (Sampler.new mt kind n),
        (Sampler.after m pre (Sampler.new mt kind n)).Clone mt))
      = Sampler.calls m (callsOf true ops) (Sampler.new mt kind n) := by
  obtain ⟨hk, hn⟩ := Sampler.after_static m pre (Sampler.new mt kind n)
  have hclone : (Sampler.after m pre (Sampler.new mt kind n)).Clone mt = Sampler.new mt kind n := by
    unfold Sampler.Clone
    rw [hk, hn]
    rfl
  obtain ⟨h1, h2⟩ := callsOnTwo_outputsOf m ops (Sampler.after m pre (Sampler.new mt kind n))
    ((Sampler.after m pre (Sampler.new mt kind n)).Clone mt)
  rw [hclone] at h1 h2 ⊢
  exact ⟨rfl, rfl, rfl, rfl, rfl, rfl, rfl, h1, h2⟩

/-! ### The film -/

theorem bmpBytes_length (encode : F → Int) (floats : Nat → F) :
    ∀ n i, (bmpBytes encode floats n i).length = 3 * n
  | 0, _ => rfl
  | n + 1, i => by
    simp only [bmpBytes, List.length_cons, bmpBytes_length encode floats n (i + 3)]
    ring

theorem bmpRows_length (bytes : List Int) (line_num : Nat) :
    ∀ y, y * line_num ≤ bytes.length → (bmpRows bytes line_num y).length = y * line_num
  | 0, _ => by simp [bmpRows]
  | y + 1, h => by
    have h1 : y * line_num + line_num ≤ bytes.length := by
      have : (y + 1) * line_num = y * line_num + line_num := by ring
      omega
    have ih := bmpRows_length bytes line_num y (by omega)
    simp only [bmpRows, List.length_append, List.length_take, List.length_drop, ih]
    have : (y + 1) * line_num = y * line_num + line_num := by ring
    rw [this, Nat.min_eq_left (by omega)]
    omega

/-- C17 (evaluation). `store_bmp_impl` writes each row with `line_num = width * channel` bytes,
not with `padding_line_bytes` : for `channel = 3` the data body has `3 * width * height` bytes
whatever the width. For `width = 1`, `height = 2` the header declares `file_size = 62`
(`54 + 4 * 2`) while 60 bytes are written; the six bytes of the body are buffer row 1 and then
buffer row 0, each pixel in B, G, R order. For `width = 4` (a row of 12 bytes) the two sizes
agree. -/
theorem C17_row_stride_not_padded (encode : F → Int) (floats : Nat → F) :
    (∀ width height : Nat,
      (store_bmp_impl encode width height 3 floats).body.length = 3 * width * height) ∧
    (store_bmp_impl encode 1 2 3 floats).file_size = 62 ∧
    (store_bmp_impl encode 1 2 3 floats).bytesWritten = 60 ∧
    (store_bmp_impl encode 1 2 3 floats).body
      = [toUInt8 (encode (floats 5)), toUInt8 (encode (floats 4)), toUInt8 (encode (floats 3)),
         toUInt8 (encode (floats 2)), toUInt8 (encode (floats 1)), toUInt8 (encode (floats 0))] ∧
    (store_bmp_impl encode 1 1 3 floats).file_size = 58 ∧
    (store_bmp_impl encode 1 1 3 floats).bytesWritten = 57 ∧
    (store_bmp_impl encode 4 2 3 floats).file_size = 78 ∧
    (store_bmp_impl encode 4 2 3 floats).bytesWritten = 78 := by
  have hlen : ∀ width height : Nat,
      (store_bmp_impl encode width height 3 floats).body.length = 3 * width * height := by
    intro width height
    have hb : (bmpBytes encode floats ((width * height * 3 + 2) / 3) 0).length
        = width * height * 3 := by
      rw [bmpBytes_length]; omega
    simp only [store_bmp_impl]
    rw [bmpRows_length _ _ _ (by rw [hb]; exact le_of_eq (by ring))]
    ring
  refine ⟨hlen, rfl, ?_, ?_, rfl, ?_, rfl, ?_⟩
  · simp only [BmpFile.bytesWritten, hlen]
  · rfl
  · simp only [BmpFile.bytesWritten, hlen]
  · simp only [BmpFile.bytesWritten, hlen]


/-! ### The Fresnel weights of the dielectric branch -/

theorem schlickRe_zero : schlickRe (0 : F) = 0.04 := by
  unfold schlickRe
  norm_num

/-- C21. Fresnel weights are well defined. In the Refract branch with unit ray direction, unit
normal and `cosThetaT2 >= 0`: the Schlick term `c` lies in `[0, 1]`, so `R0 = 0.04 <= Re <= 1`,
`0 <= Tr = 1 - Re <= 0.96` and `Re + Tr = 1`; `P = 0.25 + 0.5 * Re` lies in `[0.27, 0.75]`,
neither `P` nor `1 - P` is zero, and the weights `RP = Re / P` and `TP = Tr / (1 - P)` are
non-negative and bounded (`RP <= 4/3`, `TP <= 96/73`), with `RP * P = Re` and
`TP * (1 - P) = Tr`. The branch returns with these weights. -/
theorem C21_fresnel_weights (m : FloatMath F) (hm : m.Exact) (n : Vector3 F) (ray : Ray F)
    (hn : n.Dot n = 1) (hd : ray.direction.Dot ray.direction = 1)
    (hT : 0 ≤ cosThetaT2 (refractEta (refractInto n (shadingNormal n ray)))
      (ray.direction.Dot (shadingNormal n ray))) :
    let sn := shadingNormal n ray
    let into := refractInto n sn
    let eta : F := refractEta into
    let cosThetaI := ray.direction.Dot sn
    let T2 := cosThetaT2 eta cosThetaI
    let c := schlickC into cosThetaI (refractDirection m n ray into eta cosThetaI T2) n
    let Re := schlickRe c
    let Tr := 1 - Re
    let P := reflectProbability Re
    let RP := Re / P
    let TP := Tr / (1 - P)
    (0 ≤ c ∧ c ≤ 1) ∧
    (schlickRe (0 : F) = 0.04 ∧ Re = 0.04 + (1 - 0.04) * c * c * c * c * c) ∧
    (0.04 ≤ Re ∧ Re ≤ 1) ∧
    (0 ≤ Tr ∧ Tr ≤ 0.96 ∧ Re + Tr = 1) ∧
    (P = 0.25 + 0.5 * Re ∧ 0.27 ≤ P ∧ P ≤ 0.75 ∧ P ≠ 0 ∧ 1 - P ≠ 0) ∧
    (0 ≤ RP ∧ RP ≤ 4 / 3 ∧ RP * P = Re) ∧
    (0 ≤ TP ∧ TP ≤ 96 / 73 ∧ TP * (1 - P) = Tr) ∧
    ∀ (obj : Sphere F) (f position : Vector3 F) (depth : Int) (s : Sampler F),
      RadianceRefract m obj f n sn position ray depth s =
        if depth > 2 then
          if s.Get1D.1 < P then
            Outcome.call1 ⟨position, reflectDirection n ray⟩ depth s.Get1D.2
              (fun Lr => obj.emission + f * (Lr * RP))
          else
            Outcome.call1 ⟨position, refractDirection m n ray into eta cosThetaI T2⟩ depth
              s.Get1D.2 (fun Lt => obj.emission + f * (Lt * TP))
        else
          Outcome.call2 ⟨position, reflectDirection n ray⟩
            ⟨position, refractDirection m n ray into eta cosThetaI T2⟩ depth s
            (fun Lr Lt => obj.emission + f * (Lr * Re + Lt * Tr)) := by
  intro sn into eta cosThetaI T2 c Re Tr P RP TP
  have hT' : ¬ cosThetaT2 (refractEta (refractInto n sn)) (ray.direction.Dot sn) < 0 :=
    not_lt.mpr hT
  obtain ⟨_, hc0, hc1⟩ := refract_weights m hm n ray hn hd sn rfl hT'
  have hc0' : 0 ≤ c := hc0
  have hc1' : c ≤ 1 := hc1
  obtain ⟨hRe0, hRe1⟩ := schlickRe_bounds c hc0' hc1'
  have hRe0' : (0.04 : F) ≤ Re := hRe0
  have hRe1' : Re ≤ 1 := hRe1
  have hReq : Re = 0.04 + (1 - 0.04) * c * c * c * c * c := by
    show schlickRe c = _
    unfold schlickRe
    norm_num
  have hP : P = 0.25 + 0.5 * Re := rfl
  have hRe4 : (4 : F) / 100 ≤ Re := by norm_num at hRe0' ⊢; exact hRe0'
  have hPlo : 0.27 ≤ P := by rw [hP]; norm_num; linarith
  have hPhi : P ≤ 0.75 := by rw [hP]; norm_num; linarith
  have hPpos : 0 < P := lt_of_lt_of_le (by norm_num) hPlo
  have hQpos : 0 < 1 - P := by
    have : (0.75 : F) < 1 := by norm_num
    linarith
  have hRe00 : 0 ≤ Re := le_trans (by norm_num) hRe4
  refine ⟨⟨hc0', hc1'⟩, ⟨schlickRe_zero, hReq⟩, ⟨hRe0', hRe1'⟩, ⟨?_, ?_, ?_⟩,
    ⟨hP, hPlo, hPhi, ne_of_gt hPpos, ne_of_gt hQpos⟩, ⟨?_, ?_, ?_⟩, ⟨?_, ?_, ?_⟩, ?_⟩
  · show 0 ≤ 1 - Re
    linarith
  · show 1 - Re ≤ 0.96
    norm_num; linarith
  · show Re + (1 - Re) = 1
    ring
  · exact div_nonneg hRe00 hPpos.le
  · show Re / P ≤ 4 / 3
    rw [div_le_iff₀ hPpos, hP]
    norm_num; linarith
  · show Re / P * P = Re
    exact div_mul_cancel₀ Re (ne_of_gt hPpos)
  · exact div_nonneg (by show 0 ≤ 1 - Re; linarith) hQpos.le
  · show (1 - Re) / (1 - P) ≤ 96 / 73
    rw [div_le_iff₀ hQpos, hP]
    norm_num; linarith
  · show (1 - Re) / (1 - P) * (1 - P) = 1 - Re
    exact div_mul_cancel₀ _ (ne_of_gt hQpos)
  · intro obj f position depth s
    exact RadianceRefract_transmit m obj f n sn position ray depth s hT'

/-- C21, witness: the ray `(1, 0, 0)` onto the normal `(-1, 0, 0)` (entering, head-on), over the
reals. -/
theorem C21_fresnel_weights_witness :
    FloatMath.Exact (⟨Real.sqrt, Real.cos, Real.sin, Real.pi⟩ : FloatMath ℝ) ∧
    (⟨-1, 0, 0⟩ : Vector3 ℝ).Dot (⟨-1, 0, 0⟩ : Vector3 ℝ) = 1 ∧
    (⟨⟨0, 0, 0⟩, ⟨1, 0, 0⟩⟩ : Ray ℝ).direction.Dot (⟨⟨0, 0, 0⟩, ⟨1, 0, 0⟩⟩ : Ray ℝ).direction = 1 ∧
    0 ≤ cosThetaT2 (refractEta (refractInto (⟨-1, 0, 0⟩ : Vector3 ℝ) (shadingNormal (⟨-1, 0, 0⟩
      : Vector3 ℝ) (⟨⟨0, 0, 0⟩, ⟨1, 0, 0⟩⟩ : Ray ℝ)))) ((⟨⟨0, 0, 0⟩, ⟨1, 0, 0⟩⟩ : Ray
      ℝ).direction.Dot (shadingNormal (⟨-1, 0, 0⟩ : Vector3 ℝ) (⟨⟨0, 0, 0⟩, ⟨1, 0, 0⟩⟩ : Ray
      ℝ))) ∧
    0.04 ≤ schlickRe (schlickC (refractInto (⟨-1, 0, 0⟩ : Vector3 ℝ) (shadingNormal (⟨-1, 0, 0⟩
      : Vector3 ℝ) (⟨⟨0, 0, 0⟩, ⟨1, 0, 0⟩⟩ : Ray ℝ))) ((⟨⟨0, 0, 0⟩, ⟨1, 0, 0⟩⟩ : Ray
      ℝ).direction.Dot (shadingNormal (⟨-1, 0, 0⟩ : Vector3 ℝ) (⟨⟨0, 0, 0⟩, ⟨1, 0, 0⟩⟩ : Ray
      ℝ))) (refractDirection (⟨Real.sqrt, Real.cos, Real.sin, Real.pi⟩ : FloatMath ℝ) (⟨-1, 0,
      0⟩ : Vector3 ℝ) (⟨⟨0, 0, 0⟩, ⟨1, 0, 0⟩⟩ : Ray ℝ) (refractInto (⟨-1, 0, 0⟩ : Vector3 ℝ)
      (shadingNormal (⟨-1, 0, 0⟩ : Vector3 ℝ) (⟨⟨0, 0, 0⟩, ⟨1, 0, 0⟩⟩ : Ray ℝ))) (refractEta
      (refractInto (⟨-1, 0, 0⟩ : Vector3 ℝ) (shadingNormal (⟨-1, 0, 0⟩ : Vector3 ℝ) (⟨⟨0, 0, 0⟩,
      ⟨1, 0, 0⟩⟩ : Ray ℝ)))) ((⟨⟨0, 0, 0⟩, ⟨1, 0, 0⟩⟩ : Ray ℝ).direction.Dot (shadingNormal
      (⟨-1, 0, 0⟩ : Vector3 ℝ) (⟨⟨0, 0, 0⟩, ⟨1, 0, 0⟩⟩ : Ray ℝ))) (cosThetaT2 (refractEta
      (refractInto (⟨-1, 0, 0⟩ : Vector3 ℝ) (shadingNormal (⟨-1, 0, 0⟩ : Vector3 ℝ) (⟨⟨0, 0, 0⟩,
      ⟨1, 0, 0⟩⟩ : Ray ℝ)))) ((⟨⟨0, 0, 0⟩, ⟨1, 0, 0⟩⟩ : Ray ℝ).direction.Dot (shadingNormal
      (⟨-1, 0, 0⟩ : Vector3 ℝ) (⟨⟨0, 0, 0⟩, ⟨1, 0, 0⟩⟩ : Ray ℝ))))) (⟨-1, 0, 0⟩ : Vector3 ℝ)) ∧
    schlickRe (schlickC (refractInto (⟨-1, 0, 0⟩ : Vector3 ℝ) (shadingNormal (⟨-1, 0, 0⟩ :
      Vector3 ℝ) (⟨⟨0, 0, 0⟩, ⟨1, 0, 0⟩⟩ : Ray ℝ))) ((⟨⟨0, 0, 0⟩, ⟨1, 0, 0⟩⟩ : Ray
      ℝ).direction.Dot (shadingNormal (⟨-1, 0, 0⟩ : Vector3 ℝ) (⟨⟨0, 0, 0⟩, ⟨1, 0, 0⟩⟩ : Ray
      ℝ))) (refractDirection (⟨Real.sqrt, Real.cos, Real.sin, Real.pi⟩ : FloatMath ℝ) (⟨-1, 0,
      0⟩ : Vector3 ℝ) (⟨⟨0, 0, 0⟩, ⟨1, 0, 0⟩⟩ : Ray ℝ) (refractInto (⟨-1, 0, 0⟩ : Vector3 ℝ)
      (shadingNormal (⟨-1, 0, 0⟩ : Vector3 ℝ) (⟨⟨0, 0, 0⟩, ⟨1, 0, 0⟩⟩ : Ray ℝ))) (refractEta
      (refractInto (⟨-1, 0, 0⟩ : Vector3 ℝ) (shadingNormal (⟨-1, 0, 0⟩ : Vector3 ℝ) (⟨⟨0, 0, 0⟩,
      ⟨1, 0, 0⟩⟩ : Ray ℝ)))) ((⟨⟨0, 0, 0⟩, ⟨1, 0, 0⟩⟩ : Ray ℝ).direction.Dot (shadingNormal
      (⟨-1, 0, 0⟩ : Vector3 ℝ) (⟨⟨0, 0, 0⟩, ⟨1, 0, 0⟩⟩ : Ray ℝ))) (cosThetaT2 (refractEta
      (refractInto (⟨-1, 0, 0⟩ : Vector3 ℝ) (shadingNormal (⟨-1, 0, 0⟩ : Vector3 ℝ) (⟨⟨0, 0, 0⟩,
      ⟨1, 0, 0⟩⟩ : Ray ℝ)))) ((⟨⟨0, 0, 0⟩, ⟨1, 0, 0⟩⟩ : Ray ℝ).direction.Dot (shadingNormal
      (⟨-1, 0, 0⟩ : Vector3 ℝ) (⟨⟨0, 0, 0⟩, ⟨1, 0, 0⟩⟩ : Ray ℝ))))) (⟨-1, 0, 0⟩ : Vector3 ℝ)) ≤
      1 := by
  have hn : (⟨-1, 0, 0⟩ : Vector3 ℝ).Dot (⟨-1, 0, 0⟩ : Vector3 ℝ) = 1 := by
    norm_num [Vector3.Dot]
  have hd : (⟨⟨0, 0, 0⟩, ⟨1, 0, 0⟩⟩ : Ray ℝ).direction.Dot
      (⟨⟨0, 0, 0⟩, ⟨1, 0, 0⟩⟩ : Ray ℝ).direction = 1 := by
    norm_num [Vector3.Dot]
  have hinto : refractInto (⟨-1, 0, 0⟩ : Vector3 ℝ)
      (shadingNormal (⟨-1, 0, 0⟩ : Vector3 ℝ) (⟨⟨0, 0, 0⟩, ⟨1, 0, 0⟩⟩ : Ray ℝ)) = true :=
    (refractInto_iff _ _ hn).mpr (by norm_num [Vector3.Dot])
  have hT : 0 ≤ cosThetaT2 (refractEta (refractInto (⟨-1, 0, 0⟩ : Vector3 ℝ) (shadingNormal
    (⟨-1, 0, 0⟩ : Vector3 ℝ) (⟨⟨0, 0, 0⟩, ⟨1, 0, 0⟩⟩ : Ray ℝ)))) ((⟨⟨0, 0, 0⟩, ⟨1, 0, 0⟩⟩ : Ray
    ℝ).direction.Dot (shadingNormal (⟨-1, 0, 0⟩ : Vector3 ℝ) (⟨⟨0, 0, 0⟩, ⟨1, 0, 0⟩⟩ : Ray ℝ)))
    := by
    rw [hinto]
    exact le_trans (by norm_num) (cosThetaT2_entering _)
  exact ⟨realMath_exact, hn, hd, hT,
    (C21_fresnel_weights (⟨Real.sqrt, Real.cos, Real.sin, Real.pi⟩ : FloatMath ℝ)
      realMath_exact (⟨-1, 0, 0⟩ : Vector3 ℝ) (⟨⟨0, 0, 0⟩, ⟨1, 0, 0⟩⟩ : Ray ℝ) hn hd hT).2.2.1⟩

/-! ### Russian roulette : no division by zero -/

theorem probeRayLight_unit :
    (probeRayLight : Ray F).direction.Dot (probeRayLight : Ray F).direction = 1 := by
  simp [probeRayLight, Vector3.Dot]

set_option maxHeartbeats 1000000 in
/-- The probe ray at the Light hits it (sphere 8) at distance 29.33. -/
theorem Intersect_probeRayLight (m : FloatMath F) (hm : m.Exact) (id0 : Nat) :
    Intersect m (probeRayLight : Ray F) id0 = (true, 29.33, 8) := by
  apply Intersect_eq_of_nearest m _ id0 8 29.33 (by norm_num)
  · rw [Sphere.Intersect_eq]
    have hD : (sceneAt F 8).discriminant (probeRayLight : Ray F) = 600 * 600 := by
      simp [Sphere.discriminant, sceneAt, Scene, probeRayLight, Vector3.Dot, Vector3.sub_def]
    have hs : m.sqrt ((sceneAt F 8).discriminant (probeRayLight : Ray F)) = 600 := by
      rw [hD]; exact hm.sqrt_eq (by norm_num) rfl
    have hb : ((sceneAt F 8).center - (probeRayLight : Ray F).origin).Dot
        (probeRayLight : Ray F).direction = 629.33 := by
      simp [sceneAt, Scene, probeRayLight, Vector3.Dot, Vector3.sub_def]
      norm_num
    rw [hs, hb, hD]
    norm_num
  · norm_num
  · norm_num
  · intro j hj hne
    apply Sphere.Intersect_zero_or_gt m hm _ _ probeRayLight_unit
    intro r hr hgt
    interval_cases j
    all_goals first
      | exact absurd rfl hne
      | (simp [Sphere.IsRoot, sceneAt, Scene, probeRayLight, Vector3.Dot, Vector3.sub_def,
          Vector3.add_def, Vector3.smul_def, Vector3.zero] at hr
         norm_num at hr hgt ⊢
         nlinarith)

theorem russianRoulette_some_iff (f f' : Vector3 F) (p u : F) :
    russianRoulette f p u = some f' ↔ u < p ∧ f' = f * (1 / p) := by
  unfold russianRoulette
  constructor
  · intro h
    split_ifs at h with hlt
    exact ⟨hlt, (Option.some.inj h).symm⟩
  · rintro ⟨hlt, rfl⟩
    rw [if_pos hlt]

/-- The spheres of the scene whose reflectance is black are the Front wall (3) and the Light
(8). -/
theorem Scene_black (i : Nat) (hi : i < 9) :
    maxComponent (sceneAt F i).color = 0 ↔ i = 3 ∨ i = 8 := by
  interval_cases i <;>
    simp [maxComponent, sceneAt, Scene, Vector3.zero, Vector3.smul_def] <;> norm_num

/-- C22. Russian roulette never divides by zero. With a draw `u` in `[0, 1)`, the rescaling
`f * (1 / max_component)` is executed exactly when `u < max_component`, which forces
`max_component > 0`. For a ray that hits a sphere whose reflectance is black
(`max_component = 0`; in the scene, exactly the Front wall and the Light), a call with
incremented depth `> 5` makes no nested call and returns the emission alone. -/
theorem C22_roulette_no_division_by_zero (m : FloatMath F) (ray : Ray F) (depth : Int)
    (sampler : Sampler F) (hu0 : 0 ≤ sampler.Get1D.1) (hu1 : sampler.Get1D.1 < 1)
    (hhit : (Intersect m ray 0).1 = true) (hdepth : depth + 1 > 5) :
    (∀ f1 : Vector3 F,
      russianRoulette (hitObject m ray).color (maxComponent (hitObject m ray).color)
          sampler.Get1D.1 = some f1 ↔
        sampler.Get1D.1 < maxComponent (hitObject m ray).color ∧
        f1 = (hitObject m ray).color * (1 / maxComponent (hitObject m ray).color)) ∧
    (∀ (f1 : Vector3 F) (s1 : Sampler F), rouletteStep m ray depth sampler = some (f1, s1) →
      0 < maxComponent (hitObject m ray).color ∧ maxComponent (hitObject m ray).color ≠ 0 ∧
      f1 = (hitObject m ray).color * (1 / maxComponent (hitObject m ray).color) ∧
      s1 = sampler.Get1D.2) ∧
    (∀ (f f1 : Vector3 F) (u : F), 0 ≤ u → russianRoulette f (maxComponent f) u = some f1 →
      0 < maxComponent f) ∧
    (maxComponent (hitObject m ray).color = 0 →
      rouletteStep m ray depth sampler = none ∧
      (RadianceBody m ray depth sampler).numCalls = 0 ∧
      RadianceBody m ray depth sampler = Outcome.ret (hitObject m ray).emission
        (if depth > 100 then sampler else sampler.Get1D.2) ∧
      ∀ fuel : Nat, Radiance m (fuel + 1) ray depth sampler =
        some ((hitObject m ray).emission, if depth > 100 then sampler else sampler.Get1D.2)) ∧
    (∀ i, i < 9 → (maxComponent (sceneAt F i).color = 0 ↔ i = 3 ∨ i = 8)) := by
  have _ := hu1
  have hstep : ∀ (f1 : Vector3 F) (s1 : Sampler F),
      rouletteStep m ray depth sampler = some (f1, s1) →
      russianRoulette (hitObject m ray).color (maxComponent (hitObject m ray).color)
        sampler.Get1D.1 = some f1 ∧ s1 = sampler.Get1D.2 := by
    intro f1 s1 h
    unfold rouletteStep at h
    rw [if_pos hdepth] at h
    cases hr : russianRoulette (hitObject m ray).color (maxComponent (hitObject m ray).color)
      sampler.Get1D.1 with
    | none => rw [hr] at h; exact absurd h (by simp)
    | some f2 =>
      rw [hr] at h
      simp only [Option.some.injEq, Prod.mk.injEq] at h
      exact ⟨by rw [h.1], h.2.symm⟩
  refine ⟨fun f1 => russianRoulette_some_iff _ _ _ _, ?_, ?_, ?_, Scene_black⟩
  · intro f1 s1 h
    obtain ⟨hr, hs1⟩ := hstep f1 s1 h
    obtain ⟨hlt, hf1⟩ := (russianRoulette_some_iff _ _ _ _).mp hr
    have hpos := lt_of_le_of_lt hu0 hlt
    exact ⟨hpos, ne_of_gt hpos, hf1, hs1⟩
  · intro f f1 u hu h
    exact lt_of_le_of_lt hu ((russianRoulette_some_iff _ _ _ _).mp h).1
  · intro hblack
    have hnone : russianRoulette (hitObject m ray).color (maxComponent (hitObject m ray).color)
        sampler.Get1D.1 = none :=
      russianRoulette_ge _ _ _ (by rw [hblack]; exact hu0)
    have hrs : rouletteStep m ray depth sampler = none := by
      unfold rouletteStep
      rw [if_pos hdepth, hnone]
    have hbody : RadianceBody m ray depth sampler = Outcome.ret (hitObject m ray).emission
        (if depth > 100 then sampler else sampler.Get1D.2) := by
      by_cases hdeep : depth > 100
      · rw [RadianceBody_deep m ray depth sampler hdeep, if_pos hdeep, hhit]
        rfl
      · rw [RadianceBody_hit m ray depth sampler hhit (not_lt.mp hdeep), hrs, if_neg hdeep]
    refine ⟨hrs, by rw [hbody]; rfl, hbody, fun fuel => ?_⟩
    rw [Radiance_succ_run, hbody]
    rfl

/-- C22, witness: the probe ray at the Light, entered at depth 5, over the reals, every draw
equal to `1/2`. -/
theorem C22_roulette_no_division_by_zero_witness :
    0 ≤ (Sampler.new (fun _ => (1 / 2 : ℝ)) SamplerKind.TrapezoidalSampler 10).Get1D.1 ∧
    (Sampler.new (fun _ => (1 / 2 : ℝ)) SamplerKind.TrapezoidalSampler 10).Get1D.1 < 1 ∧
    (Intersect (⟨Real.sqrt, Real.cos, Real.sin, Real.pi⟩ : FloatMath ℝ) probeRayLight 0).1
      = true ∧
    (5 : Int) + 1 > 5 ∧
    maxComponent (hitObject (⟨Real.sqrt, Real.cos, Real.sin, Real.pi⟩ : FloatMath ℝ)
      probeRayLight).color = 0 ∧
    ∀ fuel : Nat,
      Radiance (⟨Real.sqrt, Real.cos, Real.sin, Real.pi⟩ : FloatMath ℝ) (fuel + 1)
        probeRayLight 5 (Sampler.new (fun _ => (1 / 2 : ℝ)) SamplerKind.TrapezoidalSampler 10)
      = some ((hitObject (⟨Real.sqrt, Real.cos, Real.sin, Real.pi⟩ : FloatMath ℝ)
          probeRayLight).emission,
        if (5 : Int) > 100 then
          Sampler.new (fun _ => (1 / 2 : ℝ)) SamplerKind.TrapezoidalSampler 10
        else (Sampler.new (fun _ => (1 / 2 : ℝ)) SamplerKind.TrapezoidalSampler 10).Get1D.2) := by
  have hu0 : 0 ≤ (Sampler.new (fun _ => (1 / 2 : ℝ))
      SamplerKind.TrapezoidalSampler 10).Get1D.1 := by
    simp [Sampler.new, Sampler.Get1D, RNG.UniformFloat]
  have hu1 : (Sampler.new (fun _ => (1 / 2 : ℝ))
      SamplerKind.TrapezoidalSampler 10).Get1D.1 < 1 := by
    simp [Sampler.new, Sampler.Get1D, RNG.UniformFloat]
    norm_num
  have hhit : (Intersect (⟨Real.sqrt, Real.cos, Real.sin, Real.pi⟩ : FloatMath ℝ)
      probeRayLight 0).1 = true := by
    rw [Intersect_probeRayLight _ realMath_exact]
  have hblack : maxComponent (hitObject (⟨Real.sqrt, Real.cos, Real.sin, Real.pi⟩ : FloatMath ℝ)
      probeRayLight).color = 0 := by
    unfold hitObject
    rw [Intersect_probeRayLight _ realMath_exact]
    exact (Scene_black 8 (by norm_num)).mpr (Or.inr rfl)
  exact ⟨hu0, hu1, hhit, by norm_num, hblack,
    ((C22_roulette_no_division_by_zero (⟨Real.sqrt, Real.cos, Real.sin, Real.pi⟩ : FloatMath ℝ)
      probeRayLight 5 (Sampler.new (fun _ => (1 / 2 : ℝ)) SamplerKind.TrapezoidalSampler 10)
      hu0 hu1 hhit (by norm_num)).2.2.2.1 hblack).2.2.2⟩


/-! ### `Sphere::Intersect` in double arithmetic -/

theorem roundNearestEven_eq (x : ℚ) (k : Int) (h1 : (k : ℚ) - 1 / 2 < x)
    (h2 : x < (k : ℚ) + 1 / 2) : roundNearestEven x = k := by
  have hf1 : ((⌊x⌋ : Int) : ℚ) ≤ x := Int.floor_le x
  have hf2 : x < ((⌊x⌋ : Int) : ℚ) + 1 := Int.lt_floor_add_one x
  unfold roundNearestEven
  simp only
  by_cases ha : x - ((⌊x⌋ : Int) : ℚ) < 1 / 2
  · rw [if_pos ha]
    have a1 : (k : ℚ) < ((⌊x⌋ : Int) : ℚ) + 1 := by linarith
    have a2 : ((⌊x⌋ : Int) : ℚ) < (k : ℚ) + 1 := by linarith
    have b1 : k < ⌊x⌋ + 1 := by exact_mod_cast a1
    have b2 : ⌊x⌋ < k + 1 := by exact_mod_cast a2
    omega
  · rw [if_neg ha]
    by_cases hb : 1 / 2 < x - ((⌊x⌋ : Int) : ℚ)
    · rw [if_pos hb]
      have a1 : ((⌊x⌋ : Int) : ℚ) < (k : ℚ) := by linarith
      have a2 : (k : ℚ) < ((⌊x⌋ : Int) : ℚ) + 2 := by linarith
      have b1 : ⌊x⌋ < k := by exact_mod_cast a1
      have b2 : k < ⌊x⌋ + 2 := by exact_mod_cast a2
      omega
    · exfalso
      have he : x - ((⌊x⌋ : Int) : ℚ) = 1 / 2 := le_antisymm (not_lt.mp hb) (not_lt.mp ha)
      have a1 : (k : ℚ) - 1 < ((⌊x⌋ : Int) : ℚ) := by linarith
      have a2 : ((⌊x⌋ : Int) : ℚ) < (k : ℚ) := by linarith
      have b1 : k - 1 < ⌊x⌋ := by exact_mod_cast a1
      have b2 : ⌊x⌋ < k := by exact_mod_cast a2
      omega

theorem fl_eval (q : ℚ) (e k : Int) (hq : q ≠ 0) (hb : binade q = e) (he : -1022 ≤ e)
    (h1 : (k : ℚ) - 1 / 2 < q / 2 ^ (e - 52)) (h2 : q / 2 ^ (e - 52) < (k : ℚ) + 1 / 2) :
    fl q = (k : ℚ) * 2 ^ (e - 52) := by
  unfold fl
  rw [if_neg hq]
  simp only [hb, max_eq_left he]
  rw [roundNearestEven_eq _ k h1 h2]

theorem fl_zero : fl 0 = 0 := by
  unfold fl; rw [if_pos rfl]

theorem roundNearestEven_nonneg (x : ℚ) (h : 0 ≤ x) : 0 ≤ roundNearestEven x := by
  have hf : 0 ≤ ⌊x⌋ := Int.floor_nonneg.mpr h
  unfold roundNearestEven
  simp only
  split_ifs <;> omega

theorem fl_nonneg (q : ℚ) (h : 0 ≤ q) : 0 ≤ fl q := by
  unfold fl
  split_ifs with h0
  · exact le_refl _
  · have hu : (0 : ℚ) < 2 ^ (max (binade q) (-1022) - 52) := zpow_pos (by norm_num) _
    have hr := roundNearestEven_nonneg (q / 2 ^ (max (binade q) (-1022) - 52))
      (div_nonneg h hu.le)
    have hr' : (0 : ℚ) ≤ (roundNearestEven (q / 2 ^ (max (binade q) (-1022) - 52)) : ℚ) := by
      exact_mod_cast hr
    exact mul_nonneg hr' hu.le

theorem sqrtFl_zero : sqrtFl 0 = 0 := by
  unfold sqrtFl; rw [if_pos (le_refl _)]

/-- The double nearest to `100000 - 2 ^ (-40)` is `100000` : the doubles just below `100000`
are `2 ^ (-36)` apart. -/
theorem fl_grazing : fl (100000 - 1 / 1099511627776) = 100000 := by
  have hb : binade (100000 - 1 / 1099511627776) = 16 := by
    norm_num [binade, Nat.log2]
    rw [abs_of_pos (by norm_num)]
    norm_num
  rw [fl_eval _ 16 6871947673600000 (by norm_num) hb (by norm_num) (by norm_num) (by norm_num)]
  norm_num

theorem fl_1e10 : fl 10000000000 = 10000000000 := by
  have hb : binade 10000000000 = 33 := by
    norm_num [binade, Nat.log2]
  rw [fl_eval _ 33 5242880000000000 (by norm_num) hb (by norm_num) (by norm_num) (by norm_num)]
  norm_num

theorem fl_neg_1e10 : fl (-10000000000) = -10000000000 := by
  have hb : binade (-10000000000) = 33 := by
    norm_num [binade, Nat.log2]
  rw [fl_eval _ 33 (-5242880000000000) (by norm_num) hb (by norm_num) (by norm_num)
    (by norm_num)]
  norm_num

theorem fl_100001 : fl 100001 = 100001 := by
  have hb : binade 100001 = 16 := by
    norm_num [binade, Nat.log2]
  rw [fl_eval _ 16 6872016393076736 (by norm_num) hb (by norm_num) (by norm_num) (by norm_num)]
  norm_num

theorem fl_100000 : fl 100000 = 100000 := by
  have hb : binade 100000 = 16 := by
    norm_num [binade, Nat.log2]
  rw [fl_eval _ 16 6871947673600000 (by norm_num) hb (by norm_num) (by norm_num) (by norm_num)]
  norm_num

theorem fl_one : fl 1 = 1 := by
  have hb : binade 1 = 0 := by
    norm_num [binade, Nat.log2]
  rw [fl_eval _ 0 4503599627370496 (by norm_num) hb (by norm_num) (by norm_num) (by norm_num)]
  norm_num

theorem fl_grazing_origin : fl (1 + 1 / 1099511627776) = 1 + 1 / 1099511627776 := by
  have hb : binade (1 + 1 / 1099511627776) = 0 := by
    norm_num [binade, Nat.log2]
    rw [abs_of_pos (by norm_num)]
    norm_num
  rw [fl_eval _ 0 4503599627374592 (by norm_num) hb (by norm_num) (by norm_num) (by norm_num)]
  norm_num

/-- On the grazing ray the double code computes `oc = (100000, 0, 0)`, `neg_b = 0` and
`det = 0`, and reports a miss. -/
theorem IntersectFl_grazing : Sphere.IntersectFl grazingSphere grazingRay = 0 := by
  have hoc : (grazingSphere : Sphere ℚ).center.subFl (grazingRay : Ray ℚ).origin
      = ⟨100000, 0, 0⟩ := by
    have e : (100001 : ℚ) - (1 + 1 / 1099511627776) = 100000 - 1 / 1099511627776 := by
      norm_num
    simp only [Vector3.subFl, grazingSphere, grazingRay, sub_zero, fl_zero, e, fl_grazing]
  have hb : (⟨100000, 0, 0⟩ : Vector3 ℚ).DotFl (grazingRay : Ray ℚ).direction = 0 := by
    simp [Vector3.DotFl, grazingRay, fl_zero]
  have hoo : (⟨100000, 0, 0⟩ : Vector3 ℚ).DotFl ⟨100000, 0, 0⟩ = 10000000000 := by
    have e : (100000 : ℚ) * 100000 = 10000000000 := by norm_num
    simp only [Vector3.DotFl, e, mul_zero, fl_zero, add_zero, fl_1e10]
  have hr : (grazingSphere : Sphere ℚ).radius * (grazingSphere : Sphere ℚ).radius
      = 10000000000 := by
    simp only [grazingSphere]; norm_num
  have hdet : fl (fl (fl ((0 : ℚ) * 0) - 10000000000) + fl 10000000000) = 0 := by
    rw [mul_zero, fl_zero, zero_sub, fl_neg_1e10, fl_1e10, neg_add_cancel, fl_zero]
  have heps : ¬ ((0 : ℚ) > fl 1e-4) := not_lt.mpr (fl_nonneg _ (by norm_num))
  unfold Sphere.IntersectFl
  simp only [hoc, hb, hoo, hr, hdet, lt_irrefl, if_false, sqrtFl_zero, sub_zero, add_zero,
    fl_zero, heps]

/-- In exact arithmetic the grazing ray has a root above epsilon,
`sqrt (1e10 - (1e5 - 2 ^ (-40)) ^ 2)`, about `4.26e-4`. -/
theorem grazing_root :
    ∃ t : ℝ, (grazingSphere : Sphere ℝ).IsRoot grazingRay t ∧ t > 1e-4 := by
  have hD : (0 : ℝ) ≤ 10000000000 - (100000 - 1 / 1099511627776) ^ 2 := by norm_num
  refine ⟨Real.sqrt (10000000000 - (100000 - 1 / 1099511627776) ^ 2), ?_, ?_⟩
  · have hs := Real.mul_self_sqrt hD
    simp only [Sphere.IsRoot, grazingSphere, grazingRay, Vector3.Dot, Vector3.sub_def,
      Vector3.add_def, Vector3.smul_def]
    linear_combination hs
  · show (1e-4 : ℝ) < Real.sqrt (10000000000 - (100000 - 1 / 1099511627776) ^ 2)
    rw [Real.lt_sqrt (by norm_num)]
    norm_num

/-- C1, counterexample: in double arithmetic `Sphere::Intersect` reports a miss although a root
above `1e-4` exists. The sphere has radius `1e5` and centre `(100001, 0, 0)`, the ray starts at
`(1 + 2 ^ (-40), 0, 0)` with direction `(0, 1, 0)`; all these numbers are doubles. The code
computes `oc.x = 100001 - (1 + 2 ^ (-40))`, which rounds to `100000`, so `det = 0` and the
result is 0, while the exact roots are about `4.26e-4` and `-4.26e-4`. -/
theorem C1_counterexample :
    (0 : ℚ) < (grazingSphere : Sphere ℚ).radius ∧
    (grazingRay : Ray ℚ).direction.Dot (grazingRay : Ray ℚ).direction = 1 ∧
    (fl 100000 = 100000 ∧ fl 100001 = 100001 ∧
      fl (1 + 1 / 1099511627776) = 1 + 1 / 1099511627776 ∧ fl 0 = 0 ∧ fl 1 = 1) ∧
    (grazingSphere : Sphere ℚ).center.subFl (grazingRay : Ray ℚ).origin = ⟨100000, 0, 0⟩ ∧
    Sphere.IntersectFl grazingSphere grazingRay = 0 ∧
    (∃ t : ℝ, (grazingSphere : Sphere ℝ).IsRoot grazingRay t ∧ t > 1e-4) ∧
    ¬ (Sphere.IntersectFl grazingSphere grazingRay ≠ 0 ↔
      ∃ t : ℝ, (grazingSphere : Sphere ℝ).IsRoot grazingRay t ∧ t > 1e-4) := by
  have hoc : (grazingSphere : Sphere ℚ).center.subFl (grazingRay : Ray ℚ).origin
      = ⟨100000, 0, 0⟩ := by
    have e : (100001 : ℚ) - (1 + 1 / 1099511627776) = 100000 - 1 / 1099511627776 := by
      norm_num
    simp only [Vector3.subFl, grazingSphere, grazingRay, sub_zero, fl_zero, e, fl_grazing]
  refine ⟨by norm_num [grazingSphere], by norm_num [grazingRay, Vector3.Dot],
    ⟨fl_100000, fl_100001, fl_grazing_origin, fl_zero, fl_one⟩, hoc, IntersectFl_grazing,
    grazing_root, fun h => ?_⟩
  exact (h.mpr grazing_root) IntersectFl_grazing

/-! ### A ray under total internal reflection -/

theorem probeRayTIR_unit :
    (probeRayTIR : Ray F).direction.Dot (probeRayTIR : Ray F).direction = 1 := by
  simp [probeRayTIR, Vector3.Dot]

set_option maxHeartbeats 1000000 in
/-- The probe ray inside the Glass sphere hits it (sphere 7) from inside at distance 9.9. -/
theorem Intersect_probeRayTIR (m : FloatMath F) (hm : m.Exact) (id0 : Nat) :
    Intersect m (probeRayTIR : Ray F) id0 = (true, 9.9, 7) := by
  apply Intersect_eq_of_nearest m _ id0 7 9.9 (by norm_num)
  · rw [Sphere.Intersect_eq]
    have hD : (sceneAt F 7).discriminant (probeRayTIR : Ray F) = 9.9 * 9.9 := by
      simp [Sphere.discriminant, sceneAt, Scene, probeRayTIR, Vector3.Dot, Vector3.sub_def]
      norm_num
    have hs : m.sqrt ((sceneAt F 7).discriminant (probeRayTIR : Ray F)) = 9.9 := by
      rw [hD]; exact hm.sqrt_eq (by norm_num) rfl
    have hb : ((sceneAt F 7).center - (probeRayTIR : Ray F).origin).Dot
        (probeRayTIR : Ray F).direction = 0 := by
      simp [sceneAt, Scene, probeRayTIR, Vector3.Dot, Vector3.sub_def]
    rw [hs, hb, hD]
    norm_num
  · norm_num
  · norm_num
  · intro j hj hne
    apply Sphere.Intersect_zero_or_gt m hm _ _ probeRayTIR_unit
    intro r hr hgt
    interval_cases j
    all_goals first
      | exact absurd rfl hne
      | (simp [Sphere.IsRoot, sceneAt, Scene, probeRayTIR, Vector3.Dot, Vector3.sub_def,
          Vector3.add_def, Vector3.smul_def, Vector3.zero] at hr
         norm_num at hr hgt ⊢
         nlinarith)

/-- The probe ray inside the Glass sphere is leaving the glass, with `cosThetaI = -0.6`, beyond
the critical angle: `cosThetaT2 = 1 - 1.5^2 * (1 - 0.36) = -0.44`. -/
theorem hitCosThetaT2_probeRayTIR (m : FloatMath F) (hm : m.Exact) :
    hitInto m (probeRayTIR : Ray F) = false ∧
    hitCosThetaI m (probeRayTIR : Ray F) = -0.6 ∧
    hitCosThetaT2 m (probeRayTIR : Ray F) = -0.44 := by
  have hhit : (Intersect m (probeRayTIR : Ray F) 0).1 = true := by
    rw [Intersect_probeRayTIR m hm]
  have hn := (hitNormal_unit m hm (probeRayTIR : Ray F) probeRayTIR_unit hhit).1
  have hnd : (hitNormal m (probeRayTIR : Ray F)).Dot (probeRayTIR : Ray F).direction = 0.6 := by
    unfold hitNormal hitPosition hitObject
    rw [Intersect_probeRayTIR m hm, Vector3.Normalize_dot]
    have hv : ((probeRayTIR : Ray F).origin + (probeRayTIR : Ray F).direction * (9.9 : F)
        - (sceneAt F 7).center).Dot ((probeRayTIR : Ray F).origin
          + (probeRayTIR : Ray F).direction * (9.9 : F) - (sceneAt F 7).center)
        = 16.5 * 16.5 := by
      simp [sceneAt, Scene, probeRayTIR, Vector3.Dot, Vector3.sub_def, Vector3.add_def,
        Vector3.smul_def]
      norm_num
    have hvd : ((probeRayTIR : Ray F).origin + (probeRayTIR : Ray F).direction * (9.9 : F)
        - (sceneAt F 7).center).Dot (probeRayTIR : Ray F).direction = 9.9 := by
      simp [sceneAt, Scene, probeRayTIR, Vector3.Dot, Vector3.sub_def, Vector3.add_def,
        Vector3.smul_def]
    show ((probeRayTIR : Ray F).origin + (probeRayTIR : Ray F).direction * (9.9 : F)
        - (sceneAt F 7).center).Dot (probeRayTIR : Ray F).direction
        * (1 / m.sqrt (((probeRayTIR : Ray F).origin + (probeRayTIR : Ray F).direction * (9.9 : F)
        - (sceneAt F 7).center).Dot ((probeRayTIR : Ray F).origin
          + (probeRayTIR : Ray F).direction * (9.9 : F) - (sceneAt F 7).center))) = 0.6
    rw [hv, hvd, hm.sqrt_eq (by norm_num : (0 : F) ≤ 16.5) rfl]
    norm_num
  have hnot : ¬ (hitNormal m (probeRayTIR : Ray F)).Dot (probeRayTIR : Ray F).direction < 0 := by
    rw [hnd]; norm_num
  have hinto : hitInto m (probeRayTIR : Ray F) = false := by
    cases h : hitInto m (probeRayTIR : Ray F) with
    | false => rfl
    | true => exact absurd ((refractInto_iff _ _ hn).mp h) hnot
  have hsn : shadingNormal (hitNormal m (probeRayTIR : Ray F)) probeRayTIR
      = hitNormal m (probeRayTIR : Ray F) * (-1 : F) := by
    unfold shadingNormal
    rw [if_neg hnot]
  have hcos : hitCosThetaI m (probeRayTIR : Ray F) = -0.6 := by
    unfold hitCosThetaI
    rw [hsn, Vector3.dot_neg_one_smul, Vector3.dot_comm, hnd]
  refine ⟨hinto, hcos, ?_⟩
  unfold hitCosThetaT2 hitEta
  rw [hinto, hcos, refractEta_false]
  unfold cosThetaT2
  norm_num

/-- C9, witness: over the reals, at depth 0. First the probe ray inside the Glass sphere, which
leaves the glass beyond the critical angle (`cosThetaI = -0.6`, `cosThetaT2 = -0.44 < 0`) :
`Radiance` makes the single reflected call with the sampler untouched. Then the probe ray at the
Glass sphere from outside, which enters the glass: `cosThetaT2 >= 5/9`. -/
theorem C9_total_internal_reflection_witness :
    (probeRayTIR : Ray ℝ).direction.Dot (probeRayTIR : Ray ℝ).direction = 1 ∧
    (hitNormal (⟨Real.sqrt, Real.cos, Real.sin, Real.pi⟩ : FloatMath ℝ) probeRayTIR).Dot
      (hitNormal (⟨Real.sqrt, Real.cos, Real.sin, Real.pi⟩ : FloatMath ℝ) probeRayTIR) = 1 ∧
    (Intersect (⟨Real.sqrt, Real.cos, Real.sin, Real.pi⟩ : FloatMath ℝ) probeRayTIR 0).1
      = true ∧
    (0 : Int) ≤ 100 ∧
    (hitObject (⟨Real.sqrt, Real.cos, Real.sin, Real.pi⟩ : FloatMath ℝ)
      probeRayTIR).materialType = MaterialType.Refract ∧
    rouletteStep (⟨Real.sqrt, Real.cos, Real.sin, Real.pi⟩ : FloatMath ℝ) probeRayTIR 0
        (Sampler.new (fun _ => (1 / 2 : ℝ)) SamplerKind.TrapezoidalSampler 10)
      = some ((hitObject (⟨Real.sqrt, Real.cos, Real.sin, Real.pi⟩ : FloatMath ℝ)
          probeRayTIR).color,
        Sampler.new (fun _ => (1 / 2 : ℝ)) SamplerKind.TrapezoidalSampler 10) ∧
    hitCosThetaT2 (⟨Real.sqrt, Real.cos, Real.sin, Real.pi⟩ : FloatMath ℝ) probeRayTIR < 0 ∧
    hitInto (⟨Real.sqrt, Real.cos, Real.sin, Real.pi⟩ : FloatMath ℝ) probeRayTIR = false ∧
    1 - hitCosThetaI (⟨Real.sqrt, Real.cos, Real.sin, Real.pi⟩ : FloatMath ℝ) probeRayTIR
        * hitCosThetaI (⟨Real.sqrt, Real.cos, Real.sin, Real.pi⟩ : FloatMath ℝ) probeRayTIR
      > (1 / 1.5) * (1 / 1.5) ∧
    RadianceBody (⟨Real.sqrt, Real.cos, Real.sin, Real.pi⟩ : FloatMath ℝ) probeRayTIR 0
        (Sampler.new (fun _ => (1 / 2 : ℝ)) SamplerKind.TrapezoidalSampler 10)
      = Outcome.call1 (hitReflectRay (⟨Real.sqrt, Real.cos, Real.sin, Real.pi⟩ : FloatMath ℝ)
        probeRayTIR)
          (0 + 1) (Sampler.new (fun _ => (1 / 2 : ℝ)) SamplerKind.TrapezoidalSampler 10)
          (fun Lr => (hitObject (⟨Real.sqrt, Real.cos, Real.sin, Real.pi⟩ : FloatMath ℝ)
            probeRayTIR).emission
            + (hitObject (⟨Real.sqrt, Real.cos, Real.sin, Real.pi⟩ : FloatMath ℝ)
              probeRayTIR).color * Lr) ∧
    (∀ fuel : Nat,
      Radiance (⟨Real.sqrt, Real.cos, Real.sin, Real.pi⟩ : FloatMath ℝ) (fuel + 1) probeRayTIR 0
          (Sampler.new (fun _ => (1 / 2 : ℝ)) SamplerKind.TrapezoidalSampler 10)
        = (Radiance (⟨Real.sqrt, Real.cos, Real.sin, Real.pi⟩ : FloatMath ℝ) fuel
            (hitReflectRay (⟨Real.sqrt, Real.cos, Real.sin, Real.pi⟩ : FloatMath ℝ)
              probeRayTIR) (0 + 1)
            (Sampler.new (fun _ => (1 / 2 : ℝ)) SamplerKind.TrapezoidalSampler 10)).map
          (fun p => ((hitObject (⟨Real.sqrt, Real.cos, Real.sin, Real.pi⟩ : FloatMath ℝ)
            probeRayTIR).emission
            + (hitObject (⟨Real.sqrt, Real.cos, Real.sin, Real.pi⟩ : FloatMath ℝ)
              probeRayTIR).color * p.1, p.2))) ∧
    (probeRayGlass : Ray ℝ).direction.Dot (probeRayGlass : Ray ℝ).direction = 1 ∧
    (hitNormal (⟨Real.sqrt, Real.cos, Real.sin, Real.pi⟩ : FloatMath ℝ) probeRayGlass).Dot
      (hitNormal (⟨Real.sqrt, Real.cos, Real.sin, Real.pi⟩ : FloatMath ℝ) probeRayGlass) = 1 ∧
    (Intersect (⟨Real.sqrt, Real.cos, Real.sin, Real.pi⟩ : FloatMath ℝ) probeRayGlass 0).1
      = true ∧
    (0 : Int) ≤ 100 ∧
    (hitObject (⟨Real.sqrt, Real.cos, Real.sin, Real.pi⟩ : FloatMath ℝ)
      probeRayGlass).materialType = MaterialType.Refract ∧
    rouletteStep (⟨Real.sqrt, Real.cos, Real.sin, Real.pi⟩ : FloatMath ℝ) probeRayGlass 0
        (Sampler.new (fun _ => (1 / 2 : ℝ)) SamplerKind.TrapezoidalSampler 10)
      = some ((hitObject (⟨Real.sqrt, Real.cos, Real.sin, Real.pi⟩ : FloatMath ℝ)
          probeRayGlass).color,
        Sampler.new (fun _ => (1 / 2 : ℝ)) SamplerKind.TrapezoidalSampler 10) ∧
    (hitInto (⟨Real.sqrt, Real.cos, Real.sin, Real.pi⟩ : FloatMath ℝ) probeRayGlass = true ↔
      (hitNormal (⟨Real.sqrt, Real.cos, Real.sin, Real.pi⟩ : FloatMath ℝ) probeRayGlass).Dot
        (probeRayGlass : Ray ℝ).direction < 0) ∧
    (hitInto (⟨Real.sqrt, Real.cos, Real.sin, Real.pi⟩ : FloatMath ℝ) probeRayGlass = true →
      hitEta (⟨Real.sqrt, Real.cos, Real.sin, Real.pi⟩ : FloatMath ℝ) probeRayGlass = 1 / 1.5 ∧
      5 / 9 ≤ hitCosThetaT2 (⟨Real.sqrt, Real.cos, Real.sin, Real.pi⟩ : FloatMath ℝ)
        probeRayGlass) := by
  have hhit : (Intersect (⟨Real.sqrt, Real.cos, Real.sin, Real.pi⟩ : FloatMath ℝ)
      probeRayTIR 0).1 = true := by
    rw [Intersect_probeRayTIR _ realMath_exact]
  have hmat : (hitObject (⟨Real.sqrt, Real.cos, Real.sin, Real.pi⟩ : FloatMath ℝ)
      probeRayTIR).materialType = MaterialType.Refract := by
    unfold hitObject
    rw [Intersect_probeRayTIR _ realMath_exact]
    rfl
  have hn := (hitNormal_unit _ realMath_exact (probeRayTIR : Ray ℝ) probeRayTIR_unit hhit).1
  have hrr : rouletteStep (⟨Real.sqrt, Real.cos, Real.sin, Real.pi⟩ : FloatMath ℝ)
      probeRayTIR 0 (Sampler.new (fun _ => (1 / 2 : ℝ)) SamplerKind.TrapezoidalSampler 10)
      = some ((hitObject (⟨Real.sqrt, Real.cos, Real.sin, Real.pi⟩ : FloatMath ℝ)
          probeRayTIR).color,
        Sampler.new (fun _ => (1 / 2 : ℝ)) SamplerKind.TrapezoidalSampler 10) := by
    unfold rouletteStep
    rw [if_neg (by decide)]
  have h := C9_total_internal_reflection (⟨Real.sqrt, Real.cos, Real.sin, Real.pi⟩ : FloatMath ℝ)
    probeRayTIR 0 (Sampler.new (fun _ => (1 / 2 : ℝ)) SamplerKind.TrapezoidalSampler 10) _ _
    probeRayTIR_unit hn hhit (by decide) hmat hrr
  have hT : hitCosThetaT2 (⟨Real.sqrt, Real.cos, Real.sin, Real.pi⟩ : FloatMath ℝ)
    probeRayTIR < 0 := by
    rw [(hitCosThetaT2_probeRayTIR _ realMath_exact).2.2]
    norm_num
  have hhit2 : (Intersect (⟨Real.sqrt, Real.cos, Real.sin, Real.pi⟩ : FloatMath ℝ)
      probeRayGlass 0).1 = true := by
    rw [Intersect_probeRayGlass _ realMath_exact]
  have hmat2 : (hitObject (⟨Real.sqrt, Real.cos, Real.sin, Real.pi⟩ : FloatMath ℝ)
      probeRayGlass).materialType = MaterialType.Refract := by
    unfold hitObject
    rw [Intersect_probeRayGlass _ realMath_exact]
    rfl
  have hn2 := (hitNormal_unit _ realMath_exact (probeRayGlass : Ray ℝ) probeRayGlass_unit hhit2).1
  have hrr2 : rouletteStep (⟨Real.sqrt, Real.cos, Real.sin, Real.pi⟩ : FloatMath ℝ)
      probeRayGlass 0 (Sampler.new (fun _ => (1 / 2 : ℝ)) SamplerKind.TrapezoidalSampler 10)
      = some ((hitObject (⟨Real.sqrt, Real.cos, Real.sin, Real.pi⟩ : FloatMath ℝ)
          probeRayGlass).color,
        Sampler.new (fun _ => (1 / 2 : ℝ)) SamplerKind.TrapezoidalSampler 10) := by
    unfold rouletteStep
    rw [if_neg (by decide)]
  have h2 := C9_total_internal_reflection (⟨Real.sqrt, Real.cos, Real.sin, Real.pi⟩ : FloatMath ℝ)
    probeRayGlass 0 (Sampler.new (fun _ => (1 / 2 : ℝ)) SamplerKind.TrapezoidalSampler 10) _ _
    probeRayGlass_unit hn2 hhit2 (by decide) hmat2 hrr2
  exact ⟨probeRayTIR_unit, hn, hhit, by decide, hmat, hrr, hT, (h.2.2.2.2.1.mp hT).1,
    (h.2.2.2.2.1.mp hT).2, (h.2.2.2.2.2 hT).1, (h.2.2.2.2.2 hT).2,
    probeRayGlass_unit, hn2, hhit2, by decide, hmat2, hrr2, h2.1, h2.2.1⟩

end Theorems

end Smallpt
